import Mathlib

/-!
The synchronisation coordinator of vallox-mqtt (`main.go`).

A shallow embedding of the coordinator of `src/main.go`: the value cache and
duplicate test of `handleValloxEvent`, the re-poll check `resendOldValues`, the
speed negotiation (`hasSameRecentSpeed`, `sendSpeed`, the request case of the
`select` in `main`), the command intake `changeSpeedMessage`, the dispatcher
`publishValue` with the tables `topicMap` and `topicFlagMap`, and the announcer
`announceMeToMqttDiscovery` with the catalog `discovery`.

Modelling conventions.

* Instants (`time.Time`) and durations (`time.Duration`) are integers counting
  nanoseconds.  `time.Since t` is `now - t`.  Go saturates a duration at
  `±2^63` ns; every comparison below is against a bound of at most 15 minutes,
  which saturation cannot change.
* A handler takes one clock reading `now`: the few `time.Now()` calls made while
  one message is handled are identified.  `handleValloxEventAt` keeps the two
  readings of the event handler apart; `handleValloxEvent` is its instance with
  equal readings.
* A send on the buffered channel `speedUpdateSend` made by the loop itself blocks
  for ever when the buffer holds 10 values: `mainStepAt` takes the number of
  buffered values, `mainStep` is its instance for an empty buffer.
* Handlers are pure: the mutable package variables and the cache are fields of
  `State`; every goroutine start, channel send and device call is returned as an
  `Effect`, in program order.
* A failed type assertion (`e.Value.(int16)`) panics; handlers that can reach it
  return `Option`, with `none` for the panic.
* Bytes are natural numbers; the two narrowing conversions to `byte` are written
  with an explicit `% 256`.
* A Go map literal is the list of its entries in the order of the source.  Where
  the program ranges over a map, the order is unspecified in Go: statements about
  what is published are about membership and counts, or hold for every order.
-/

namespace ValloxMqtt

/-! ## Time -/

/-! Instants are integers: nanoseconds on the clock of the process. -/

/-- The Go constant `time.Millisecond`. -/
def millisecond : Int := 1000000

/-- The Go constant `time.Second`. -/
def second : Int := 1000000000

/-- The Go constant `time.Minute`. -/
def minute : Int := 60000000000

/-! ## The device collaborator (package `vallox-rs485`, not part of the repository) -/

/-- Dynamic value of the `interface{}` field `vallox.Event.Value`: either an
`int16`, or a value of some other dynamic type (kept as its printed form). -/
inductive Value where
  | int16 (v : Int)
  | other (shown : String)
  deriving DecidableEq, Repr

/-- The fields of `vallox.Event` that `main.go` reads. -/
structure Event where
  Register : Nat
  RawValue : Nat
  Value : Value
  deriving DecidableEq, Repr

/-- What `main.go` uses of the device handle and of the package constants:
the addressing predicate `ForMe` and the register number
`vallox.RegisterCurrentFanSpeed`. -/
structure Vallox where
  ForMe : Event → Bool
  RegisterCurrentFanSpeed : Nat

/-! ## State -/

/-- The Go struct `cacheEntry`. -/
structure cacheEntry where
  time : Int
  value : Event
  deriving DecidableEq, Repr

/-- The mutable state owned by the loop of `main`: the map `cache` and the four
package variables of the speed negotiation. -/
structure State where
  cache : Nat → Option cacheEntry
  updateSpeed : Nat
  updateSpeedRequested : Int
  currentSpeed : Nat
  currentSpeedUpdated : Int

/-- Side effects a handler dispatches, in program order. -/
inductive Effect where
  /-- The goroutine `go publishValue(mqtt, e)`. -/
  | publishValue (e : Event)
  /-- The device call `valloxDevice.SetSpeed(v)`. -/
  | SetSpeed (v : Nat)
  /-- The device call `valloxDevice.Query(r)`. -/
  | Query (r : Nat)
  /-- The blocking call `time.Sleep(d)` inside a handler. -/
  | Sleep (d : Int)
  /-- The channel send `speedUpdateSend <- v`. -/
  | sendNow (v : Nat)
  /-- The goroutine that sleeps for `d` and then sends on `speedUpdateSend`. -/
  | sendAfter (d : Int)
  /-- The goroutine `go announceMeToMqttDiscovery(mqtt, cache)`. -/
  | announce
  /-- The log line for an unknown Home Assistant status. -/
  | logUnknownStatus (s : String)
  deriving DecidableEq, Repr

/-! ## Handlers -/

/-- The function `resendOldValues`: query the fan speed register when its cache
entry is older than 15 minutes. -/
def resendOldValues (dev : Vallox) (now : Int) (cache : Nat → Option cacheEntry) :
    List Effect :=
  let validTime := now + (-15) * minute
  match cache dev.RegisterCurrentFanSpeed with
  | some cached =>
    if cached.time < validTime then [Effect.Query dev.RegisterCurrentFanSpeed] else []
  | none => []

/-- The function `handleValloxEvent`, with its two readings of the clock kept apart:
`now` is what the duplicate test reads (`time.Since` at line 856), `later` is what is
read afterwards, by `time.Now()` for the new cache entry (line 863) or by
`resendOldValues` (line 965). -/
def handleValloxEventAt (dev : Vallox) (now later : Int) (e : Event) (s : State) :
    Option (State × List Effect) :=
  if !dev.ForMe e then
    some (s, [])
  else
    let known : Bool :=
      match s.cache e.Register with
      | some val => decide (val.value.RawValue = e.RawValue) && decide (now - val.time < 15 * minute)
      | none => false
    if known then
      some (s, resendOldValues dev later s.cache)
    else
      let cached : cacheEntry := { time := later, value := e }
      let s1 : State := { s with cache := Function.update s.cache e.Register (some cached) }
      if e.Register = dev.RegisterCurrentFanSpeed then
        match e.Value with
        | Value.int16 v =>
          some ({ s1 with currentSpeed := (v % 256).toNat, currentSpeedUpdated := cached.time },
                [Effect.publishValue cached.value])
        | Value.other _ => none
      else
        some (s1, [Effect.publishValue cached.value])

/-- The function `handleValloxEvent` when both readings of the clock show the same
instant `now`. -/
def handleValloxEvent (dev : Vallox) (now : Int) (e : Event) (s : State) :
    Option (State × List Effect) :=
  handleValloxEventAt dev now now e s

/-- The function `sendSpeed`. -/
def sendSpeed (dev : Vallox) (now : Int) (s : State) : State × List Effect :=
  if now - s.updateSpeedRequested < 5 * second then
    (s, [Effect.sendAfter (1000 * millisecond)])
  else if s.currentSpeed ≠ s.updateSpeed ∨ now - s.currentSpeedUpdated > 10 * second then
    ({ s with currentSpeed := s.updateSpeed, currentSpeedUpdated := now },
     [Effect.SetSpeed s.updateSpeed, Effect.Sleep (20 * millisecond),
      Effect.Query dev.RegisterCurrentFanSpeed])
  else
    (s, [])

/-- The function `hasSameRecentSpeed`. -/
def hasSameRecentSpeed (now : Int) (s : State) (request : Nat) : Bool :=
  decide (s.currentSpeed = request) && decide (now - s.currentSpeedUpdated < 10 * second)

/-- A message received by the `select` of `main`. -/
inductive Msg where
  /-- Received from `valloxDevice.Events()`. -/
  | event (e : Event)
  /-- Received from `speedUpdateRequest`. -/
  | request (v : Nat)
  /-- Received from `speedUpdateSend` (the value is discarded). -/
  | send
  /-- Received from `homeassistantStatus`. -/
  | status (s : String)
  deriving DecidableEq, Repr

/-- The capacity of the channel `speedUpdateSend`, made by `make(chan byte, 10)`. -/
def sendCapacity : Nat := 10

/-- One iteration of the `for { select { ... } }` loop of `main`, for the message
`m` received at `now`, when `queued` values wait in the buffer of
`speedUpdateSend`.  The result is `none` when the iteration does not complete: a
handler panics, or the request case blocks in `speedUpdateSend <- request` because
the buffer is full (the loop is the only receiver of that channel, so it blocks
for ever). -/
def mainStepAt (dev : Vallox) (now : Int) (queued : Nat) (m : Msg) (s : State) :
    Option (State × List Effect) :=
  match m with
  | Msg.event e => handleValloxEvent dev now e s
  | Msg.request request =>
    if hasSameRecentSpeed now s request then
      some (s, [])
    else if queued < sendCapacity then
      some ({ s with updateSpeed := request, updateSpeedRequested := now },
            [Effect.sendNow request])
    else none
  | Msg.send => some (sendSpeed dev now s)
  | Msg.status st =>
    if st = "online" then some (s, [Effect.announce])
    else if st ≠ "offline" then some (s, [Effect.logUnknownStatus st])
    else some (s, [])

/-- One iteration of the loop when the buffer of `speedUpdateSend` is empty. -/
def mainStep (dev : Vallox) (now : Int) (m : Msg) (s : State) :
    Option (State × List Effect) :=
  mainStepAt dev now 0 m s

/-! ## The command intake

`changeSpeedMessage` parses the payload with `strconv.ParseInt(body, 0, 8)`.
The functions `lower`, `underscoreOK`, `ParseUint` and `ParseInt` below follow
the Go standard library (package `strconv`, file `atoi.go`); a string is the
list of its bytes. -/

/-- The outcomes `strconv` reports in `NumError.Err`. -/
inductive NumError where
  | ErrSyntax
  | ErrRange
  | ErrBase
  | ErrBitSize
  deriving DecidableEq, Repr

/-- The byte of an ASCII character. -/
def ch (c : Char) : Nat := c.toNat

/-- The helper `lower` of `strconv`: `c | ('x' - 'X')`. -/
def lower (c : Nat) : Nat := c ||| 0x20

/-- The variable `saw` of `underscoreOK`: the class of the last byte seen. -/
inductive Saw where
  | start
  | digit
  | underscore
  | none
  deriving DecidableEq, Repr

/-- The loop of `underscoreOK` over the number proper. -/
def underscoreLoop (hex : Bool) : List Nat → Saw → Bool
  | [], saw => decide (saw ≠ Saw.underscore)
  | c :: cs, saw =>
    if (ch '0' ≤ c ∧ c ≤ ch '9') ∨ (hex = true ∧ ch 'a' ≤ lower c ∧ lower c ≤ ch 'f') then
      underscoreLoop hex cs Saw.digit
    else if c = ch '_' then
      if saw ≠ Saw.digit then false else underscoreLoop hex cs Saw.underscore
    else if saw = Saw.underscore then false
    else underscoreLoop hex cs Saw.none

/-- The function `underscoreOK` of `strconv`: underscores may only separate digits,
or a base marker from the digits. -/
def underscoreOK (s : List Nat) : Bool :=
  let s1 : List Nat :=
    match s with
    | c :: rest => if c = ch '-' ∨ c = ch '+' then rest else s
    | [] => s
  match s1 with
  | c0 :: c1 :: rest =>
    if c0 = ch '0' ∧ (lower c1 = ch 'b' ∨ lower c1 = ch 'o' ∨ lower c1 = ch 'x') then
      underscoreLoop (decide (lower c1 = ch 'x')) rest Saw.digit
    else underscoreLoop false s1 Saw.start
  | _ => underscoreLoop false s1 Saw.start

/-- The digit loop of `ParseUint`, from the accumulator `n`; the result is the
returned number, the error if any, and whether an underscore was seen. -/
def parseDigits (base0 : Bool) (base cutoff maxVal : Nat) :
    List Nat → Nat → Bool → Nat × Option NumError × Bool
  | [], n, underscores => (n, none, underscores)
  | c :: cs, n, underscores =>
    if c = ch '_' ∧ base0 = true then
      parseDigits base0 base cutoff maxVal cs n true
    else
      let d? : Option Nat :=
        if ch '0' ≤ c ∧ c ≤ ch '9' then some (c - ch '0')
        else if ch 'a' ≤ lower c ∧ lower c ≤ ch 'z' then some (lower c - ch 'a' + 10)
        else none
      match d? with
      | none => (0, some NumError.ErrSyntax, underscores)
      | some d =>
        if d ≥ base then (0, some NumError.ErrSyntax, underscores)
        else if n ≥ cutoff then (maxVal, some NumError.ErrRange, underscores)
        else
          let m := n * base
          let n1 := (m + d) % 2 ^ 64
          if n1 < m ∨ n1 > maxVal then (maxVal, some NumError.ErrRange, underscores)
          else parseDigits base0 base cutoff maxVal cs n1 underscores

/-- The function `strconv.ParseUint`: the number returned and the error, if any. -/
def ParseUint (s : List Nat) (base bitSize : Nat) : Nat × Option NumError :=
  match s with
  | [] => (0, some NumError.ErrSyntax)
  | c0 :: _ =>
    let based : Option (Nat × List Nat) :=
      if 2 ≤ base ∧ base ≤ 36 then some (base, s)
      else if base = 0 then
        if c0 = ch '0' then
          match s with
          | _ :: c1 :: c2 :: rest =>
            if lower c1 = ch 'b' then some (2, c2 :: rest)
            else if lower c1 = ch 'o' then some (8, c2 :: rest)
            else if lower c1 = ch 'x' then some (16, c2 :: rest)
            else some (8, c1 :: c2 :: rest)
          | _ :: rest => some (8, rest)
          | [] => some (8, [])
        else some (10, s)
      else none
    match based with
    | none => (0, some NumError.ErrBase)
    | some (b, digits) =>
      if bitSize > 64 then (0, some NumError.ErrBitSize)
      else
        let bits := if bitSize = 0 then 64 else bitSize
        let cutoff := (2 ^ 64 - 1) / b + 1
        let maxVal := 2 ^ bits - 1
        match parseDigits (decide (base = 0)) b cutoff maxVal digits 0 false with
        | (n, some err, _) => (n, some err)
        | (n, none, underscores) =>
          if underscores = true ∧ underscoreOK s = false then (0, some NumError.ErrSyntax)
          else (n, none)

/-- The function `strconv.ParseInt`: the number returned and the error, if any. -/
def ParseInt (s : List Nat) (base bitSize : Nat) : Int × Option NumError :=
  match s with
  | [] => (0, some NumError.ErrSyntax)
  | c0 :: rest =>
    let neg : Bool := decide (c0 = ch '-')
    let s1 : List Nat := if c0 = ch '+' then rest else if c0 = ch '-' then rest else s
    match ParseUint s1 base bitSize with
    | (un, err) =>
      if err ≠ none ∧ err ≠ some NumError.ErrRange then (0, err)
      else
        let bits := if bitSize = 0 then 64 else bitSize
        let cutoff : Nat := 2 ^ (bits - 1)
        if neg = false ∧ un ≥ cutoff then ((cutoff : Int) - 1, some NumError.ErrRange)
        else if neg = true ∧ un > cutoff then (-(cutoff : Int), some NumError.ErrRange)
        else (if neg then -(un : Int) else (un : Int), none)

/-- The function `changeSpeedMessage` for the payload `body`: the values it sends on
the channel `speedUpdateRequest` (none when the payload does not parse). -/
def changeSpeedMessage (body : List Char) : List Nat :=
  match ParseInt (body.map ch) 0 8 with
  | (_, some _) => []
  | (spd, none) => [(spd % 256).toNat]

/-- The value of the byte `k` as a hexadecimal digit, if it is one. -/
def hexDigit (k : Nat) : Option Nat :=
  if ch '0' ≤ k ∧ k ≤ ch '9' then some (k - ch '0')
  else if ch 'a' ≤ k ∧ k ≤ ch 'f' then some (k - ch 'a' + 10)
  else if ch 'A' ≤ k ∧ k ≤ ch 'F' then some (k - ch 'A' + 10)
  else none

/-- The number denoted by a string of hexadecimal digits, most significant first,
continuing from `acc`; `none` if a character is not a hexadecimal digit. -/
def hexValue : List Char → Nat → Option Nat
  | [], acc => some acc
  | c :: cs, acc =>
    match hexDigit (ch c) with
    | some d => hexValue cs (acc * 16 + d)
    | none => none

/-! ## Runs of the loop -/

/-- The loop of `main` run over the messages `ms`, each with the instant at which it
is received: the final state and all effects in order, or `none` if a handler
panics. -/
def runLog (dev : Vallox) : State → List (Int × Msg) → Option (State × List Effect)
  | s, [] => some (s, [])
  | s, (now, m) :: ms =>
    match mainStep dev now m s with
    | none => none
    | some (s1, effs) =>
      match runLog dev s1 ms with
      | none => none
      | some (s2, rest) => some (s2, effs ++ rest)

/-- The value of the last message received from `speedUpdateRequest`, if any. -/
def lastRequest : List (Int × Msg) → Option Nat
  | [] => none
  | (_, m) :: ms =>
    match lastRequest ms with
    | some v => some v
    | none =>
      match m with
      | Msg.request v => some v
      | _ => none

/-- The value of the last send on `speedUpdateSend` made by the request case of
`main`, if any: the last request that was not dropped. -/
def lastSendNow : List Effect → Option Nat
  | [] => none
  | eff :: effs =>
    match lastSendNow effs with
    | some v => some v
    | none =>
      match eff with
      | Effect.sendNow v => some v
      | _ => none

/-- The device writes among the effects: the arguments of the `SetSpeed` calls. -/
def writes : List Effect → List Nat
  | [] => []
  | Effect.SetSpeed v :: effs => v :: writes effs
  | _ :: effs => writes effs

/-- The instants at which the sends scheduled by the effects of a handler run at
`now` reach the channel `speedUpdateSend`. -/
def scheduled (now : Int) : List Effect → List Int
  | [] => []
  | Effect.sendNow _ :: effs => now :: scheduled now effs
  | Effect.sendAfter d :: effs => (now + d) :: scheduled now effs
  | _ :: effs => scheduled now effs

/-- The earliest instant of a list. -/
def earliest : List Int → Option Int
  | [] => none
  | t :: ts =>
    match earliest ts with
    | none => some t
    | some u => some (if t ≤ u then t else u)

/-- The number of values in the buffer of `speedUpdateSend` at `now`: the values in
flight that have been sent by then, up to the capacity of the channel (the
senders of the others are blocked in their own goroutines). -/
def queuedAt (now : Int) (sends : List Int) : Nat :=
  min sendCapacity (sends.filter (fun u => decide (u ≤ now))).length

/-- The time a handler spends in `time.Sleep`. -/
def slept : List Effect → Int
  | [] => 0
  | Effect.Sleep d :: effs => d + slept effs
  | _ :: effs => slept effs

/-- The loop of `main` together with its pending input: the messages of the other
producers (events, requests, status messages) not yet received, in arrival order
with their arrival instants; the instants at which the values in flight are sent
on `speedUpdateSend`; the instant `clock` at which the loop finished its last
handler; and the effects dispatched so far. -/
structure Loop where
  state : State
  inputs : List (Int × Msg)
  sends : List Int
  clock : Int
  log : List Effect

/-- Handle the message `m` at `now` and record its effects: the sends it schedules
join the values in flight, and the loop is busy until the handler has slept.  The
result is `none` when the handler panics or blocks for ever on a full
`speedUpdateSend`. -/
def deliver (dev : Vallox) (now : Int) (m : Msg) (l : Loop) : Option Loop :=
  match mainStepAt dev now (queuedAt now l.sends) m l.state with
  | none => none
  | some (s1, effs) =>
    some { state := s1, inputs := l.inputs, sends := l.sends ++ scheduled now effs,
           clock := now + slept effs, log := l.log ++ effs }

/-- One iteration of the loop.  The loop waits, from `clock` on, until a message is
available, and handles a message that is available at that instant; when both an
input and a send attempt are, `preferInput` says which one the `select` takes.
Only `time.Sleep` takes time in a handler.  The result is `none` when nothing is
pending or the handler does not complete. -/
def loopStep (dev : Vallox) (preferInput : Bool) (l : Loop) : Option Loop :=
  match l.inputs, earliest l.sends with
  | [], none => none
  | (t, m) :: rest, none => deliver dev (max l.clock t) m { l with inputs := rest }
  | [], some u => deliver dev (max l.clock u) Msg.send { l with sends := l.sends.erase u }
  | (t, m) :: rest, some u =>
    if t ≤ max l.clock (min t u) ∧ (u ≤ max l.clock (min t u) → preferInput = true) then
      deliver dev (max l.clock (min t u)) m { l with inputs := rest }
    else
      deliver dev (max l.clock (min t u)) Msg.send { l with sends := l.sends.erase u }

/-- Iterate the loop once per element of `picks` (the choices of the `select` on
ties), stopping early when an iteration is not possible. -/
def runLoop (dev : Vallox) : List Bool → Loop → Loop
  | [], l => l
  | b :: bs, l =>
    match loopStep dev b l with
    | none => l
    | some l1 => runLoop dev bs l1

/-! ## The debounce scenario -/

/-- Three requests, for the speeds 5, 6 and 7, arriving at `r1`, `r2` and `r3`. -/
def threeRequests (r1 r2 r3 : Int) : List (Int × Msg) :=
  [(r1, Msg.request 5), (r2, Msg.request 6), (r3, Msg.request 7)]

/-- The arrival instant and the value of an input that is a speed request. -/
def requestOf : Int × Msg → Option (Int × Nat)
  | (t, Msg.request v) => some (t, v)
  | _ => none

/-- The inputs the debounce scenario admits: requests, status messages, and events of
registers other than the fan speed register.  A send attempt is not an input: it
is scheduled by the loop itself. -/
def admissible (dev : Vallox) : Msg → Bool
  | Msg.event e => decide (e.Register ≠ dev.RegisterCurrentFanSpeed)
  | Msg.request _ => true
  | Msg.send => false
  | Msg.status _ => true

/-- A bound on the number of times a send attempt available at `t` is still handled
when the last request arrives at `r3`. -/
def remaining (r3 t : Int) : Nat := 1 + ((r3 + 6 * second - 1 - t) / second).toNat

/-- A bound on the number of iterations the loop can still make. -/
def fuelLeft (r3 : Int) (l : Loop) : Nat :=
  8 * (l.inputs.filterMap requestOf).length + l.inputs.length +
    (l.sends.map (remaining r3)).sum

/-- The loop before the write of the debounce scenario started in state `s0`:
nothing is written, the confirmed speed is the initial one, the pending requests
are a tail of the three, every pending message arrives after the loop became
free, and a send attempt is in flight as soon as the last request is in. -/
structure Debouncing (dev : Vallox) (s0 : State) (r1 r2 r3 : Int) (l : Loop) : Prop where
  speed : l.state.currentSpeed = s0.currentSpeed
  updated : l.state.currentSpeedUpdated = s0.currentSpeedUpdated
  nowrite : writes l.log = []
  pending : l.inputs.filterMap requestOf = [(r1, 5), (r2, 6), (r3, 7)] ∨
    l.inputs.filterMap requestOf = [(r2, 6), (r3, 7)] ∨
    l.inputs.filterMap requestOf = [(r3, 7)] ∨ l.inputs.filterMap requestOf = []
  adm : ∀ x ∈ l.inputs, admissible dev x.2 = true
  sorted : l.inputs.Pairwise (fun a b => a.1 ≤ b.1)
  idleInputs : ∀ x ∈ l.inputs, l.clock ≤ x.1
  idleSends : ∀ u ∈ l.sends, l.clock ≤ u
  times : ∀ u ∈ l.sends, r1 ≤ u ∧ u < r3 + 6 * second
  count : l.sends.length + (l.inputs.filterMap requestOf).length ≤ 3
  requested : l.sends ≠ [] →
    r1 ≤ l.state.updateSpeedRequested ∧ l.state.updateSpeedRequested ≤ r3
  last : l.inputs.filterMap requestOf = [] →
    l.sends ≠ [] ∧ l.state.updateSpeed = 7 ∧ l.state.updateSpeedRequested = r3

/-- The loop after the write of the debounce scenario: 7 was written once, it is
the requested and the confirmed speed, no request is pending, and every send
attempt in flight is handled within about a second of the write. -/
structure Settled (dev : Vallox) (r3 : Int) (l : Loop) : Prop where
  norequest : l.inputs.filterMap requestOf = []
  adm : ∀ x ∈ l.inputs, admissible dev x.2 = true
  written : writes l.log = [7]
  requestedSpeed : l.state.updateSpeed = 7
  speed : l.state.currentSpeed = 7
  requested : l.state.updateSpeedRequested = r3
  updated : r3 + 5 * second ≤ l.state.currentSpeedUpdated
  clockLow : l.state.currentSpeedUpdated ≤ l.clock
  clockHigh : l.sends ≠ [] → l.clock < r3 + 6 * second + 20 * millisecond
  times : ∀ u ∈ l.sends, u < r3 + 6 * second

/-! ## The topic tables

The keys of `topicMap` and `topicFlagMap` are constants of package `vallox-rs485`,
which is not part of the repository: a key is kept as the name of its constant, and
the byte each constant stands for is a parameter `K` of the functions that look a
key up. -/

/-- The constant `topicIO7Raw`. -/
def topicIO7Raw : String := "vallox/io7/raw"

/-- The constant `topicIO7Reheating`. -/
def topicIO7Reheating : String := "vallox/io7/reheating"

/-- The constant `topicIO8Raw`. -/
def topicIO8Raw : String := "vallox/io8/raw"

/-- The constant `topicIO8SummerMode`. -/
def topicIO8SummerMode : String := "vallox/io8/summerMode"

/-- The constant `topicIO8ErrorRelay`. -/
def topicIO8ErrorRelay : String := "vallox/io8/errorRelay"

/-- The constant `topicIO8MotorIn`. -/
def topicIO8MotorIn : String := "vallox/io8/motorIn"

/-- The constant `topicIO8Preheating`. -/
def topicIO8Preheating : String := "vallox/io8/preheating"

/-- The constant `topicIO8MotorOut`. -/
def topicIO8MotorOut : String := "vallox/io8/motorOut"

/-- The constant `topicIO8FireplaceSwitch`. -/
def topicIO8FireplaceSwitch : String := "vallox/io8/fireplaceSwitch"

/-- The constant `topicFanCurrentSpeed`. -/
def topicFanCurrentSpeed : String := "vallox/fan/currentSpeed"

/-- The constant `topicFanSpeedSet`. -/
def topicFanSpeedSet : String := "vallox/fan/set"

/-- The constant `topicFanMaxSpeed`. -/
def topicFanMaxSpeed : String := "vallox/fan/max"

/-- The constant `topicFanDefaultSpeed`. -/
def topicFanDefaultSpeed : String := "vallox/fan/default"

/-- The constant `topicRHMax`. -/
def topicRHMax : String := "vallox/rh/max"

/-- The constant `topicRH1`. -/
def topicRH1 : String := "vallox/rh/1"

/-- The constant `topicRH2`. -/
def topicRH2 : String := "vallox/rh/2"

/-- The constant `topicRHBasic`. -/
def topicRHBasic : String := "vallox/rh/basic"

/-- The constant `topicCO2Current`. -/
def topicCO2Current : String := "vallox/co2/current"

/-- The constant `topicCO2Max`. -/
def topicCO2Max : String := "vallox/co2/max"

/-- The constant `topicCO2SensorRaw`. -/
def topicCO2SensorRaw : String := "vallox/co2/installed/raw"

/-- The constant `topicCO2Sensor1`. -/
def topicCO2Sensor1 : String := "vallox/co2/installed/sensor1"

/-- The constant `topicCO2Sensor2`. -/
def topicCO2Sensor2 : String := "vallox/co2/installed/sensor2"

/-- The constant `topicCO2Sensor3`. -/
def topicCO2Sensor3 : String := "vallox/co2/installed/sensor3"

/-- The constant `topicCO2Sensor4`. -/
def topicCO2Sensor4 : String := "vallox/co2/installed/sensor4"

/-- The constant `topicCO2Sensor5`. -/
def topicCO2Sensor5 : String := "vallox/co2/installed/sensor5"

/-- The constant `topicMessage`. -/
def topicMessage : String := "vallox/message/value"

/-- The constant `topicTempOutdoor`. -/
def topicTempOutdoor : String := "vallox/temp/outdoor"

/-- The constant `topicTempExhaustOut`. -/
def topicTempExhaustOut : String := "vallox/temp/exhaustOut"

/-- The constant `topicTempExhaustIn`. -/
def topicTempExhaustIn : String := "vallox/temp/exhaustIn"

/-- The constant `topicTempSupply`. -/
def topicTempSupply : String := "vallox/temp/supply"

/-- The constant `topicFaultRaw`. -/
def topicFaultRaw : String := "vallox/fault/raw"

/-- The constant `topicFaultSupplySensor`. -/
def topicFaultSupplySensor : String := "vallox/fault/supplySensor"

/-- The constant `topicFaultCO2Alarm`. -/
def topicFaultCO2Alarm : String := "vallox/fault/CO2Alarm"

/-- The constant `topicFaultOutdoorSensor`. -/
def topicFaultOutdoorSensor : String := "vallox/fault/outdoorSensor"

/-- The constant `topicFaultExhaustInSensor`. -/
def topicFaultExhaustInSensor : String := "vallox/fault/exhaustInSensor"

/-- The constant `topicFaultWaterCoilFreezing`. -/
def topicFaultWaterCoilFreezing : String := "vallox/fault/waterCoilFreezing"

/-- The constant `topicFaultExhaustOutSensor`. -/
def topicFaultExhaustOutSensor : String := "vallox/fault/exhaustOutSensor"

/-- The constant `topicPostHeatingOnTime`. -/
def topicPostHeatingOnTime : String := "vallox/postHeating/onTime"

/-- The constant `topicPostHeatingOffTime`. -/
def topicPostHeatingOffTime : String := "vallox/postHeating/offTime"

/-- The constant `topicPostHeatingTargetTemp`. -/
def topicPostHeatingTargetTemp : String := "vallox/postHeating/targetTemp"

/-- The constant `topicFlags2Raw`. -/
def topicFlags2Raw : String := "vallox/flags2/raw"

/-- The constant `topicFlags2CO2HigherSpeedReq`. -/
def topicFlags2CO2HigherSpeedReq : String := "vallox/flags2/CO2HigherSpeedReq"

/-- The constant `topicFlags2CO2LowerSpeedReq`. -/
def topicFlags2CO2LowerSpeedReq : String := "vallox/flags2/CO2LoweSpeedReq"

/-- The constant `topicFlags2RHLowerSpeedReq`. -/
def topicFlags2RHLowerSpeedReq : String := "vallox/flags2/RHLowerSpeedReq"

/-- The constant `topicFlags2SwitchLowerSpeedReq`. -/
def topicFlags2SwitchLowerSpeedReq : String := "vallox/flags2/switchLowerSpeedReq"

/-- The constant `topicFlags2CO2Alarm`. -/
def topicFlags2CO2Alarm : String := "vallox/flags2/CO2Alarm"

/-- The constant `topicFlags2CellFreezeAlarm`. -/
def topicFlags2CellFreezeAlarm : String := "vallox/flags2/cellFreezeAlarm"

/-- The constant `topicFlags4Raw`. -/
def topicFlags4Raw : String := "vallox/flags4/raw"

/-- The constant `topicFlags4WaterCoilFreezing`. -/
def topicFlags4WaterCoilFreezing : String := "vallox/flags4/waterCoilFreezing"

/-- The constant `topicFlags4Master`. -/
def topicFlags4Master : String := "vallox/flags4/master"

/-- The constant `topicFlags5Raw`. -/
def topicFlags5Raw : String := "vallox/flags5/raw"

/-- The constant `topicFlags5PreheatingStatus`. -/
def topicFlags5PreheatingStatus : String := "vallox/flags5/preheatingStatus"

/-- The constant `topicFlags6Raw`. -/
def topicFlags6Raw : String := "vallox/flags6/raw"

/-- The constant `topicFlags6RemoteControl`. -/
def topicFlags6RemoteControl : String := "vallox/flags6/remoteControl"

/-- The constant `topicFlags6FireplaceSwitch`. -/
def topicFlags6FireplaceSwitch : String := "vallox/flags6/fireplaceSwitch"

/-- The constant `topicFlags6FireplaceFuncion`. -/
def topicFlags6FireplaceFuncion : String := "vallox/flags6/fireplaceFunction"

/-- The constant `topicFireplaceSwitchCounter`. -/
def topicFireplaceSwitchCounter : String := "vallox/fireplace/counter"

/-- The constant `topicStatusRaw`. -/
def topicStatusRaw : String := "vallox/status/raw"

/-- The constant `topicStatusPower`. -/
def topicStatusPower : String := "vallox/status/power"

/-- The constant `topicStatusCO2`. -/
def topicStatusCO2 : String := "vallox/status/CO2"

/-- The constant `topicStatusRH`. -/
def topicStatusRH : String := "vallox/status/RH"

/-- The constant `topicStatusPostHeatingKey`. -/
def topicStatusPostHeatingKey : String := "vallox/status/postHeatingKey"

/-- The constant `topicStatusFilterGuard`. -/
def topicStatusFilterGuard : String := "vallox/status/filterQuard"

/-- The constant `topicStatusPostHeatingLed`. -/
def topicStatusPostHeatingLed : String := "vallox/status/postHeatingLed"

/-- The constant `topicStatusFault`. -/
def topicStatusFault : String := "vallox/status/fault"

/-- The constant `topicStatusService`. -/
def topicStatusService : String := "vallox/status/service"

/-- The constant `topicPostHeatingSetpoint`. -/
def topicPostHeatingSetpoint : String := "vallox/postHeating/setPointTemp"

/-- The constant `topicPreHeatingSwitching`. -/
def topicPreHeatingSwitching : String := "vallox/preHeating/switchingTemp"

/-- The constant `topicSupplyFanStop`. -/
def topicSupplyFanStop : String := "vallox/supplyFan/stopTemp"

/-- The constant `topicBypassOperating`. -/
def topicBypassOperating : String := "vallox/bypass/operatingTemp"

/-- The constant `topicServiceReminderInterval`. -/
def topicServiceReminderInterval : String := "vallox/serviceReminder/interval"

/-- The constant `topicServiceReminderCounter`. -/
def topicServiceReminderCounter : String := "vallox/serviceReminder/counter"

/-- The constant `topicProgramRaw`. -/
def topicProgramRaw : String := "vallox/program/raw"

/-- The constant `topicProgramAutomaticHumidity`. -/
def topicProgramAutomaticHumidity : String := "vallox/program/automaticHymidity"

/-- The constant `topicProgramFireplaceSwitch`. -/
def topicProgramFireplaceSwitch : String := "vallox/program/fireplaceSwitch"

/-- The constant `topicProgramWater`. -/
def topicProgramWater : String := "vallox/program/water"

/-- The constant `topicProgramCascadeControl`. -/
def topicProgramCascadeControl : String := "vallox/program/cascadeControl"

/-- The constant `topicSupplyFanControlSetpoint`. -/
def topicSupplyFanControlSetpoint : String := "vallox/supplyFan/controlSetpoint"

/-- The constant `topicExhaustFanControlSetpoint`. -/
def topicExhaustFanControlSetpoint : String := "vallox/exhaustFan/controlSetpoint"

/-- The constant `topicCellAntifreezeHysteresis`. -/
def topicCellAntifreezeHysteresis : String := "vallox/cellAntiFreeze/hysteresis"

/-- The constant `topicCO2ControlSetpointUpper`. -/
def topicCO2ControlSetpointUpper : String := "vallox/co2/controlSetpoint/upper"

/-- The constant `topicCO2ControlSetpointLower`. -/
def topicCO2ControlSetpointLower : String := "vallox/co2/controlSetpoint/lower"

/-- The constant `topicProgram2Raw`. -/
def topicProgram2Raw : String := "vallox/program2/raw"

/-- The constant `topicProgram2MaxSpeed`. -/
def topicProgram2MaxSpeed : String := "vallox/program2/maxSpeed"

/-- The map `topicMap`: the topic of the decoded value of each register. -/
def topicMap : List (String × String) :=
  [("RegisterIO07", topicIO7Raw),
   ("RegisterIO08", topicIO8Raw),
   ("RegisterCurrentFanSpeed", topicFanCurrentSpeed),
   ("RegisterMaxRH", topicRHMax),
   ("RegisterCurrentCO2", topicCO2Current),
   ("RegisterMaximumCO2", topicCO2Max),
   ("RegisterCO2Status", topicCO2SensorRaw),
   ("RegisterMessage", topicMessage),
   ("RegisterRH1", topicRH1),
   ("RegisterRH2", topicRH2),
   ("RegisterOutdoorTemp", topicTempOutdoor),
   ("RegisterExhaustOutTemp", topicTempExhaustOut),
   ("RegisterExhaustInTemp", topicTempExhaustIn),
   ("RegisterSupplyTemp", topicTempSupply),
   ("RegisterFaultCode", topicFaultRaw),
   ("RegisterPostHeatingOnTime", topicPostHeatingOnTime),
   ("RegisterPostHeatingOffTime", topicPostHeatingOffTime),
   ("RegisterFlags02", topicFlags2Raw),
   ("RegisterFlags04", topicFlags4Raw),
   ("RegisterFlags05", topicFlags5Raw),
   ("RegisterFlags06", topicFlags6Raw),
   ("RegisterFireplaceCounter", topicFireplaceSwitchCounter),
   ("RegisterStatus", topicStatusRaw),
   ("RegisterPostHeatingSetpoint", topicPostHeatingSetpoint),
   ("RegisterMaxFanSpeed", topicFanMaxSpeed),
   ("RegisterServiceInterval", topicServiceReminderInterval),
   ("RegisterPreheatingTemp", topicPreHeatingSwitching),
   ("RegisterSupplyFanStopTemp", topicSupplyFanStop),
   ("RegisterDefaultFanSpeed", topicFanDefaultSpeed),
   ("RegisterProgram", topicProgramRaw),
   ("RegisterServiceCounter", topicServiceReminderCounter),
   ("RegisterBasicHumidity", topicRHBasic),
   ("RegisterBypassTemp", topicBypassOperating),
   ("RegisterSupplyFanSetpoint", topicSupplyFanControlSetpoint),
   ("RegisterExhaustFanSetpoint", topicExhaustFanControlSetpoint),
   ("RegisterAntiFreezeHysteresis", topicCellAntifreezeHysteresis),
   ("RegisterCO2SetpointUpper", topicCO2ControlSetpointUpper),
   ("RegisterCO2SetpointLower", topicCO2ControlSetpointLower),
   ("RegisterProgram2", topicProgram2Raw)]

/-- The map `topicFlagMap`: for each register with flags, the topic of each flag
mask. -/
def topicFlagMap : List (String × List (String × String)) :=
  [("RegisterIO07",
     [("IO07FlagReheating", topicIO7Reheating)]),
   ("RegisterIO08",
     [("IO08FlagSummerMode", topicIO8SummerMode),
      ("IO08FlagErrorRelay", topicIO8ErrorRelay),
      ("IO08FlagMotorIn", topicIO8MotorIn),
      ("IO08FlagPreheating", topicIO8Preheating),
      ("IO08FlagMotorOut", topicIO8MotorOut),
      ("IO08FlagFireplaceSwitch", topicIO8FireplaceSwitch)]),
   ("RegisterCO2Status",
     [("CO2Sensor1", topicCO2Sensor1),
      ("CO2Sensor2", topicCO2Sensor2),
      ("CO2Sensor3", topicCO2Sensor3),
      ("CO2Sensor4", topicCO2Sensor4)]),
   ("RegisterFaultCode",
     [("FaultSupplyAirSensorFault", topicFaultSupplySensor),
      ("FaultCarbonDioxideAlarm", topicFaultCO2Alarm),
      ("FaultOutdoorSensorFault", topicFaultOutdoorSensor),
      ("FaultExhaustAirInSensorFault", topicFaultExhaustInSensor),
      ("FaultWaterCoilFreezing", topicFaultWaterCoilFreezing),
      ("FaultExhaustAirOutSensorFault", topicFaultExhaustOutSensor)]),
   ("RegisterFlags02",
     [("Flags2CO2HigherSpeedReq", topicFlags2CO2HigherSpeedReq),
      ("Flags2CO2LowerSpeedReq", topicFlags2CO2LowerSpeedReq),
      ("Flags2RHLowerSpeedReq", topicFlags2RHLowerSpeedReq),
      ("Flags2SwitchLowerSpeedReq", topicFlags2SwitchLowerSpeedReq),
      ("Flags2CO2Alarm", topicFlags2CO2Alarm),
      ("Flags2CellFreezeAlarm", topicFlags2CellFreezeAlarm)]),
   ("RegisterFlags04",
     [("Flags4WaterCoilFreezing", topicFlags4WaterCoilFreezing),
      ("Flags4Master", topicFlags4Master)]),
   ("RegisterFlags05",
     [("Flags5PreheatingStatus", topicFlags5PreheatingStatus)]),
   ("RegisterFlags06",
     [("Flags6RemoteControl", topicFlags6RemoteControl),
      ("Flags6ActivateFireplaceSwitch", topicFlags6FireplaceSwitch),
      ("Flags6FireplaceFunction", topicFlags6FireplaceFuncion)]),
   ("RegisterStatus",
     [("StatusFlagPower", topicStatusPower),
      ("StatusFlagCO2", topicStatusCO2),
      ("StatusFlagRH", topicStatusRH),
      ("StatusFlagHeatingMode", topicStatusPostHeatingKey),
      ("StatusFlagFilter", topicStatusFilterGuard),
      ("StatusFlagHeating", topicStatusPostHeatingLed),
      ("StatusFlagFault", topicStatusFault),
      ("StatusFlagService", topicStatusService)]),
   ("RegisterProgram",
     [("ProgramFlagAutomaticHumidity", topicProgramAutomaticHumidity),
      ("ProgramFlagBoostSwitch", topicProgramFireplaceSwitch),
      ("ProgramFlagWater", topicProgramWater),
      ("ProgramFlagCascadeControl", topicProgramCascadeControl)]),
   ("RegisterProgram2",
     [("Program2FlagMaximumSpeedLimit", topicProgram2MaxSpeed)])]

/-! ## Publishing a value -/

/-- A call `publish(mqtt, topic, msg)`: the message handed to the MQTT client. -/
structure Publication where
  topic : String
  payload : String
  deriving DecidableEq, Repr

/-- The lookup `table[key]` in a map whose keys are constants of package
`vallox-rs485`, given the byte `K name` of each constant. -/
def lookupKey {α : Type} (K : String → Nat) (table : List (String × α)) (key : Nat) :
    Option α :=
  match table.find? (fun p => decide (K p.1 = key)) with
  | some p => some p.2
  | none => none

/-- The text `fmt.Sprint(event.Value)`. -/
def Sprint : Value → String
  | Value.int16 v => toString v
  | Value.other shown => shown

/-- The text `fmt.Sprint(b)` of a boolean. -/
def SprintBool (b : Bool) : String := if b then "true" else "false"

/-- The text `fmt.Sprintf("vallox/raw/%x", register)`. -/
def rawTopic (register : Nat) : String := "vallox/raw/" ++ String.mk (Nat.toDigits 16 register)

/-- The function `publishValue`: the calls of `publish` it makes, in program order,
with `EnableRaw` the setting `config.EnableRaw`.  The flags of a register are
listed in the order of the map literal; Go ranges over them in an unspecified
order. -/
def publishValue (K : String → Nat) (EnableRaw : Bool) (event : Event) : List Publication :=
  (match lookupKey K topicMap event.Register with
    | some topic => [{ topic := topic, payload := Sprint event.Value }]
    | none => []) ++
  (match lookupKey K topicFlagMap event.Register with
    | some registerFlags =>
      registerFlags.map (fun p =>
        { topic := p.2, payload := SprintBool (decide (event.RawValue &&& K p.1 = K p.1)) })
    | none => []) ++
  (if EnableRaw then
    [{ topic := rawTopic event.Register, payload := toString event.RawValue }]
   else [])

/-- All topics of `topicFlagMap`. -/
def flagTopics : List String := topicFlagMap.flatMap (fun p => p.2.map Prod.snd)

/-- Whether a topic is one of the raw passthrough topics `vallox/raw/...`. -/
def isRawTopic (t : String) : Bool := "vallox/raw/".toList.isPrefixOf t.toList

/-! ## Discovery -/

/-- A value inside the map `device`: a string, a number or a list of strings. -/
inductive Leaf where
  | str (s : String)
  | num (n : Int)
  | strs (l : List String)
  deriving DecidableEq, Repr

/-- A value of a discovery descriptor (`interface{}`): a string, a number or a map. -/
inductive Val where
  | str (s : String)
  | num (n : Int)
  | obj (fields : List (String × Leaf))
  deriving DecidableEq, Repr

/-- A discovery descriptor, a `map[string]interface{}` with its entries in the
order of the literal. -/
abbrev Descriptor := List (String × Val)

/-- The map `device`. -/
def device : Val :=
  Val.obj [("identifiers", Leaf.strs ["vallox"]), ("manufacturer", Leaf.str "Vallox"),
    ("name", Leaf.str "Vallox Digit SE"), ("model", Leaf.str "Digit SE")]

/-- The map `discovery`: for each component, its list of discovery descriptors. -/
def discovery : List (String × List Descriptor) :=
  [("binary_sensor",
    [[("unique_id", Val.str "vallox_io7_reheating"),
      ("name", Val.str "Jälkilämmitys"),
      ("device", device),
      ("device_class", Val.str "heat"),
      ("state_topic", Val.str topicIO7Reheating),
      ("payload_on", Val.str "true"),
      ("payload_off", Val.str "false")],
     [("unique_id", Val.str "vallox_io8_summer_mode"),
      ("name", Val.str "Peltimoottorin asento (kesä)"),
      ("device", device),
      ("state_topic", Val.str topicIO8SummerMode),
      ("payload_on", Val.str "true"),
      ("payload_off", Val.str "false")],
     [("unique_id", Val.str "vallox_io8_error_relay"),
      ("name", Val.str "Vikatietorele"),
      ("device", device),
      ("state_topic", Val.str topicIO8ErrorRelay),
      ("payload_on", Val.str "true"),
      ("payload_off", Val.str "false")],
     [("unique_id", Val.str "vallox_io8_flag_motor_in"),
      ("name", Val.str "Tulopuhallin"),
      ("device", device),
      ("state_topic", Val.str topicIO8MotorIn),
      ("payload_on", Val.str "true"),
      ("payload_off", Val.str "false")],
     [("unique_id", Val.str "vallox_io8_preheating"),
      ("name", Val.str "Etulämmitys"),
      ("device", device),
      ("device_class", Val.str "heat"),
      ("state_topic", Val.str topicIO8Preheating),
      ("payload_on", Val.str "true"),
      ("payload_off", Val.str "false")],
     [("unique_id", Val.str "vallox_io8_motor_out"),
      ("name", Val.str "Poistopuhallin"),
      ("device", device),
      ("state_topic", Val.str topicIO8MotorOut),
      ("payload_on", Val.str "true"),
      ("payload_off", Val.str "false")],
     [("unique_id", Val.str "vallox_io8_fireplace_switch"),
      ("name", Val.str "Takka/tehostuskytkin"),
      ("device", device),
      ("state_topic", Val.str topicIO8FireplaceSwitch),
      ("payload_on", Val.str "true"),
      ("payload_off", Val.str "false")],
     [("unique_id", Val.str "vallox_status_power"),
      ("name", Val.str "Virtanäppäin"),
      ("device", device),
      ("device_class", Val.str "plug"),
      ("state_topic", Val.str topicStatusPower),
      ("payload_on", Val.str "true"),
      ("payload_off", Val.str "false")],
     [("unique_id", Val.str "vallox_co2_status_1"),
      ("name", Val.str "CO2 anturi 1"),
      ("device", device),
      ("state_topic", Val.str topicCO2Sensor1),
      ("payload_on", Val.str "true"),
      ("payload_off", Val.str "false")],
     [("unique_id", Val.str "vallox_co2_status_2"),
      ("name", Val.str "CO2 anturi 2"),
      ("device", device),
      ("state_topic", Val.str topicCO2Sensor2),
      ("payload_on", Val.str "true"),
      ("payload_off", Val.str "false")],
     [("unique_id", Val.str "vallox_co2_status_3"),
      ("name", Val.str "CO2 anturi 3"),
      ("device", device),
      ("state_topic", Val.str topicCO2Sensor3),
      ("payload_on", Val.str "true"),
      ("payload_off", Val.str "false")],
     [("unique_id", Val.str "vallox_co2_status_4"),
      ("name", Val.str "CO2 anturi 4"),
      ("device", device),
      ("state_topic", Val.str topicCO2Sensor4),
      ("payload_on", Val.str "true"),
      ("payload_off", Val.str "false")],
     [("unique_id", Val.str "vallox_fault_supply_sensor"),
      ("name", Val.str "Tuloilma-anturivika"),
      ("device", device),
      ("device_class", Val.str "problem"),
      ("state_topic", Val.str topicFaultSupplySensor),
      ("payload_on", Val.str "true"),
      ("payload_off", Val.str "false")],
     [("unique_id", Val.str "vallox_fault_co2_alarm"),
      ("name", Val.str "Hiilidioksidihälytys"),
      ("device", device),
      ("device_class", Val.str "problem"),
      ("state_topic", Val.str topicFaultCO2Alarm),
      ("payload_on", Val.str "true"),
      ("payload_off", Val.str "false")],
     [("unique_id", Val.str "vallox_fault_outdoor_sensor"),
      ("name", Val.str "Ulkoilma-anturivika"),
      ("device", device),
      ("device_class", Val.str "problem"),
      ("state_topic", Val.str topicFaultOutdoorSensor),
      ("payload_on", Val.str "true"),
      ("payload_off", Val.str "false")],
     [("unique_id", Val.str "vallox_fault_exhaust_in"),
      ("name", Val.str "Poistoilma-anturivika"),
      ("device", device),
      ("device_class", Val.str "problem"),
      ("state_topic", Val.str topicFaultExhaustInSensor),
      ("payload_on", Val.str "true"),
      ("payload_off", Val.str "false")],
     [("unique_id", Val.str "vallox_fault_water_coil_freezing"),
      ("name", Val.str "Vesipatterin jäätymisvaara"),
      ("device", device),
      ("device_class", Val.str "problem"),
      ("state_topic", Val.str topicFaultWaterCoilFreezing),
      ("payload_on", Val.str "true"),
      ("payload_off", Val.str "false")],
     [("unique_id", Val.str "vallox_fault_exhaust_out"),
      ("name", Val.str "Jäteilma-anturivika"),
      ("device", device),
      ("device_class", Val.str "problem"),
      ("state_topic", Val.str topicFaultExhaustOutSensor),
      ("payload_on", Val.str "true"),
      ("payload_off", Val.str "false")],
     [("unique_id", Val.str "vallox_flags2_co2_higher_speed_req"),
      ("name", Val.str "CO2 suurempi nopeus -pyyntö"),
      ("device", device),
      ("state_topic", Val.str topicFlags2CO2HigherSpeedReq),
      ("payload_on", Val.str "true"),
      ("payload_off", Val.str "false")],
     [("unique_id", Val.str "vallox_flags2_co2_lower_speed_req"),
      ("name", Val.str "CO2 pienempi nopeus -pyyntö"),
      ("device", device),
      ("state_topic", Val.str topicFlags2CO2LowerSpeedReq),
      ("payload_on", Val.str "true"),
      ("payload_off", Val.str "false")],
     [("unique_id", Val.str "vallox_flags2_rh_lower_speed_req"),
      ("name", Val.str "%RH pienempi nopeus -pyyntö"),
      ("device", device),
      ("state_topic", Val.str topicFlags2RHLowerSpeedReq),
      ("payload_on", Val.str "true"),
      ("payload_off", Val.str "false")],
     [("unique_id", Val.str "vallox_flags2_switch_lower_speed_req"),
      ("name", Val.str "Kytkin pien. nop. -pyyntö"),
      ("device", device),
      ("state_topic", Val.str topicFlags2SwitchLowerSpeedReq),
      ("payload_on", Val.str "true"),
      ("payload_off", Val.str "false")],
     [("unique_id", Val.str "vallox_flags2_co2_alarm"),
      ("name", Val.str "CO2 -hälytys"),
      ("device", device),
      ("device_class", Val.str "problem"),
      ("state_topic", Val.str topicFlags2CO2Alarm),
      ("payload_on", Val.str "true"),
      ("payload_off", Val.str "false")],
     [("unique_id", Val.str "vallox_flags2_cell_freeze_alarm"),
      ("name", Val.str "Kennon jäätymishälytys"),
      ("device", device),
      ("device_class", Val.str "problem"),
      ("state_topic", Val.str topicFlags2CellFreezeAlarm),
      ("payload_on", Val.str "true"),
      ("payload_off", Val.str "false")],
     [("unique_id", Val.str "vallox_flags4_water_coil_freezing_alert"),
      ("name", Val.str "Vesipatterin jäätymisvaara"),
      ("device", device),
      ("device_class", Val.str "problem"),
      ("state_topic", Val.str topicFlags4WaterCoilFreezing),
      ("payload_on", Val.str "true"),
      ("payload_off", Val.str "false")],
     [("unique_id", Val.str "vallox_flags4_master"),
      ("name", Val.str "slave(false)/master(true) valinta"),
      ("device", device),
      ("state_topic", Val.str topicFlags4Master),
      ("payload_on", Val.str "true"),
      ("payload_off", Val.str "false")],
     [("unique_id", Val.str "vallox_flags5_preheating_status"),
      ("name", Val.str "Etulämmityksen tilalippu"),
      ("device", device),
      ("state_topic", Val.str topicFlags5PreheatingStatus),
      ("payload_on", Val.str "true"),
      ("payload_off", Val.str "false")],
     [("unique_id", Val.str "vallox_flags6_remote_control"),
      ("name", Val.str "Kaukovalvontaohjaus"),
      ("device", device),
      ("state_topic", Val.str topicFlags6RemoteControl),
      ("payload_on", Val.str "true"),
      ("payload_off", Val.str "false")],
     [("unique_id", Val.str "vallox_flags6_fireplace_switch_activation"),
      ("name", Val.str "Takkakykimen aktivointi"),
      ("device", device),
      ("state_topic", Val.str topicFlags6FireplaceSwitch),
      ("payload_on", Val.str "true"),
      ("payload_off", Val.str "false")],
     [("unique_id", Val.str "vallox_flags6_fireplace_function_state"),
      ("name", Val.str "Takka/tehostustoiminto"),
      ("device", device),
      ("state_topic", Val.str topicFlags6FireplaceFuncion),
      ("payload_on", Val.str "true"),
      ("payload_off", Val.str "false")],
     [("unique_id", Val.str "vallox_status_power"),
      ("name", Val.str "Virtanäppäin"),
      ("device", device),
      ("state_topic", Val.str topicStatusPower),
      ("payload_on", Val.str "true"),
      ("payload_off", Val.str "false")],
     [("unique_id", Val.str "vallox_status_co2_key"),
      ("name", Val.str "CO2 -näppäin"),
      ("device", device),
      ("state_topic", Val.str topicStatusCO2),
      ("payload_on", Val.str "true"),
      ("payload_off", Val.str "false")],
     [("unique_id", Val.str "vallox_status_rh_key"),
      ("name", Val.str "%RH -näppäin"),
      ("device", device),
      ("state_topic", Val.str topicStatusRH),
      ("payload_on", Val.str "true"),
      ("payload_off", Val.str "false")],
     [("unique_id", Val.str "vallox_status_post_heating_key"),
      ("name", Val.str "Jälkilämmityksen näppäin"),
      ("device", device),
      ("state_topic", Val.str topicStatusPostHeatingKey),
      ("payload_on", Val.str "true"),
      ("payload_off", Val.str "false")],
     [("unique_id", Val.str "vallox_status_filter_guard_led"),
      ("name", Val.str "Suodatinvahdin merkkivalo"),
      ("device", device),
      ("state_topic", Val.str topicStatusFilterGuard),
      ("payload_on", Val.str "true"),
      ("payload_off", Val.str "false")],
     [("unique_id", Val.str "vallox_status_post_heating_led"),
      ("name", Val.str "Jälkilämmityksen merkkivalo"),
      ("device", device),
      ("state_topic", Val.str topicStatusPostHeatingLed),
      ("payload_on", Val.str "true"),
      ("payload_off", Val.str "false")],
     [("unique_id", Val.str "vallox_status_fault_led"),
      ("name", Val.str "Vian merkkivalo"),
      ("device", device),
      ("state_topic", Val.str topicStatusFault),
      ("payload_on", Val.str "true"),
      ("payload_off", Val.str "false")],
     [("unique_id", Val.str "vallox_status_service_reminder"),
      ("name", Val.str "Huoltomuistutin"),
      ("device", device),
      ("state_topic", Val.str topicStatusService),
      ("payload_on", Val.str "true"),
      ("payload_off", Val.str "false")],
     [("unique_id", Val.str "vallox_program_automatic_humidity"),
      ("name", Val.str "Kosteustason automaattihaku"),
      ("device", device),
      ("state_topic", Val.str topicProgramAutomaticHumidity),
      ("payload_on", Val.str "true"),
      ("payload_off", Val.str "false")],
     [("unique_id", Val.str "vallox_program_fireplace_switch"),
      ("name", Val.str "tehostus(on)/takkakytkimen(off) tila"),
      ("device", device),
      ("state_topic", Val.str topicProgramFireplaceSwitch),
      ("payload_on", Val.str "true"),
      ("payload_off", Val.str "false")],
     [("unique_id", Val.str "vallox_program_water"),
      ("name", Val.str "Vesi(on)/sähköpatterimalli(off)"),
      ("device", device),
      ("state_topic", Val.str topicProgramWater),
      ("payload_on", Val.str "true"),
      ("payload_off", Val.str "false")],
     [("unique_id", Val.str "vallox_program_cascade_control"),
      ("name", Val.str "Kaskadisäätö"),
      ("device", device),
      ("state_topic", Val.str topicProgramCascadeControl),
      ("payload_on", Val.str "true"),
      ("payload_off", Val.str "false")],
     [("unique_id", Val.str "vallox_program2_max_speed"),
      ("name", Val.str "Maksiminopeuden rajoitus"),
      ("device", device),
      ("state_topic", Val.str topicProgram2MaxSpeed),
      ("payload_on", Val.str "true"),
      ("payload_off", Val.str "false")]]),
   ("sensor",
    [[("unique_id", Val.str "vallox_rh_max"),
      ("name", Val.str "Nykyinen maksimi ilmankosteus"),
      ("device", device),
      ("device_class", Val.str "humidity"),
      ("state_topic", Val.str topicRHMax)],
     [("unique_id", Val.str "vallox_message"),
      ("name", Val.str "Milliampeeri-/jänniteviesti"),
      ("device", device),
      ("state_topic", Val.str topicMessage)],
     [("unique_id", Val.str "vallox_rh_1"),
      ("name", Val.str "%RH #1"),
      ("device", device),
      ("device_class", Val.str "humidity"),
      ("state_topic", Val.str topicRH1)],
     [("unique_id", Val.str "vallox_rh_2"),
      ("name", Val.str "%RH #2"),
      ("device", device),
      ("device_class", Val.str "humidity"),
      ("state_topic", Val.str topicRH2)],
     [("unique_id", Val.str "vallox_temp_outdoor"),
      ("name", Val.str "Ulkolämpötila"),
      ("device", device),
      ("device_class", Val.str "temperature"),
      ("state_topic", Val.str topicTempOutdoor)],
     [("unique_id", Val.str "vallox_temp_exhaust_out"),
      ("name", Val.str "Jäteilman lämpötila"),
      ("device", device),
      ("device_class", Val.str "temperature"),
      ("state_topic", Val.str topicTempExhaustOut)],
     [("unique_id", Val.str "vallox_temp_exhaust_in"),
      ("name", Val.str "Poistoilman lämpötila"),
      ("device", device),
      ("device_class", Val.str "temperature"),
      ("state_topic", Val.str topicTempExhaustIn)],
     [("unique_id", Val.str "vallox_temp_supply"),
      ("name", Val.str "Tuloilman lämpötila"),
      ("device", device),
      ("device_class", Val.str "temperature"),
      ("state_topic", Val.str topicTempSupply)],
     [("unique_id", Val.str "vallox_post_heating_on_time"),
      ("name", Val.str "Jälilämmityksen ON-laskuri"),
      ("device", device),
      ("state_topic", Val.str topicPostHeatingOnTime)],
     [("unique_id", Val.str "vallox_post_heating_off_time"),
      ("name", Val.str "Jälkilämmityksen OFF-aika"),
      ("device", device),
      ("state_topic", Val.str topicPostHeatingOffTime)],
     [("unique_id", Val.str "vallox_post_heating_target_temp"),
      ("name", Val.str "Jäkilämmityksen kohdearvo"),
      ("device", device),
      ("state_topic", Val.str topicPostHeatingTargetTemp)],
     [("unique_id", Val.str "vallox_fireplace_switch_counter"),
      ("name", Val.str "Takka/tehostuskytkimen laskuri"),
      ("device", device),
      ("state_topic", Val.str topicFireplaceSwitchCounter)],
     [("unique_id", Val.str "vallox_post_heating_set_point"),
      ("name", Val.str "Jälkilämmityksen asetusarvo"),
      ("device", device),
      ("state_topic", Val.str topicPostHeatingSetpoint)],
     [("unique_id", Val.str "vallox_max_fan_speed"),
      ("name", Val.str "Maksimipuhallinnopeus"),
      ("device", device),
      ("icon", Val.str "mdi:fan"),
      ("state_topic", Val.str topicFanMaxSpeed)],
     [("unique_id", Val.str "vallox_service_reminder_interval"),
      ("name", Val.str "Huoltomuistuttimen aikaväli"),
      ("device", device),
      ("device_class", Val.str "duration"),
      ("state_topic", Val.str topicServiceReminderInterval)],
     [("unique_id", Val.str "vallox_pre_heating_switching"),
      ("name", Val.str "Etulämmityksen kytkentälämpötila"),
      ("device", device),
      ("device_class", Val.str "temperature"),
      ("state_topic", Val.str topicPreHeatingSwitching)],
     [("unique_id", Val.str "vallox_default_fan_speed"),
      ("name", Val.str "Peruspuhallinnopeus"),
      ("device", device),
      ("icon", Val.str "mdi:fan"),
      ("state_topic", Val.str topicFanDefaultSpeed)],
     [("unique_id", Val.str "vallox_service_reminder_counter"),
      ("name", Val.str "Huoltomuistuttimen kuukausilaskuri"),
      ("device", device),
      ("state_topic", Val.str topicServiceReminderCounter)],
     [("unique_id", Val.str "vallox_rh_base"),
      ("name", Val.str "Peruskosteustaso"),
      ("device", device),
      ("state_topic", Val.str topicRHBasic)],
     [("unique_id", Val.str "vallox_cell_bypass_temp"),
      ("name", Val.str "Kennonohituksen toimintalämpötila"),
      ("device", device),
      ("device_class", Val.str "temperature"),
      ("state_topic", Val.str topicBypassOperating)],
     [("unique_id", Val.str "vallox_supply_fan_control_setpoint"),
      ("name", Val.str "Tasaviratuloilmapuhaltimen säädön asetusarvo"),
      ("device", device),
      ("state_topic", Val.str topicSupplyFanControlSetpoint)],
     [("unique_id", Val.str "vallox_exhaust_fan_control_setpoint"),
      ("name", Val.str "Tasavirtapoistoilmapuhaltimen säädön asetusarvo"),
      ("device", device),
      ("state_topic", Val.str topicExhaustFanControlSetpoint)],
     [("unique_id", Val.str "vallox_cell_antifreeze_hysteresis"),
      ("name", Val.str "Kennon jäätymiseneston lämpötilojen hystereesi"),
      ("device", device),
      ("state_topic", Val.str topicCellAntifreezeHysteresis)]]),
   ("number",
    [[("unique_id", Val.str "vallox_current_fan_speed"),
      ("name", Val.str "Nykyinen puhallinnopeus"),
      ("device", device),
      ("icon", Val.str "mdi:fan"),
      ("state_topic", Val.str topicFanCurrentSpeed),
      ("command_topic", Val.str (topicFanCurrentSpeed ++ "/set")),
      ("min", Val.num 1),
      ("max", Val.num 8),
      ("mode", Val.str "slider")]])]

/-- The lookup `msg[key]` in a descriptor. -/
def lookupField (msg : Descriptor) (key : String) : Option Val :=
  match msg.find? (fun p => decide (p.1 = key)) with
  | some p => some p.2
  | none => none

/-- The discovery topic `fmt.Sprintf("homeassistant/%s/%s/config", key, uid)`. -/
def configTopic (key uid : String) : String :=
  "homeassistant/" ++ key ++ "/" ++ uid ++ "/config"

/-- The inner loop of `announceMeToMqttDiscovery` over the descriptors of one
component.  `Marshal` is `json.Marshal` (`none` when it returns an error: the
descriptor is skipped); the result is `none` when the type assertion
`msg["unique_id"].(string)` panics. -/
def announceEntries (Marshal : Descriptor → Option String) (key : String) :
    List Descriptor → Option (List Publication)
  | [] => some []
  | msg :: entries =>
    match Marshal msg with
    | none => announceEntries Marshal key entries
    | some jsonmsg =>
      match lookupField msg "unique_id" with
      | some (Val.str uid) =>
        match announceEntries Marshal key entries with
        | some rest => some ({ topic := configTopic key uid, payload := jsonmsg } :: rest)
        | none => none
      | _ => none

/-- The function `announceMeToMqttDiscovery`: the calls of `publish` it makes.
`order` is the sequence in which `range discovery` yields the components, a
permutation of `discovery` that Go does not specify; `cache` is the argument the
function receives. -/
def announceMeToMqttDiscovery (Marshal : Descriptor → Option String)
    (order : List (String × List Descriptor)) (cache : Nat → Option cacheEntry) :
    Option (List Publication) :=
  match order with
  | [] => some []
  | (key, entries) :: more =>
    match announceEntries Marshal key entries with
    | none => none
    | some first =>
      match announceMeToMqttDiscovery Marshal more cache with
      | some rest => some (first ++ rest)
      | none => none

/-- The publication of one descriptor, when it has a string `unique_id`. -/
def entryPublications (Marshal : Descriptor → Option String) (key : String)
    (msg : Descriptor) : List Publication :=
  match Marshal msg, lookupField msg "unique_id" with
  | some jsonmsg, some (Val.str uid) => [{ topic := configTopic key uid, payload := jsonmsg }]
  | _, _ => []

/-- Whether a descriptor has a string under `unique_id`. -/
def hasUniqueId (msg : Descriptor) : Bool :=
  match lookupField msg "unique_id" with
  | some (Val.str _) => true
  | _ => false

/-- The string under `key` in a descriptor, if any. -/
def stringField (key : String) (msg : Descriptor) : Option String :=
  match lookupField msg key with
  | some (Val.str s) => some s
  | _ => none

/-- The list `discovery[key]` of the descriptors of one component. -/
def componentEntries (key : String) : List Descriptor :=
  match discovery.find? (fun p => decide (p.1 = key)) with
  | some p => p.2
  | none => []

/-- The discovery topics of the catalog, component by component. -/
def discoveryTopics (order : List (String × List Descriptor)) : List String :=
  order.flatMap (fun p =>
    p.2.flatMap (fun d =>
      match stringField "unique_id" d with
      | some uid => [configTopic p.1 uid]
      | none => []))

/-- The state topics advertised by the catalog. -/
def stateTopics : List String :=
  discovery.flatMap (fun p => p.2.filterMap (stringField "state_topic"))

/-- Whether `publishValue` can publish on a topic of the static tables: the topic is
a value of `topicMap` or of an inner map of `topicFlagMap`. -/
def publishable (t : String) : Bool :=
  decide (t ∈ topicMap.map Prod.snd) || decide (t ∈ flagTopics)

/-! ## Concrete inputs used in the examples -/

/-- A device handle that accepts every event, with the fan speed register at `0x29`. -/
def exDev : Vallox := { ForMe := fun _ => true, RegisterCurrentFanSpeed := 0x29 }

/-- A state with an empty cache and the given speed negotiation fields. -/
def exState (updateSpeed : Nat) (updateSpeedRequested : Int) (currentSpeed : Nat)
    (currentSpeedUpdated : Int) : State :=
  { cache := fun _ => none, updateSpeed := updateSpeed,
    updateSpeedRequested := updateSpeedRequested, currentSpeed := currentSpeed,
    currentSpeedUpdated := currentSpeedUpdated }

/-- A fan speed event with raw value `0x07` and decoded speed 3. -/
def exSpeedEvent : Event := { Register := 0x29, RawValue := 0x07, Value := Value.int16 3 }

/-- A state whose cache holds `exSpeedEvent`, observed at instant 0, and whose
confirmed speed is 5, confirmed at instant 0. -/
def exCachedState : State :=
  { cache := Function.update (fun _ => none) 0x29 (some { time := 0, value := exSpeedEvent }),
    updateSpeed := 5, updateSpeedRequested := 0, currentSpeed := 5, currentSpeedUpdated := 0 }

/-- An event for register `0x2a` with raw value `0x15`. -/
def exOtherEvent : Event := { Register := 0x2a, RawValue := 0x15, Value := Value.int16 21 }

/-- A state whose cache holds `exSpeedEvent`, observed at instant 0, and
`exOtherEvent`, observed 10 minutes later. -/
def exStaleState : State :=
  { cache := Function.update
      (Function.update (fun _ => none) 0x29 (some { time := 0, value := exSpeedEvent }))
      0x2a (some { time := 10 * minute, value := exOtherEvent }),
    updateSpeed := 3, updateSpeedRequested := 0, currentSpeed := 3, currentSpeedUpdated := 0 }

/-- An example of the bytes behind the constants of package `vallox-rs485`: the
registers with flags get distinct numbers, the eight flags of the status register
are the bits 0 to 7 in the order of the table, every other constant is 0. -/
def exK (name : String) : Nat :=
  match [("RegisterIO07", 0x07), ("RegisterIO08", 0x08), ("RegisterCO2Status", 0x2d),
      ("RegisterFaultCode", 0x36), ("RegisterFlags02", 0x6d), ("RegisterFlags04", 0x6f),
      ("RegisterFlags05", 0x70), ("RegisterFlags06", 0x71), ("RegisterStatus", 0xa3),
      ("RegisterProgram", 0xaa), ("RegisterProgram2", 0xb5),
      ("StatusFlagPower", 0x01), ("StatusFlagCO2", 0x02), ("StatusFlagRH", 0x04),
      ("StatusFlagHeatingMode", 0x08), ("StatusFlagFilter", 0x10),
      ("StatusFlagHeating", 0x20), ("StatusFlagFault", 0x40),
      ("StatusFlagService", 0x80)].find? (fun p => decide (p.1 = name)) with
  | some p => p.2
  | none => 0

/-- An event of the status register (under `exK`) whose raw value has the bits 0 and
2 set. -/
def exStatusEvent : Event := { Register := 0xa3, RawValue := 0x05, Value := Value.int16 5 }

/-- The three requests of the debounce scenario at 3.0 s, 3.2 s and 3.4 s, among an
event of another register and a status message. -/
def exBusyInputs : List (Int × Msg) :=
  [(3 * second, Msg.request 5), (3 * second + 100 * millisecond, Msg.event exOtherEvent),
   (3 * second + 200 * millisecond, Msg.request 6),
   (3 * second + 400 * millisecond, Msg.request 7), (4 * second, Msg.status "online")]

/-- Eleven requests for speed 3 available at instant 0, in a state whose confirmed
speed is 0, with nothing in flight. -/
def exBurst : Loop :=
  { state := exState 0 0 0 0, inputs := List.replicate 11 (0, Msg.request 3), sends := [],
    clock := 0, log := [] }

/-! ## The value cache and the event handler -/

/-- The duplicate test of `handleValloxEvent`, as a proposition. -/
theorem known_iff (s : State) (now : Int) (e : Event) :
    (match s.cache e.Register with
      | some val =>
        decide (val.value.RawValue = e.RawValue) && decide (now - val.time < 15 * minute)
      | none => false) = true ↔
    ∃ val, s.cache e.Register = some val ∧ val.value.RawValue = e.RawValue ∧
      now - val.time < 15 * minute := by
  cases h : s.cache e.Register with
  | none => simp
  | some val => simp

/-- A duplicate event only runs the re-poll check. -/
theorem handleValloxEvent_of_duplicate (dev : Vallox) (now : Int) (e : Event) (s : State)
    (hme : dev.ForMe e = true)
    (hdup : ∃ val, s.cache e.Register = some val ∧ val.value.RawValue = e.RawValue ∧
      now - val.time < 15 * minute) :
    handleValloxEvent dev now e s = some (s, resendOldValues dev now s.cache) := by
  have hk := (known_iff s now e).mpr hdup
  simp only [handleValloxEvent, handleValloxEventAt, hme, Bool.not_true, Bool.false_eq_true, if_false]
  rw [if_pos hk]

/-- An event that is not a duplicate and is not for the fan speed register is
cached and published. -/
theorem handleValloxEvent_of_new_other (dev : Vallox) (now : Int) (e : Event) (s : State)
    (hme : dev.ForMe e = true)
    (hnew : ¬ ∃ val, s.cache e.Register = some val ∧ val.value.RawValue = e.RawValue ∧
      now - val.time < 15 * minute)
    (hreg : e.Register ≠ dev.RegisterCurrentFanSpeed) :
    handleValloxEvent dev now e s =
      some ({ s with
                cache := Function.update s.cache e.Register (some { time := now, value := e }) },
            [Effect.publishValue e]) := by
  have hk : ¬ _ := fun h => hnew ((known_iff s now e).mp h)
  simp only [handleValloxEvent, handleValloxEventAt, hme, Bool.not_true, Bool.false_eq_true, if_false]
  rw [if_neg hk, if_neg hreg]

/-- An event that is not a duplicate and is for the fan speed register is cached,
updates the confirmed speed and is published. -/
theorem handleValloxEvent_of_new_speed (dev : Vallox) (now : Int) (e : Event) (s : State)
    (v : Int) (hme : dev.ForMe e = true)
    (hnew : ¬ ∃ val, s.cache e.Register = some val ∧ val.value.RawValue = e.RawValue ∧
      now - val.time < 15 * minute)
    (hreg : e.Register = dev.RegisterCurrentFanSpeed) (hv : e.Value = Value.int16 v) :
    handleValloxEvent dev now e s =
      some ({ s with
                cache := Function.update s.cache e.Register (some { time := now, value := e }),
                currentSpeed := (v % 256).toNat, currentSpeedUpdated := now },
            [Effect.publishValue e]) := by
  have hk : ¬ _ := fun h => hnew ((known_iff s now e).mp h)
  simp only [handleValloxEvent, handleValloxEventAt, hme, Bool.not_true, Bool.false_eq_true, if_false]
  rw [if_neg hk, if_pos hreg]
  simp [hv]

/-- The re-poll check issues at most one command, a query of the fan speed register. -/
theorem resendOldValues_cases (dev : Vallox) (now : Int) (cache : Nat → Option cacheEntry) :
    resendOldValues dev now cache = [] ∨
      resendOldValues dev now cache = [Effect.Query dev.RegisterCurrentFanSpeed] := by
  unfold resendOldValues
  cases cache dev.RegisterCurrentFanSpeed with
  | none => simp
  | some cached =>
    by_cases h : cached.time < now + (-15) * minute
    · right; simp only [h, if_true]
    · left; simp only [h, if_false]

/-- The re-poll check never publishes. -/
theorem resendOldValues_no_publish (dev : Vallox) (now : Int)
    (cache : Nat → Option cacheEntry) (p : Event) :
    Effect.publishValue p ∉ resendOldValues dev now cache := by
  rcases resendOldValues_cases dev now cache with h | h <;> simp [h]

/-- C1: for an event addressed to this listener (whose value, if it is a fan speed
event, is an `int16` as the handler asserts), `handleValloxEvent` dispatches no
publication if and only if the cache holds an entry for the event's register with
the same raw value observed less than 15 minutes before `now`.  In particular,
when an event was published (hence recorded) at `now`, a raw-identical event for
the same register handled at `now2`, less than 15 minutes later, changes nothing
and dispatches no publication. -/
theorem handleValloxEvent_duplicate_iff (dev : Vallox) (now : Int) (e : Event) (s : State)
    (hme : dev.ForMe e = true)
    (hty : e.Register = dev.RegisterCurrentFanSpeed → ∃ v, e.Value = Value.int16 v) :
    (∃ s1 effs, handleValloxEvent dev now e s = some (s1, effs) ∧
      ((∀ p, Effect.publishValue p ∉ effs) ↔
        ∃ val, s.cache e.Register = some val ∧ val.value.RawValue = e.RawValue ∧
          now - val.time < 15 * minute)) ∧
    (∀ (e2 : Event) (now2 : Int) (s1 : State) (effs1 : List Effect),
      handleValloxEvent dev now e s = some (s1, effs1) →
      Effect.publishValue e ∈ effs1 →
      dev.ForMe e2 = true → e2.Register = e.Register → e2.RawValue = e.RawValue →
      now2 - now < 15 * minute →
      ∃ effs2, handleValloxEvent dev now2 e2 s1 = some (s1, effs2) ∧
        ∀ p, Effect.publishValue p ∉ effs2) := by
  by_cases hdup : ∃ val, s.cache e.Register = some val ∧ val.value.RawValue = e.RawValue ∧
      now - val.time < 15 * minute
  · have h := handleValloxEvent_of_duplicate dev now e s hme hdup
    refine ⟨⟨s, _, h, ?_⟩, ?_⟩
    · exact ⟨fun _ => hdup, fun _ p => resendOldValues_no_publish dev now s.cache p⟩
    · intro e2 now2 s1 effs1 h1 hpub
      rw [h] at h1
      simp only [Option.some.injEq, Prod.mk.injEq] at h1
      rw [← h1.2] at hpub
      exact absurd hpub (resendOldValues_no_publish dev now s.cache e)
  · have hstep : ∃ s1, handleValloxEvent dev now e s = some (s1, [Effect.publishValue e]) ∧
        s1.cache e.Register = some { time := now, value := e } := by
      by_cases hreg : e.Register = dev.RegisterCurrentFanSpeed
      · obtain ⟨v, hv⟩ := hty hreg
        exact ⟨_, handleValloxEvent_of_new_speed dev now e s v hme hdup hreg hv, by simp⟩
      · exact ⟨_, handleValloxEvent_of_new_other dev now e s hme hdup hreg, by simp⟩
    obtain ⟨s1, h, hc⟩ := hstep
    refine ⟨⟨s1, _, h, ?_⟩, ?_⟩
    · constructor
      · intro hno
        exact absurd (List.mem_singleton.mpr rfl) (hno e)
      · intro hd
        exact absurd hd hdup
    · intro e2 now2 s2 effs1 h1 _ hme2 hr2 hraw2 hlt
      rw [h] at h1
      simp only [Option.some.injEq, Prod.mk.injEq] at h1
      rw [← h1.1]
      have hdup2 : ∃ val, s1.cache e2.Register = some val ∧
          val.value.RawValue = e2.RawValue ∧ now2 - val.time < 15 * minute :=
        ⟨_, by rw [hr2]; exact hc, hraw2.symm, hlt⟩
      exact ⟨_, handleValloxEvent_of_duplicate dev now2 e2 s1 hme2 hdup2,
        fun p => resendOldValues_no_publish dev now2 s1.cache p⟩

/-- Witness of C1: a fan speed event handled on an empty cache is published, and the
same event one minute later is not. -/
theorem handleValloxEvent_duplicate_iff_witness :
    (∃ s1 effs, handleValloxEvent exDev 0 exSpeedEvent (exState 0 0 0 0) = some (s1, effs) ∧
      ((∀ p, Effect.publishValue p ∉ effs) ↔
        ∃ val, (exState 0 0 0 0).cache exSpeedEvent.Register = some val ∧
          val.value.RawValue = exSpeedEvent.RawValue ∧ 0 - val.time < 15 * minute)) ∧
    (∀ (e2 : Event) (now2 : Int) (s1 : State) (effs1 : List Effect),
      handleValloxEvent exDev 0 exSpeedEvent (exState 0 0 0 0) = some (s1, effs1) →
      Effect.publishValue exSpeedEvent ∈ effs1 →
      exDev.ForMe e2 = true → e2.Register = exSpeedEvent.Register →
      e2.RawValue = exSpeedEvent.RawValue →
      now2 - 0 < 15 * minute →
      ∃ effs2, handleValloxEvent exDev now2 e2 s1 = some (s1, effs2) ∧
        ∀ p, Effect.publishValue p ∉ effs2) :=
  handleValloxEvent_duplicate_iff exDev 0 exSpeedEvent (exState 0 0 0 0) rfl
    (fun _ => ⟨3, rfl⟩)

/-- The request case of the loop, given the number `queued` of values that
`speedUpdateSend` holds.  The request `v` is dropped (state unchanged, nothing
sent on `speedUpdateSend`) when `v` is the confirmed speed and the confirmation is
less than 10 s old.  Otherwise, when the channel has room, the handler records `v`
and `now` as the requested speed and its instant, leaves the confirmed speed, its
instant and the cache unchanged, and sends exactly one value on `speedUpdateSend`;
when the channel is full, the handler does not complete. -/
theorem request_transition (dev : Vallox) (now : Int) (queued : Nat) (v : Nat) (s : State) :
    ((s.currentSpeed = v ∧ now - s.currentSpeedUpdated < 10 * second) →
      mainStepAt dev now queued (Msg.request v) s = some (s, [])) ∧
    (¬ (s.currentSpeed = v ∧ now - s.currentSpeedUpdated < 10 * second) →
      queued < sendCapacity →
      ∃ s1, mainStepAt dev now queued (Msg.request v) s = some (s1, [Effect.sendNow v]) ∧
        s1.updateSpeed = v ∧ s1.updateSpeedRequested = now ∧
        s1.currentSpeed = s.currentSpeed ∧
        s1.currentSpeedUpdated = s.currentSpeedUpdated ∧ s1.cache = s.cache) ∧
    (¬ (s.currentSpeed = v ∧ now - s.currentSpeedUpdated < 10 * second) →
      sendCapacity ≤ queued → mainStepAt dev now queued (Msg.request v) s = none) := by
  have hb : ¬ (s.currentSpeed = v ∧ now - s.currentSpeedUpdated < 10 * second) →
      hasSameRecentSpeed now s v = false := by
    intro h
    simp only [hasSameRecentSpeed, Bool.and_eq_false_iff, decide_eq_false_iff_not]
    by_cases h1 : s.currentSpeed = v
    · exact Or.inr (fun h2 => h ⟨h1, h2⟩)
    · exact Or.inl h1
  refine ⟨?_, ?_, ?_⟩
  · intro h
    simp [mainStepAt, hasSameRecentSpeed, h.1, h.2]
  · intro h hroom
    refine ⟨{ s with updateSpeed := v, updateSpeedRequested := now }, ?_, rfl, rfl, rfl, rfl, rfl⟩
    simp [mainStepAt, hb h, hroom]
  · intro h hfull
    have hn : ¬ queued < sendCapacity := not_lt.mpr hfull
    simp [mainStepAt, hb h, hn]

/-- Example of the anti-flap rule: speed 4 confirmed at instant 0, request 4 at
3 s: dropped, whatever the channel holds. -/
theorem request_transition_dropped (queued : Nat) :
    mainStepAt exDev (3 * second) queued (Msg.request 4) (exState 0 0 4 0) =
      some (exState 0 0 4 0, []) :=
  (request_transition exDev (3 * second) queued 4 (exState 0 0 4 0)).1 ⟨rfl, by decide⟩

/-- C2, failing input: eleven requests for speed 3 are available at instant 0, the
confirmed speed is 0, and the `select` takes the request each time.  The first ten
are handled as the claim says and their values fill `speedUpdateSend`.  The
eleventh is not one the anti-flap rule drops, yet its handler does not complete:
it blocks sending on the full channel, whose only receiver is the loop itself.
No field is set, nothing is enqueued, and the loop handles nothing more. -/
theorem request_blocks_on_full_channel :
    (runLoop exDev (List.replicate 10 true) exBurst).inputs = [(0, Msg.request 3)] ∧
    (runLoop exDev (List.replicate 10 true) exBurst).sends = List.replicate 10 0 ∧
    (runLoop exDev (List.replicate 10 true) exBurst).clock = 0 ∧
    queuedAt 0 (runLoop exDev (List.replicate 10 true) exBurst).sends = sendCapacity ∧
    hasSameRecentSpeed 0 (runLoop exDev (List.replicate 10 true) exBurst).state 3 = false ∧
    mainStepAt exDev 0 sendCapacity (Msg.request 3)
      (runLoop exDev (List.replicate 10 true) exBurst).state = none ∧
    loopStep exDev true (runLoop exDev (List.replicate 10 true) exBurst) = none ∧
    runLoop exDev (List.replicate 11 true) exBurst =
      runLoop exDev (List.replicate 10 true) exBurst := by
  refine ⟨?_, ?_, ?_, ?_, ?_, ?_, ?_, ?_⟩ <;> rfl

/-- C3: when the request is at least 5 s old, `sendSpeed` writes to the device if
and only if the confirmed speed differs from the requested one or the confirmation
is more than 10 s old.  The write carries the requested speed, the confirmed speed
becomes the requested speed, its instant becomes `now`, and a query of the fan
speed register follows the write (after the 20 ms pause); otherwise nothing changes
and no command is issued. -/
theorem sendSpeed_after_debounce (dev : Vallox) (now : Int) (s : State)
    (hold : 5 * second ≤ now - s.updateSpeedRequested) :
    ((s.currentSpeed ≠ s.updateSpeed ∨ now - s.currentSpeedUpdated > 10 * second) →
      ∃ s1, sendSpeed dev now s =
          (s1, [Effect.SetSpeed s.updateSpeed, Effect.Sleep (20 * millisecond),
                Effect.Query dev.RegisterCurrentFanSpeed]) ∧
        s1.currentSpeed = s.updateSpeed ∧ s1.currentSpeedUpdated = now ∧
        s1.updateSpeed = s.updateSpeed ∧
        s1.updateSpeedRequested = s.updateSpeedRequested ∧ s1.cache = s.cache) ∧
    (¬ (s.currentSpeed ≠ s.updateSpeed ∨ now - s.currentSpeedUpdated > 10 * second) →
      sendSpeed dev now s = (s, [])) := by
  have hnot : ¬ now - s.updateSpeedRequested < 5 * second := not_lt.mpr hold
  constructor
  · intro h
    refine ⟨{ s with currentSpeed := s.updateSpeed, currentSpeedUpdated := now }, ?_,
      rfl, rfl, rfl, rfl, rfl⟩
    unfold sendSpeed
    rw [if_neg hnot, if_pos h]
  · intro h
    unfold sendSpeed
    rw [if_neg hnot, if_neg h]

/-- Witness of C3: requested and confirmed speed both 4, the confirmation 12 s old
and the request 6 s old: a write of 4 is issued. -/
theorem sendSpeed_after_debounce_witness :
    5 * second ≤ 12 * second - (exState 4 (6 * second) 4 0).updateSpeedRequested ∧
    ∃ s1, sendSpeed exDev (12 * second) (exState 4 (6 * second) 4 0) =
        (s1, [Effect.SetSpeed 4, Effect.Sleep (20 * millisecond), Effect.Query 0x29]) ∧
      s1.currentSpeed = 4 ∧ s1.currentSpeedUpdated = 12 * second :=
  ⟨by decide,
   match (sendSpeed_after_debounce exDev (12 * second) (exState 4 (6 * second) 4 0)
      (by decide)).1 (Or.inr (by decide)) with
   | ⟨s1, h, h1, h2, _⟩ => ⟨s1, h, h1, h2⟩⟩

/-- Counterexample to C5: the fan speed event `exSpeedEvent` (decoded speed 3) is
addressed to the listener, yet handled one minute after the same raw value was
cached it leaves the confirmed speed at 5 and its instant at 0: the claim fails. -/
theorem handleValloxEvent_speed_counterexample :
    ¬ ∀ (dev : Vallox) (now : Int) (e : Event) (s : State) (v : Int),
      dev.ForMe e = true → e.Register = dev.RegisterCurrentFanSpeed →
      e.Value = Value.int16 v →
      ∃ s1 effs, handleValloxEvent dev now e s = some (s1, effs) ∧
        s1.currentSpeed = (v % 256).toNat ∧ s1.currentSpeedUpdated = now := by
  intro h
  obtain ⟨s1, effs, h1, _, h3⟩ := h exDev minute exSpeedEvent exCachedState 3 rfl rfl rfl
  have hd : handleValloxEvent exDev minute exSpeedEvent exCachedState =
      some (exCachedState, resendOldValues exDev minute exCachedState.cache) :=
    handleValloxEvent_of_duplicate exDev minute exSpeedEvent exCachedState rfl
      ⟨{ time := 0, value := exSpeedEvent }, by simp [exCachedState, exSpeedEvent], rfl,
        by decide⟩
  rw [hd] at h1
  simp only [Option.some.injEq, Prod.mk.injEq] at h1
  rw [← h1.1] at h3
  exact absurd h3 (by decide)

/-- C5 (amended): an event addressed to this listener for the fan speed register,
with `int16` value `v`, that is not a duplicate (no cache entry for the register with
the same raw value younger than 15 minutes) sets the confirmed speed to `v`
truncated to 8 bits and its instant to `now`, whatever the state was. -/
theorem handleValloxEvent_new_speed_confirms (dev : Vallox) (now : Int) (e : Event)
    (s : State) (v : Int) (hme : dev.ForMe e = true)
    (hreg : e.Register = dev.RegisterCurrentFanSpeed) (hv : e.Value = Value.int16 v)
    (hnew : ¬ ∃ val, s.cache e.Register = some val ∧ val.value.RawValue = e.RawValue ∧
      now - val.time < 15 * minute) :
    ∃ s1 effs, handleValloxEvent dev now e s = some (s1, effs) ∧
      s1.currentSpeed = (v % 256).toNat ∧ s1.currentSpeedUpdated = now :=
  ⟨_, _, handleValloxEvent_of_new_speed dev now e s v hme hnew hreg hv, rfl, rfl⟩

/-- Witness of C5 (amended): the same event 15 minutes after it was cached is not a
duplicate: the confirmed speed becomes 3 and its instant `now`. -/
theorem handleValloxEvent_new_speed_confirms_witness :
    ∃ s1 effs, handleValloxEvent exDev (15 * minute) exSpeedEvent exCachedState =
        some (s1, effs) ∧
      s1.currentSpeed = ((3 : Int) % 256).toNat ∧ s1.currentSpeedUpdated = 15 * minute :=
  handleValloxEvent_new_speed_confirms exDev (15 * minute) exSpeedEvent exCachedState 3
    rfl rfl rfl
    (by
      rintro ⟨val, hc, _, hlt⟩
      have hval : val = { time := 0, value := exSpeedEvent } := by
        simpa [exCachedState, exSpeedEvent] using hc.symm
      rw [hval] at hlt
      exact absurd hlt (by decide))

/-- C9: an event addressed to this listener that is not a duplicate (every cache
entry for its register has another raw value or is 15 minutes old or older; a fan
speed event carries an `int16`) makes the cache entry of its register `(now, e)`,
leaves the entries of all other registers unchanged, and dispatches exactly one
publication, of the event held by the new cache entry. -/
theorem handleValloxEvent_records_new (dev : Vallox) (now : Int) (e : Event) (s : State)
    (hme : dev.ForMe e = true)
    (hty : e.Register = dev.RegisterCurrentFanSpeed → ∃ v, e.Value = Value.int16 v)
    (hnew : ∀ val, s.cache e.Register = some val →
      val.value.RawValue ≠ e.RawValue ∨ 15 * minute ≤ now - val.time) :
    ∃ s1 entry, handleValloxEvent dev now e s = some (s1, [Effect.publishValue entry.value]) ∧
      s1.cache e.Register = some entry ∧ entry = { time := now, value := e } ∧
      ∀ r, r ≠ e.Register → s1.cache r = s.cache r := by
  have hnd : ¬ ∃ val, s.cache e.Register = some val ∧ val.value.RawValue = e.RawValue ∧
      now - val.time < 15 * minute := by
    rintro ⟨val, hc, hraw, hlt⟩
    rcases hnew val hc with h | h
    · exact h hraw
    · exact absurd hlt (not_lt.mpr h)
  by_cases hreg : e.Register = dev.RegisterCurrentFanSpeed
  · obtain ⟨v, hv⟩ := hty hreg
    refine ⟨_, { time := now, value := e },
      handleValloxEvent_of_new_speed dev now e s v hme hnd hreg hv, ?_, rfl, ?_⟩
    · simp
    · intro r hr
      simp [Function.update, hr]
  · refine ⟨_, { time := now, value := e },
      handleValloxEvent_of_new_other dev now e s hme hnd hreg, ?_, rfl, ?_⟩
    · simp
    · intro r hr
      simp [Function.update, hr]

/-- Witness of C9: a raw-identical event exactly 15 minutes after the cached
observation is recorded and published again. -/
theorem handleValloxEvent_records_new_witness :
    ∃ s1 entry, handleValloxEvent exDev (15 * minute) exSpeedEvent exCachedState =
        some (s1, [Effect.publishValue entry.value]) ∧
      s1.cache exSpeedEvent.Register = some entry ∧
      entry = { time := 15 * minute, value := exSpeedEvent } ∧
      ∀ r, r ≠ exSpeedEvent.Register → s1.cache r = exCachedState.cache r :=
  handleValloxEvent_records_new exDev (15 * minute) exSpeedEvent exCachedState rfl
    (fun _ => ⟨3, rfl⟩)
    (by
      intro val hc
      have hval : val = { time := 0, value := exSpeedEvent } := by
        simpa [exCachedState, exSpeedEvent] using hc.symm
      rw [hval]
      exact Or.inr (by decide))

/-- C10: a duplicate event (addressed to this listener, its register cached with the
same raw value less than 15 minutes ago) leaves the state as it is: the cache,
the matching entry with its observation instant, and the four speed fields.  The
effects are those of the re-poll check alone: nothing, or one query of the fan
speed register. -/
theorem handleValloxEvent_duplicate_frame (dev : Vallox) (now : Int) (e : Event)
    (s : State) (val : cacheEntry) (hme : dev.ForMe e = true)
    (hc : s.cache e.Register = some val) (hraw : val.value.RawValue = e.RawValue)
    (hfresh : now - val.time < 15 * minute) :
    ∃ s1 effs, handleValloxEvent dev now e s = some (s1, effs) ∧
      s1.cache = s.cache ∧ s1.cache e.Register = some val ∧
      s1.updateSpeed = s.updateSpeed ∧ s1.updateSpeedRequested = s.updateSpeedRequested ∧
      s1.currentSpeed = s.currentSpeed ∧ s1.currentSpeedUpdated = s.currentSpeedUpdated ∧
      effs = resendOldValues dev now s.cache ∧
      (effs = [] ∨ effs = [Effect.Query dev.RegisterCurrentFanSpeed]) :=
  ⟨s, _, handleValloxEvent_of_duplicate dev now e s hme ⟨val, hc, hraw, hfresh⟩,
    rfl, hc, rfl, rfl, rfl, rfl, rfl, resendOldValues_cases dev now s.cache⟩

/-- Witness of C10: the cached fan speed event repeated after one minute. -/
theorem handleValloxEvent_duplicate_frame_witness :
    ∃ s1 effs, handleValloxEvent exDev minute exSpeedEvent exCachedState = some (s1, effs) ∧
      s1.cache = exCachedState.cache ∧
      s1.cache exSpeedEvent.Register = some { time := 0, value := exSpeedEvent } ∧
      s1.updateSpeed = 5 ∧ s1.updateSpeedRequested = 0 ∧
      s1.currentSpeed = 5 ∧ s1.currentSpeedUpdated = 0 ∧
      effs = resendOldValues exDev minute exCachedState.cache ∧
      (effs = [] ∨ effs = [Effect.Query exDev.RegisterCurrentFanSpeed]) :=
  handleValloxEvent_duplicate_frame exDev minute exSpeedEvent exCachedState
    { time := 0, value := exSpeedEvent } rfl (by simp [exCachedState, exSpeedEvent]) rfl
    (by decide)

/-! ## Transitions of the loop -/

/-- The outcomes of `handleValloxEvent`: either the state is unchanged and at most a
query is issued, or the event is new: it is published, the requested speed and its
instant are kept, and the confirmed speed and its instant change only for the fan
speed register. -/
theorem handleValloxEvent_cases (dev : Vallox) (now : Int) (e : Event) (s s1 : State)
    (effs : List Effect) (h : handleValloxEvent dev now e s = some (s1, effs)) :
    (s1 = s ∧ (effs = [] ∨ effs = [Effect.Query dev.RegisterCurrentFanSpeed])) ∨
    (dev.ForMe e = true ∧
      (¬ ∃ val, s.cache e.Register = some val ∧ val.value.RawValue = e.RawValue ∧
        now - val.time < 15 * minute) ∧
      effs = [Effect.publishValue e] ∧ s1.updateSpeed = s.updateSpeed ∧
      s1.updateSpeedRequested = s.updateSpeedRequested ∧
      ((e.Register ≠ dev.RegisterCurrentFanSpeed ∧ s1.currentSpeed = s.currentSpeed ∧
          s1.currentSpeedUpdated = s.currentSpeedUpdated) ∨
        (e.Register = dev.RegisterCurrentFanSpeed ∧ s1.currentSpeedUpdated = now))) := by
  by_cases hme : dev.ForMe e = true
  · by_cases hdup : ∃ val, s.cache e.Register = some val ∧ val.value.RawValue = e.RawValue ∧
        now - val.time < 15 * minute
    · rw [handleValloxEvent_of_duplicate dev now e s hme hdup] at h
      simp only [Option.some.injEq, Prod.mk.injEq] at h
      left
      refine ⟨h.1.symm, ?_⟩
      rw [← h.2]
      exact resendOldValues_cases dev now s.cache
    · right
      by_cases hreg : e.Register = dev.RegisterCurrentFanSpeed
      · cases hv : e.Value with
        | int16 v =>
          rw [handleValloxEvent_of_new_speed dev now e s v hme hdup hreg hv] at h
          simp only [Option.some.injEq, Prod.mk.injEq] at h
          obtain ⟨h1, h2⟩ := h
          subst h1
          exact ⟨hme, hdup, h2.symm, rfl, rfl, Or.inr ⟨hreg, rfl⟩⟩
        | other shown =>
          have hk : ¬ _ := fun hk => hdup ((known_iff s now e).mp hk)
          simp only [handleValloxEvent, handleValloxEventAt, hme, Bool.not_true, Bool.false_eq_true,
            if_false] at h
          rw [if_neg hk, if_pos hreg] at h
          simp [hv] at h
      · rw [handleValloxEvent_of_new_other dev now e s hme hdup hreg] at h
        simp only [Option.some.injEq, Prod.mk.injEq] at h
        obtain ⟨h1, h2⟩ := h
        subst h1
        exact ⟨hme, hdup, h2.symm, rfl, rfl, Or.inl ⟨hreg, rfl, rfl⟩⟩
  · left
    have hf : dev.ForMe e = false := by simpa using hme
    simp only [handleValloxEvent, handleValloxEventAt, hf, Bool.not_false, if_true, Option.some.injEq,
      Prod.mk.injEq] at h
    exact ⟨h.1.symm, Or.inl h.2.symm⟩

/-- The outcomes of `sendSpeed`: deferred, written, or nothing to do. -/
theorem sendSpeed_cases (dev : Vallox) (now : Int) (s : State) :
    (now - s.updateSpeedRequested < 5 * second ∧
      sendSpeed dev now s = (s, [Effect.sendAfter (1000 * millisecond)])) ∨
    (5 * second ≤ now - s.updateSpeedRequested ∧
      (s.currentSpeed ≠ s.updateSpeed ∨ now - s.currentSpeedUpdated > 10 * second) ∧
      sendSpeed dev now s =
        ({ s with currentSpeed := s.updateSpeed, currentSpeedUpdated := now },
         [Effect.SetSpeed s.updateSpeed, Effect.Sleep (20 * millisecond),
          Effect.Query dev.RegisterCurrentFanSpeed])) ∨
    (5 * second ≤ now - s.updateSpeedRequested ∧
      ¬ (s.currentSpeed ≠ s.updateSpeed ∨ now - s.currentSpeedUpdated > 10 * second) ∧
      sendSpeed dev now s = (s, [])) := by
  unfold sendSpeed
  by_cases h1 : now - s.updateSpeedRequested < 5 * second
  · left
    exact ⟨h1, by rw [if_pos h1]⟩
  · right
    by_cases h2 : s.currentSpeed ≠ s.updateSpeed ∨ now - s.currentSpeedUpdated > 10 * second
    · left
      exact ⟨not_lt.mp h1, h2, by rw [if_neg h1, if_pos h2]⟩
    · right
      exact ⟨not_lt.mp h1, h2, by rw [if_neg h1, if_neg h2]⟩

/-- The outcomes of the request case of the loop. -/
theorem request_cases (dev : Vallox) (now : Int) (v : Nat) (s : State) :
    (s.currentSpeed = v ∧ now - s.currentSpeedUpdated < 10 * second ∧
      mainStep dev now (Msg.request v) s = some (s, [])) ∨
    (¬ (s.currentSpeed = v ∧ now - s.currentSpeedUpdated < 10 * second) ∧
      mainStep dev now (Msg.request v) s =
        some ({ s with updateSpeed := v, updateSpeedRequested := now },
              [Effect.sendNow v])) := by
  by_cases h : s.currentSpeed = v ∧ now - s.currentSpeedUpdated < 10 * second
  · left
    exact ⟨h.1, h.2, by simp [mainStep, mainStepAt, sendCapacity, hasSameRecentSpeed, h.1, h.2]⟩
  · right
    have hb : hasSameRecentSpeed now s v = false := by
      simp only [hasSameRecentSpeed, Bool.and_eq_false_iff, decide_eq_false_iff_not]
      by_cases h1 : s.currentSpeed = v
      · exact Or.inr (fun h2 => h ⟨h1, h2⟩)
      · exact Or.inl h1
    exact ⟨h, by simp [mainStep, mainStepAt, sendCapacity, hb]⟩

/-- The status case of the loop never changes the state and never sends. -/
theorem status_cases (dev : Vallox) (now : Int) (st : String) (s : State) :
    ∃ effs, mainStep dev now (Msg.status st) s = some (s, effs) ∧
      (effs = [Effect.announce] ∨ effs = [Effect.logUnknownStatus st] ∨ effs = []) := by
  by_cases h1 : st = "online"
  · exact ⟨_, by simp [mainStep, mainStepAt, sendCapacity, h1], Or.inl rfl⟩
  · by_cases h2 : st = "offline"
    · exact ⟨_, by simp [mainStep, mainStepAt, sendCapacity, h2], Or.inr (Or.inr rfl)⟩
    · exact ⟨_, by simp [mainStep, mainStepAt, sendCapacity, h1, h2], Or.inr (Or.inl rfl)⟩

/-- Counterexample to C7: a send attempt (request 7 made at instant 0, confirmed
speed 3, handled at 20 s) writes to the device and moves the instant of the
confirmation from 0 to 20 s, although it is not the handling of an event. -/
theorem currentSpeedUpdated_counterexample :
    ¬ ∀ (dev : Vallox) (now : Int) (m : Msg) (s s1 : State) (effs : List Effect),
      mainStep dev now m s = some (s1, effs) →
      s1.currentSpeedUpdated ≠ s.currentSpeedUpdated →
      ∃ e, m = Msg.event e ∧ e.Register = dev.RegisterCurrentFanSpeed := by
  intro h
  have hstep : mainStep exDev (20 * second) Msg.send (exState 7 0 3 0) =
      some ({ exState 7 0 3 0 with currentSpeed := 7, currentSpeedUpdated := 20 * second },
            [Effect.SetSpeed 7, Effect.Sleep (20 * millisecond), Effect.Query 0x29]) := by
    simp [mainStep, mainStepAt, sendCapacity, sendSpeed, exState, exDev, second]
  obtain ⟨e, he, _⟩ := h exDev (20 * second) Msg.send (exState 7 0 3 0) _ _ hstep (by decide)
  exact Msg.noConfusion he

/-- C7 (amended): a transition of the loop changes the instant of the confirmation
only if it is the handling of a new (non-duplicate) event for the fan speed
register addressed to this listener, or a send attempt that writes to the device;
in both cases the new instant is `now`.  Requests, status messages, all other
events, and send attempts that are deferred or find the request satisfied leave it
unchanged. -/
theorem currentSpeedUpdated_changes_only (dev : Vallox) (now : Int) (m : Msg)
    (s s1 : State) (effs : List Effect) (h : mainStep dev now m s = some (s1, effs))
    (hne : s1.currentSpeedUpdated ≠ s.currentSpeedUpdated) :
    s1.currentSpeedUpdated = now ∧
    ((∃ e, m = Msg.event e ∧ dev.ForMe e = true ∧
        e.Register = dev.RegisterCurrentFanSpeed ∧
        (¬ ∃ val, s.cache e.Register = some val ∧ val.value.RawValue = e.RawValue ∧
          now - val.time < 15 * minute) ∧
        effs = [Effect.publishValue e]) ∨
     (m = Msg.send ∧
        effs = [Effect.SetSpeed s.updateSpeed, Effect.Sleep (20 * millisecond),
                Effect.Query dev.RegisterCurrentFanSpeed])) := by
  cases m with
  | event e =>
    rcases handleValloxEvent_cases dev now e s s1 effs h with
      ⟨h1, _⟩ | ⟨hme, hnew, heff, _, _, ⟨_, _, h3⟩ | ⟨hreg, h3⟩⟩
    · exact absurd (by rw [h1]) hne
    · exact absurd h3 hne
    · exact ⟨h3, Or.inl ⟨e, rfl, hme, hreg, hnew, heff⟩⟩
  | request v =>
    rcases request_cases dev now v s with ⟨_, _, h1⟩ | ⟨_, h1⟩
    · rw [h1] at h
      simp only [Option.some.injEq, Prod.mk.injEq] at h
      exact absurd (by rw [← h.1]) hne
    · rw [h1] at h
      simp only [Option.some.injEq, Prod.mk.injEq] at h
      exact absurd (by rw [← h.1]) hne
  | send =>
    simp only [mainStep, mainStepAt, sendCapacity, Option.some.injEq] at h
    rcases sendSpeed_cases dev now s with ⟨_, h1⟩ | ⟨_, _, h1⟩ | ⟨_, _, h1⟩
    · rw [h1] at h
      simp only [Prod.mk.injEq] at h
      exact absurd (by rw [← h.1]) hne
    · rw [h1] at h
      simp only [Prod.mk.injEq] at h
      exact ⟨by rw [← h.1], Or.inr ⟨rfl, h.2.symm⟩⟩
    · rw [h1] at h
      simp only [Prod.mk.injEq] at h
      exact absurd (by rw [← h.1]) hne
  | status st =>
    obtain ⟨effs1, h1, _⟩ := status_cases dev now st s
    rw [h1] at h
    simp only [Option.some.injEq, Prod.mk.injEq] at h
    exact absurd (by rw [← h.1]) hne

/-- Witness of C7 (amended): the send attempt of the counterexample is a write. -/
theorem currentSpeedUpdated_changes_only_witness :
    ({ exState 7 0 3 0 with currentSpeed := 7, currentSpeedUpdated := 20 * second } :
        State).currentSpeedUpdated = 20 * second ∧
    ((∃ e, Msg.send = Msg.event e ∧ exDev.ForMe e = true ∧
        e.Register = exDev.RegisterCurrentFanSpeed ∧
        (¬ ∃ val, (exState 7 0 3 0).cache e.Register = some val ∧
          val.value.RawValue = e.RawValue ∧ 20 * second - val.time < 15 * minute) ∧
        [Effect.SetSpeed 7, Effect.Sleep (20 * millisecond), Effect.Query 0x29] =
          [Effect.publishValue e]) ∨
     (Msg.send = Msg.send ∧
        [Effect.SetSpeed 7, Effect.Sleep (20 * millisecond), Effect.Query 0x29] =
          [Effect.SetSpeed (exState 7 0 3 0).updateSpeed, Effect.Sleep (20 * millisecond),
           Effect.Query exDev.RegisterCurrentFanSpeed])) :=
  currentSpeedUpdated_changes_only exDev (20 * second) Msg.send (exState 7 0 3 0)
    { exState 7 0 3 0 with currentSpeed := 7, currentSpeedUpdated := 20 * second }
    [Effect.SetSpeed 7, Effect.Sleep (20 * millisecond), Effect.Query 0x29]
    (by simp [mainStep, mainStepAt, sendCapacity, sendSpeed, exState, exDev, second])
    (by decide)

/-- The last send of a concatenation. -/
theorem lastSendNow_append (a b : List Effect) :
    lastSendNow (a ++ b) =
      match lastSendNow b with
      | some v => some v
      | none => lastSendNow a := by
  induction a with
  | nil => cases h : lastSendNow b <;> simp [lastSendNow, h]
  | cons x xs ih =>
    show (match lastSendNow (xs ++ b) with
      | some v => some v
      | none => match x with
        | Effect.sendNow v => some v
        | _ => none) = _
    rw [ih]
    cases h : lastSendNow b <;> simp [lastSendNow]

/-- One transition sets the requested speed to the value it sends on
`speedUpdateSend`, if any, and keeps it otherwise. -/
theorem mainStep_updateSpeed (dev : Vallox) (now : Int) (m : Msg) (s s1 : State)
    (effs : List Effect) (h : mainStep dev now m s = some (s1, effs)) :
    s1.updateSpeed = (lastSendNow effs).getD s.updateSpeed := by
  cases m with
  | event e =>
    rcases handleValloxEvent_cases dev now e s s1 effs h with
      ⟨h1, h2 | h2⟩ | ⟨_, _, heff, h2, _⟩
    · simp [h1, h2, lastSendNow]
    · simp [h1, h2, lastSendNow]
    · simp [heff, h2, lastSendNow]
  | request v =>
    rcases request_cases dev now v s with ⟨_, _, h1⟩ | ⟨_, h1⟩
    · rw [h1] at h
      simp only [Option.some.injEq, Prod.mk.injEq] at h
      simp [← h.1, ← h.2, lastSendNow]
    · rw [h1] at h
      simp only [Option.some.injEq, Prod.mk.injEq] at h
      simp [← h.1, ← h.2, lastSendNow]
  | send =>
    simp only [mainStep, mainStepAt, sendCapacity, Option.some.injEq] at h
    rcases sendSpeed_cases dev now s with ⟨_, h1⟩ | ⟨_, _, h1⟩ | ⟨_, _, h1⟩ <;>
    · rw [h1] at h
      simp only [Prod.mk.injEq] at h
      simp [← h.1, ← h.2, lastSendNow]
  | status st =>
    obtain ⟨effs1, h1, h2⟩ := status_cases dev now st s
    rw [h1] at h
    simp only [Option.some.injEq, Prod.mk.injEq] at h
    rcases h2 with h2 | h2 | h2 <;> simp [← h.1, ← h.2, h2, lastSendNow]

/-- Over a run, the requested speed ends as the last value sent on
`speedUpdateSend` by a request, and is the initial one if there was none. -/
theorem runLog_updateSpeed (dev : Vallox) (ms : List (Int × Msg)) :
    ∀ (s s1 : State) (effs : List Effect), runLog dev s ms = some (s1, effs) →
      s1.updateSpeed = (lastSendNow effs).getD s.updateSpeed := by
  induction ms with
  | nil =>
    intro s s1 effs h
    simp only [runLog, Option.some.injEq, Prod.mk.injEq] at h
    simp [← h.1, ← h.2, lastSendNow]
  | cons x xs ih =>
    intro s s1 effs h
    obtain ⟨now, m⟩ := x
    simp only [runLog] at h
    cases hstep : mainStep dev now m s with
    | none => simp [hstep] at h
    | some r =>
      obtain ⟨s2, effs2⟩ := r
      simp only [hstep] at h
      cases hrest : runLog dev s2 xs with
      | none => simp [hrest] at h
      | some r2 =>
        obtain ⟨s3, effs3⟩ := r2
        simp only [hrest, Option.some.injEq, Prod.mk.injEq] at h
        have h1 := mainStep_updateSpeed dev now m s s2 effs2 hstep
        have h2 := ih s2 s3 effs3 hrest
        rw [← h.1, ← h.2, lastSendNow_append, h2, h1]
        cases lastSendNow effs3 <;> simp

/-! ## The loop with its pending messages -/

/-- A list has no earliest instant only if it is empty. -/
theorem earliest_eq_none (l : List Int) : earliest l = none ↔ l = [] := by
  cases l with
  | nil => simp [earliest]
  | cons t ts =>
    simp only [earliest]
    cases earliest ts <;> simp

/-- The earliest instant of a list belongs to it and bounds it from below. -/
theorem earliest_spec (l : List Int) (u : Int) (h : earliest l = some u) :
    u ∈ l ∧ ∀ t ∈ l, u ≤ t := by
  induction l generalizing u with
  | nil => simp [earliest] at h
  | cons t ts ih =>
    simp only [earliest] at h
    cases hts : earliest ts with
    | none =>
      rw [hts] at h
      simp only [Option.some.injEq] at h
      have hnil := (earliest_eq_none ts).mp hts
      subst hnil
      subst h
      simp
    | some w =>
      rw [hts] at h
      simp only [Option.some.injEq] at h
      obtain ⟨hw, hall⟩ := ih w hts
      by_cases htw : t ≤ w
      · rw [if_pos htw] at h
        subst h
        refine ⟨List.mem_cons_self _ _, ?_⟩
        intro x hx
        rcases List.mem_cons.mp hx with hx | hx
        · exact le_of_eq hx.symm
        · exact le_trans htw (hall x hx)
      · rw [if_neg htw] at h
        subst h
        refine ⟨List.mem_cons_of_mem _ hw, ?_⟩
        intro x hx
        rcases List.mem_cons.mp hx with hx | hx
        · rw [hx]; exact le_of_lt (not_le.mp htw)
        · exact hall x hx

/-- The device writes of a concatenation. -/
theorem writes_append (a b : List Effect) : writes (a ++ b) = writes a ++ writes b := by
  induction a with
  | nil => rfl
  | cons x xs ih => cases x <;> simp [writes, ih]

/-- Removing a send attempt removes its share of the bound. -/
theorem remaining_sum_erase (r3 u : Int) (l : List Int) (h : u ∈ l) :
    remaining r3 u + ((l.erase u).map (remaining r3)).sum = (l.map (remaining r3)).sum :=
  List.sum_map_erase (remaining r3) h

/-- With room in the buffer of `speedUpdateSend` an iteration is what it is with an
empty buffer. -/
theorem mainStepAt_of_room (dev : Vallox) (now : Int) (queued : Nat) (m : Msg) (s : State)
    (hq : queued < sendCapacity) : mainStepAt dev now queued m s = mainStep dev now m s := by
  cases m with
  | event e => rfl
  | request v =>
    have h0 : 0 < sendCapacity := by decide
    simp only [mainStep, mainStepAt, hq, h0, if_true]
  | send => rfl
  | status st => rfl

/-- Fewer values wait in the buffer than are in flight. -/
theorem queuedAt_le (now : Int) (sends : List Int) : queuedAt now sends ≤ sends.length := by
  unfold queuedAt
  have := List.length_filter_le (fun u => decide (u ≤ now)) sends
  omega

/-- An admissible input that is not a request is handled without touching the speed
negotiation: the four speed fields are kept, nothing is sent on
`speedUpdateSend`, nothing is written, and the handler does not sleep. -/
theorem bystander_step (dev : Vallox) (now t : Int) (queued : Nat) (m : Msg) (s : State)
    (hadm : admissible dev m = true) (hnr : requestOf (t, m) = none) :
    ∃ s1 effs, mainStepAt dev now queued m s = some (s1, effs) ∧
      s1.updateSpeed = s.updateSpeed ∧ s1.updateSpeedRequested = s.updateSpeedRequested ∧
      s1.currentSpeed = s.currentSpeed ∧ s1.currentSpeedUpdated = s.currentSpeedUpdated ∧
      scheduled now effs = [] ∧ writes effs = [] ∧ slept effs = 0 := by
  cases m with
  | event e =>
    have hreg : e.Register ≠ dev.RegisterCurrentFanSpeed := by
      simpa [admissible] using hadm
    show ∃ s1 effs, handleValloxEvent dev now e s = some (s1, effs) ∧ _
    by_cases hme : dev.ForMe e = true
    · by_cases hdup : ∃ val, s.cache e.Register = some val ∧
          val.value.RawValue = e.RawValue ∧ now - val.time < 15 * minute
      · refine ⟨s, _, handleValloxEvent_of_duplicate dev now e s hme hdup, rfl, rfl, rfl, rfl, ?_⟩
        rcases resendOldValues_cases dev now s.cache with h | h <;> rw [h] <;>
          exact ⟨rfl, rfl, rfl⟩
      · exact ⟨_, _, handleValloxEvent_of_new_other dev now e s hme hdup hreg, rfl, rfl, rfl,
          rfl, rfl, rfl, rfl⟩
    · have hf : dev.ForMe e = false := by simpa using hme
      refine ⟨s, [], ?_, rfl, rfl, rfl, rfl, rfl, rfl, rfl⟩
      simp [handleValloxEvent, handleValloxEventAt, hf]
  | request v => simp [requestOf] at hnr
  | send => simp [admissible] at hadm
  | status st =>
    obtain ⟨effs, h, hcases⟩ := status_cases dev now st s
    refine ⟨s, effs, h, rfl, rfl, rfl, rfl, ?_⟩
    rcases hcases with h1 | h1 | h1 <;> rw [h1] <;> exact ⟨rfl, rfl, rfl⟩

/-- The request that `requestOf` finds in an input. -/
theorem requestOf_some (x : Int × Msg) (t : Int) (v : Nat) (h : requestOf x = some (t, v)) :
    x = (t, Msg.request v) := by
  obtain ⟨a, m⟩ := x
  cases m with
  | request w =>
    simp only [requestOf, Option.some.injEq, Prod.mk.injEq] at h
    rw [h.1, h.2]
  | event e => simp [requestOf] at h
  | send => simp [requestOf] at h
  | status st => simp [requestOf] at h

/-- While a request of the debounce scenario is pending, the last one, for 7 at `r3`,
is among the inputs. -/
theorem pending_last (dev : Vallox) (s0 : State) (r1 r2 r3 : Int) (l : Loop)
    (hA : Debouncing dev s0 r1 r2 r3 l) (hne : l.inputs.filterMap requestOf ≠ []) :
    (r3, Msg.request 7) ∈ l.inputs := by
  have hmem : (r3, 7) ∈ l.inputs.filterMap requestOf := by
    rcases hA.pending with h | h | h | h
    · rw [h]; simp
    · rw [h]; simp
    · rw [h]; simp
    · exact absurd h hne
  obtain ⟨x, hx, hreq⟩ := List.mem_filterMap.mp hmem
  rw [← requestOf_some x r3 7 hreq]
  exact hx

/-- The first pending input of the debounce phase, when it is a request, is the next
of the three requests. -/
theorem pending_head (dev : Vallox) (s0 : State) (r1 r2 r3 t : Int) (v : Nat) (l : Loop)
    (rest : List (Int × Msg)) (h12 : r1 ≤ r2) (h23 : r2 ≤ r3)
    (hA : Debouncing dev s0 r1 r2 r3 l) (hin : l.inputs = (t, Msg.request v) :: rest) :
    r1 ≤ t ∧ t ≤ r3 ∧
      (rest.filterMap requestOf = [(r2, 6), (r3, 7)] ∨
        rest.filterMap requestOf = [(r3, 7)] ∨ rest.filterMap requestOf = []) ∧
      (rest.filterMap requestOf = [] → v = 7 ∧ t = r3) ∧
      l.inputs.filterMap requestOf = (t, v) :: rest.filterMap requestOf := by
  have hcons : l.inputs.filterMap requestOf = (t, v) :: rest.filterMap requestOf := by
    rw [hin]
    simp [List.filterMap_cons, requestOf]
  rcases hA.pending with h | h | h | h <;> rw [hcons] at h
  · simp only [List.cons.injEq, Prod.mk.injEq] at h
    obtain ⟨⟨ht, hv⟩, hr⟩ := h
    refine ⟨by omega, by omega, Or.inl hr, ?_, hcons⟩
    intro hnil
    rw [hnil] at hr
    simp at hr
  · simp only [List.cons.injEq, Prod.mk.injEq] at h
    obtain ⟨⟨ht, hv⟩, hr⟩ := h
    refine ⟨by omega, by omega, Or.inr (Or.inl hr), ?_, hcons⟩
    intro hnil
    rw [hnil] at hr
    simp at hr
  · simp only [List.cons.injEq, Prod.mk.injEq] at h
    obtain ⟨⟨ht, hv⟩, hr⟩ := h
    exact ⟨by omega, by omega, Or.inr (Or.inr hr), fun _ => ⟨hv, ht⟩, hcons⟩
  · simp at h

/-- Handling one of the three requests keeps the loop in the debounce phase and
uses up part of the bound. -/
theorem debouncing_request (dev : Vallox) (s0 : State) (r1 r2 r3 t : Int) (v : Nat)
    (l : Loop) (rest : List (Int × Msg)) (h12 : r1 ≤ r2) (h23 : r2 ≤ r3)
    (h31 : r3 ≤ r1 + second)
    (hacc : ¬ (s0.currentSpeed = 7 ∧ r3 - s0.currentSpeedUpdated < 10 * second))
    (hA : Debouncing dev s0 r1 r2 r3 l) (hin : l.inputs = (t, Msg.request v) :: rest)
    (hsend : ∀ u ∈ l.sends, t ≤ u) :
    ∃ l1, deliver dev t (Msg.request v) { l with inputs := rest } = some l1 ∧
      Debouncing dev s0 r1 r2 r3 l1 ∧ fuelLeft r3 l1 < fuelLeft r3 l := by
  have hs : second = 1000000000 := rfl
  have hcap : sendCapacity = 10 := rfl
  obtain ⟨ht1, ht3, hrest, hlast, hcons⟩ := pending_head dev s0 r1 r2 r3 t v l rest h12 h23 hA hin
  have hcount := hA.count
  rw [hcons, List.length_cons] at hcount
  have hroom : queuedAt t l.sends < sendCapacity := by
    have := queuedAt_le t l.sends
    omega
  have hstepEq := mainStepAt_of_room dev t (queuedAt t l.sends) (Msg.request v) l.state hroom
  have hsorted := hA.sorted
  rw [hin, List.pairwise_cons] at hsorted
  have hadm : ∀ x ∈ rest, admissible dev x.2 = true :=
    fun x hx => hA.adm x (by rw [hin]; exact List.mem_cons_of_mem _ hx)
  rcases request_cases dev t v l.state with ⟨hv, hfresh, hstep⟩ | ⟨_, hstep⟩
  · refine ⟨{ state := l.state, inputs := rest, sends := l.sends, clock := t, log := l.log },
      ?_, ?_, ?_⟩
    · simp [deliver, hstepEq, hstep, scheduled, slept]
    · refine ⟨hA.speed, hA.updated, hA.nowrite, Or.inr hrest, hadm, hsorted.2, hsorted.1,
        hsend, hA.times,
        by show l.sends.length + (rest.filterMap requestOf).length ≤ 3; omega,
        hA.requested, ?_⟩
      intro hnil
      obtain ⟨h7, h3⟩ := hlast hnil
      exfalso
      apply hacc
      rw [← hA.speed, ← hA.updated, ← h3, ← h7]
      exact ⟨hv, hfresh⟩
    · show 8 * (rest.filterMap requestOf).length + rest.length
          + (l.sends.map (remaining r3)).sum
        < 8 * (l.inputs.filterMap requestOf).length + l.inputs.length
          + (l.sends.map (remaining r3)).sum
      rw [hcons, hin, List.length_cons, List.length_cons]
      omega
  · refine ⟨{ state := { l.state with updateSpeed := v, updateSpeedRequested := t },
              inputs := rest, sends := l.sends ++ [t], clock := t,
              log := l.log ++ [Effect.sendNow v] }, ?_, ?_, ?_⟩
    · simp [deliver, hstepEq, hstep, scheduled, slept]
    · refine ⟨hA.speed, hA.updated, ?_, Or.inr hrest, hadm, hsorted.2, hsorted.1, ?_, ?_, ?_,
        ?_, ?_⟩
      · simp [writes_append, hA.nowrite, writes]
      · intro x hx
        rcases List.mem_append.mp hx with hx | hx
        · exact hsend x hx
        · rw [List.mem_singleton.mp hx]
      · intro x hx
        rcases List.mem_append.mp hx with hx | hx
        · exact hA.times x hx
        · rw [List.mem_singleton.mp hx, hs]
          exact ⟨ht1, by omega⟩
      · show (l.sends ++ [t]).length + (rest.filterMap requestOf).length ≤ 3
        rw [List.length_append, List.length_singleton]
        omega
      · intro _
        exact ⟨ht1, ht3⟩
      · intro hnil
        obtain ⟨h7, h3⟩ := hlast hnil
        exact ⟨by simp, h7, h3⟩
    · have hrem : remaining r3 t < 8 := by
        simp only [remaining, hs]
        rw [hs] at h31
        omega
      show 8 * (rest.filterMap requestOf).length + rest.length
          + ((l.sends ++ [t]).map (remaining r3)).sum
        < 8 * (l.inputs.filterMap requestOf).length + l.inputs.length
          + (l.sends.map (remaining r3)).sum
      rw [hcons, hin, List.length_cons, List.length_cons, List.map_append, List.sum_append,
        List.map_cons, List.map_nil, List.sum_cons, List.sum_nil]
      omega

/-- Handling a status message or an event of another register keeps the loop in the
debounce phase and uses up part of the bound. -/
theorem debouncing_bystander (dev : Vallox) (s0 : State) (r1 r2 r3 t : Int) (m : Msg)
    (l : Loop) (rest : List (Int × Msg)) (hA : Debouncing dev s0 r1 r2 r3 l)
    (hin : l.inputs = (t, m) :: rest) (hnr : requestOf (t, m) = none)
    (hsend : ∀ u ∈ l.sends, t ≤ u) :
    ∃ l1, deliver dev t m { l with inputs := rest } = some l1 ∧
      Debouncing dev s0 r1 r2 r3 l1 ∧ fuelLeft r3 l1 < fuelLeft r3 l := by
  have hadm0 : admissible dev m = true := hA.adm (t, m) (by rw [hin]; exact List.mem_cons_self _ _)
  obtain ⟨s1, effs, hstep, hu1, hu2, hc1, hc2, hsched, hwr, hsl⟩ :=
    bystander_step dev t t (queuedAt t l.sends) m l.state hadm0 hnr
  have hfm : l.inputs.filterMap requestOf = rest.filterMap requestOf := by
    rw [hin, List.filterMap_cons, hnr]
  have hsorted := hA.sorted
  rw [hin, List.pairwise_cons] at hsorted
  have hadm : ∀ x ∈ rest, admissible dev x.2 = true :=
    fun x hx => hA.adm x (by rw [hin]; exact List.mem_cons_of_mem _ hx)
  refine ⟨{ state := s1, inputs := rest, sends := l.sends, clock := t, log := l.log ++ effs },
    ?_, ?_, ?_⟩
  · simp [deliver, hstep, hsched, hsl]
  · refine ⟨by rw [← hA.speed]; exact hc1, by rw [← hA.updated]; exact hc2, ?_, ?_, hadm,
      hsorted.2, hsorted.1, hsend, hA.times, ?_, ?_, ?_⟩
    · simp [writes_append, hA.nowrite, hwr]
    · show rest.filterMap requestOf = _ ∨ _
      rw [← hfm]
      exact hA.pending
    · show l.sends.length + (rest.filterMap requestOf).length ≤ 3
      rw [← hfm]
      exact hA.count
    · intro hne
      show r1 ≤ s1.updateSpeedRequested ∧ s1.updateSpeedRequested ≤ r3
      rw [hu2]
      exact hA.requested hne
    · intro hnil
      show l.sends ≠ [] ∧ s1.updateSpeed = 7 ∧ s1.updateSpeedRequested = r3
      rw [hu1, hu2]
      exact hA.last (by rw [hfm]; exact hnil)
  · show 8 * (rest.filterMap requestOf).length + rest.length
        + (l.sends.map (remaining r3)).sum
      < 8 * (l.inputs.filterMap requestOf).length + l.inputs.length
        + (l.sends.map (remaining r3)).sum
    rw [hfm, hin, List.length_cons]
    omega

/-- Handling a send attempt in the debounce phase either defers it, or, once the
last request is 5 s old, writes 7 and settles the loop. -/
theorem debouncing_send (dev : Vallox) (s0 : State) (r1 r2 r3 u : Int) (l : Loop)
    (h31 : r3 ≤ r1 + second)
    (hacc : ¬ (s0.currentSpeed = 7 ∧ r3 - s0.currentSpeedUpdated < 10 * second))
    (hA : Debouncing dev s0 r1 r2 r3 l) (hu : earliest l.sends = some u)
    (hle : ∀ x ∈ l.inputs, u ≤ x.1) :
    ∃ l1, deliver dev u Msg.send { l with sends := l.sends.erase u } = some l1 ∧
      (Debouncing dev s0 r1 r2 r3 l1 ∨ Settled dev r3 l1) ∧
      fuelLeft r3 l1 < fuelLeft r3 l := by
  have hs : second = 1000000000 := rfl
  have hms : 1000 * millisecond = 1000000000 := rfl
  have hms20 : 20 * millisecond = 20000000 := rfl
  obtain ⟨humem, hmin⟩ := earliest_spec l.sends u hu
  have hne : l.sends ≠ [] := List.ne_nil_of_mem humem
  obtain ⟨hq1, hq3⟩ := hA.requested hne
  obtain ⟨hu1, hu6⟩ := hA.times u humem
  have hsum := remaining_sum_erase r3 u l.sends humem
  have herase : ∀ x ∈ l.sends.erase u, x ∈ l.sends := fun x hx => List.mem_of_mem_erase hx
  have hlen : (l.sends.erase u).length + 1 = l.sends.length := by
    rw [List.length_erase_of_mem humem]
    have := List.length_pos_of_mem humem
    omega
  have hmain : ∀ q, mainStepAt dev u q Msg.send l.state = some (sendSpeed dev u l.state) :=
    fun _ => rfl
  -- while a request is pending, or the last one is younger than 5 s, the attempt is deferred
  have hdefer : u < r3 + 5 * second → u - l.state.updateSpeedRequested < 5 * second →
      ∃ l1, deliver dev u Msg.send { l with sends := l.sends.erase u } = some l1 ∧
        (Debouncing dev s0 r1 r2 r3 l1 ∨ Settled dev r3 l1) ∧
        fuelLeft r3 l1 < fuelLeft r3 l := by
    intro hu5 hyoung
    have hstep : sendSpeed dev u l.state =
        (l.state, [Effect.sendAfter (1000 * millisecond)]) := by
      unfold sendSpeed
      rw [if_pos hyoung]
    refine ⟨{ state := l.state, inputs := l.inputs,
              sends := l.sends.erase u ++ [u + 1000000000], clock := u,
              log := l.log ++ [Effect.sendAfter (1000 * millisecond)] }, ?_, Or.inl ?_, ?_⟩
    · simp [deliver, hmain, hstep, scheduled, slept, hms]
    · refine ⟨hA.speed, hA.updated, ?_, hA.pending, hA.adm, hA.sorted, hle, ?_, ?_, ?_, ?_,
        ?_⟩
      · simp [writes_append, hA.nowrite, writes]
      · intro x hx
        rcases List.mem_append.mp hx with hx | hx
        · exact hmin x (herase x hx)
        · rw [List.mem_singleton.mp hx]
          show u ≤ u + 1000000000
          omega
      · intro x hx
        rcases List.mem_append.mp hx with hx | hx
        · exact hA.times x (herase x hx)
        · rw [List.mem_singleton.mp hx]
          rw [hs] at hu5 ⊢
          exact ⟨by omega, by omega⟩
      · show (l.sends.erase u ++ [u + 1000000000]).length + _ ≤ 3
        rw [List.length_append, List.length_singleton, hlen]
        exact hA.count
      · intro _
        exact ⟨hq1, hq3⟩
      · intro hnil
        exact ⟨by simp, (hA.last hnil).2⟩
    · have hrem : remaining r3 (u + 1000000000) < remaining r3 u := by
        simp only [remaining, hs]
        rw [hs] at hu5
        omega
      simp only [fuelLeft, List.map_append, List.sum_append, List.map_cons, List.map_nil,
        List.sum_cons, List.sum_nil]
      omega
  by_cases hpend : l.inputs.filterMap requestOf = []
  · obtain ⟨_, h7, hr3⟩ := hA.last hpend
    by_cases hyoung : u - l.state.updateSpeedRequested < 5 * second
    · exact hdefer (by rw [hr3] at hyoung; rw [hs] at hyoung ⊢; omega) hyoung
    · have hold : r3 + 5 * second ≤ u := by
        rw [hr3, hs] at hyoung
        rw [hs]
        omega
      have hcond : l.state.currentSpeed ≠ l.state.updateSpeed ∨
          u - l.state.currentSpeedUpdated > 10 * second := by
        rw [hA.speed, hA.updated, h7]
        by_cases hc : s0.currentSpeed = 7
        · right
          have h10 : ¬ r3 - s0.currentSpeedUpdated < 10 * second := fun h => hacc ⟨hc, h⟩
          rw [hs] at h10 hold ⊢
          omega
        · exact Or.inl hc
      have hstep : sendSpeed dev u l.state =
          ({ l.state with currentSpeed := l.state.updateSpeed, currentSpeedUpdated := u },
           [Effect.SetSpeed l.state.updateSpeed, Effect.Sleep (20 * millisecond),
            Effect.Query dev.RegisterCurrentFanSpeed]) := by
        unfold sendSpeed
        rw [if_neg hyoung, if_pos hcond]
      refine ⟨{ state := { l.state with currentSpeed := l.state.updateSpeed,
                                        currentSpeedUpdated := u },
                inputs := l.inputs, sends := l.sends.erase u, clock := u + 20000000,
                log := l.log ++ [Effect.SetSpeed l.state.updateSpeed,
                  Effect.Sleep (20 * millisecond),
                  Effect.Query dev.RegisterCurrentFanSpeed] }, ?_, Or.inr ?_, ?_⟩
      · simp [deliver, hmain, hstep, scheduled, slept, hms20]
      · refine ⟨hpend, hA.adm, ?_, h7, h7, hr3, hold, ?_, ?_, ?_⟩
        · simp [writes_append, hA.nowrite, writes, h7]
        · show u ≤ u + 20000000
          omega
        · intro _
          show u + 20000000 < r3 + 6 * second + 20 * millisecond
          rw [hms20]
          omega
        · intro x hx
          exact (hA.times x (herase x hx)).2
      · have hpos : 0 < remaining r3 u := by
          simp only [remaining]
          omega
        simp only [fuelLeft]
        omega
  · have hin3 := pending_last dev s0 r1 r2 r3 l hA hpend
    have hu3 : u ≤ r3 := hle (r3, Msg.request 7) hin3
    rw [hs] at h31
    exact hdefer (by rw [hs]; omega) (by rw [hs]; omega)

/-- After the write a status message or an event of another register leaves the loop
settled. -/
theorem settled_bystander (dev : Vallox) (r3 now t : Int) (m : Msg) (l : Loop)
    (rest : List (Int × Msg)) (hB : Settled dev r3 l) (hin : l.inputs = (t, m) :: rest)
    (hlow : l.clock ≤ now)
    (hhigh : l.sends ≠ [] → now < r3 + 6 * second + 20 * millisecond) :
    ∃ l1, deliver dev now m { l with inputs := rest } = some l1 ∧
      Settled dev r3 l1 ∧ fuelLeft r3 l1 < fuelLeft r3 l := by
  have hnone := hB.norequest
  rw [hin, List.filterMap_cons] at hnone
  have hnr : requestOf (t, m) = none := by
    cases h : requestOf (t, m) with
    | none => rfl
    | some x => simp [h] at hnone
  rw [hnr] at hnone
  have hadm0 : admissible dev m = true := hB.adm (t, m) (by rw [hin]; exact List.mem_cons_self _ _)
  obtain ⟨s1, effs, hstep, hu1, hu2, hc1, hc2, hsched, hwr, hsl⟩ :=
    bystander_step dev now t (queuedAt now l.sends) m l.state hadm0 hnr
  have hadm : ∀ x ∈ rest, admissible dev x.2 = true :=
    fun x hx => hB.adm x (by rw [hin]; exact List.mem_cons_of_mem _ hx)
  have hfm : l.inputs.filterMap requestOf = rest.filterMap requestOf := by
    rw [hin, List.filterMap_cons, hnr]
  refine ⟨{ state := s1, inputs := rest, sends := l.sends, clock := now,
            log := l.log ++ effs }, ?_, ?_, ?_⟩
  · simp [deliver, hstep, hsched, hsl]
  · refine ⟨hnone, hadm, ?_, by rw [← hB.requestedSpeed]; exact hu1,
      by rw [← hB.speed]; exact hc1, by rw [← hB.requested]; exact hu2, ?_, ?_, hhigh,
      hB.times⟩
    · simp [writes_append, hB.written, hwr]
    · show r3 + 5 * second ≤ s1.currentSpeedUpdated
      rw [hc2]
      exact hB.updated
    · show s1.currentSpeedUpdated ≤ now
      rw [hc2]
      exact le_trans hB.clockLow hlow
  · show 8 * (rest.filterMap requestOf).length + rest.length
        + (l.sends.map (remaining r3)).sum
      < 8 * (l.inputs.filterMap requestOf).length + l.inputs.length
        + (l.sends.map (remaining r3)).sum
    rw [hfm, hin, List.length_cons]
    omega

/-- After the write every send attempt finds the request satisfied and ends. -/
theorem settled_send (dev : Vallox) (r3 now u : Int) (l : Loop) (hB : Settled dev r3 l)
    (hu : earliest l.sends = some u) (hlow : l.clock ≤ now)
    (hhigh : now < r3 + 6 * second + 20 * millisecond) :
    ∃ l1, deliver dev now Msg.send { l with sends := l.sends.erase u } = some l1 ∧
      Settled dev r3 l1 ∧ fuelLeft r3 l1 < fuelLeft r3 l := by
  have hs : second = 1000000000 := rfl
  have hms20 : 20 * millisecond = 20000000 := rfl
  obtain ⟨humem, _⟩ := earliest_spec l.sends u hu
  have hsum := remaining_sum_erase r3 u l.sends humem
  have hupd := hB.updated
  have hclk := hB.clockLow
  have hold : ¬ now - l.state.updateSpeedRequested < 5 * second := by
    rw [hB.requested]
    rw [hs] at hupd ⊢
    omega
  have hcond : ¬ (l.state.currentSpeed ≠ l.state.updateSpeed ∨
      now - l.state.currentSpeedUpdated > 10 * second) := by
    rw [hB.speed, hB.requestedSpeed]
    rw [hs, hms20] at hhigh
    rw [hs] at hupd ⊢
    rintro (h | h)
    · exact h rfl
    · omega
  have hstep : sendSpeed dev now l.state = (l.state, []) := by
    unfold sendSpeed
    rw [if_neg hold, if_neg hcond]
  have hmain : ∀ q, mainStepAt dev now q Msg.send l.state = some (sendSpeed dev now l.state) :=
    fun _ => rfl
  refine ⟨{ state := l.state, inputs := l.inputs, sends := l.sends.erase u, clock := now,
            log := l.log }, ?_, ?_, ?_⟩
  · simp [deliver, hmain, hstep, scheduled, slept]
  · exact ⟨hB.norequest, hB.adm, hB.written, hB.requestedSpeed, hB.speed, hB.requested,
      hB.updated, le_trans hclk hlow, fun _ => hhigh,
      fun x hx => hB.times x (List.mem_of_mem_erase hx)⟩
  · have hpos : 0 < remaining r3 u := by
      simp only [remaining]
      omega
    simp only [fuelLeft]
    omega

/-- An iteration of the loop from a state of the debounce scenario: either nothing
is pending and 7 has been written once, or the iteration completes, keeps the
scenario and uses up part of the bound. -/
theorem loopStep_progress (dev : Vallox) (s0 : State) (r1 r2 r3 : Int) (b : Bool)
    (l : Loop) (h12 : r1 ≤ r2) (h23 : r2 ≤ r3) (h31 : r3 ≤ r1 + second)
    (hacc : ¬ (s0.currentSpeed = 7 ∧ r3 - s0.currentSpeedUpdated < 10 * second))
    (hinv : Debouncing dev s0 r1 r2 r3 l ∨ Settled dev r3 l) :
    (l.inputs = [] ∧ l.sends = [] ∧ writes l.log = [7] ∧ loopStep dev b l = none) ∨
    ∃ l1, loopStep dev b l = some l1 ∧
      (Debouncing dev s0 r1 r2 r3 l1 ∨ Settled dev r3 l1) ∧
      fuelLeft r3 l1 < fuelLeft r3 l := by
  obtain ⟨st, ins, snd, clk, lg⟩ := l
  have hinput : ∀ (t : Int) (m : Msg) (rest : List (Int × Msg)),
      Debouncing dev s0 r1 r2 r3 ⟨st, (t, m) :: rest, snd, clk, lg⟩ →
      (∀ u ∈ snd, t ≤ u) →
      ∃ l1, deliver dev t m ⟨st, rest, snd, clk, lg⟩ = some l1 ∧
        (Debouncing dev s0 r1 r2 r3 l1 ∨ Settled dev r3 l1) ∧
        fuelLeft r3 l1 < fuelLeft r3 ⟨st, (t, m) :: rest, snd, clk, lg⟩ := by
    intro t m rest hA hsend
    cases hreq : requestOf (t, m) with
    | none =>
      obtain ⟨l1, h1, h2, h3⟩ :=
        debouncing_bystander dev s0 r1 r2 r3 t m _ rest hA rfl hreq hsend
      exact ⟨l1, h1, Or.inl h2, h3⟩
    | some x =>
      obtain ⟨t1, v⟩ := x
      have hx := requestOf_some (t, m) t1 v hreq
      simp only [Prod.mk.injEq] at hx
      obtain ⟨ht, hm⟩ := hx
      subst ht
      subst hm
      obtain ⟨l1, h1, h2, h3⟩ :=
        debouncing_request dev s0 r1 r2 r3 t v _ rest h12 h23 h31 hacc hA rfl hsend
      exact ⟨l1, h1, Or.inl h2, h3⟩
  rcases hinv with hA | hB
  · right
    cases hu : earliest snd with
    | none =>
      have hnil : snd = [] := (earliest_eq_none snd).mp hu
      cases ins with
      | nil => exact absurd hnil (hA.last rfl).1
      | cons x rest =>
        obtain ⟨t, m⟩ := x
        have hclk : clk ≤ t := hA.idleInputs (t, m) (List.mem_cons_self _ _)
        simp only [loopStep, hu]
        rw [max_eq_right hclk]
        exact hinput t m rest hA (fun u hmem => by rw [hnil] at hmem; simp at hmem)
    | some u =>
      obtain ⟨humem, hmin⟩ := earliest_spec snd u hu
      have hclku : clk ≤ u := hA.idleSends u humem
      cases ins with
      | nil =>
        simp only [loopStep, hu]
        rw [max_eq_right hclku]
        exact debouncing_send dev s0 r1 r2 r3 u _ h31 hacc hA hu
          (fun x hx => by simp at hx)
      | cons x rest =>
        obtain ⟨t, m⟩ := x
        have hclk : clk ≤ t := hA.idleInputs (t, m) (List.mem_cons_self _ _)
        have hsorted := hA.sorted
        simp only [List.pairwise_cons] at hsorted
        simp only [loopStep, hu]
        by_cases hc : t ≤ max clk (min t u) ∧ (u ≤ max clk (min t u) → b = true)
        · rw [if_pos hc]
          have hw : max clk (min t u) = t := by omega
          rw [hw]
          exact hinput t m rest hA (fun x hx => le_trans (by omega) (hmin x hx))
        · rw [if_neg hc]
          have hw : max clk (min t u) = u := by
            by_cases htu : t ≤ u
            · have hb : ¬ (u ≤ max clk (min t u) → b = true) := fun h => hc ⟨by omega, h⟩
              have hle : u ≤ max clk (min t u) := by
                by_contra hn
                exact hb (fun h => absurd h hn)
              omega
            · omega
          rw [hw]
          refine debouncing_send dev s0 r1 r2 r3 u _ h31 hacc hA hu ?_
          intro x hx
          have hut : u ≤ t := by omega
          rcases List.mem_cons.mp hx with hx | hx
          · rw [hx]
            exact hut
          · exact le_trans hut (hsorted.1 x hx)
  · have hs : second = 1000000000 := rfl
    have hms20 : 20 * millisecond = 20000000 := rfl
    cases hu : earliest snd with
    | none =>
      have hnil : snd = [] := (earliest_eq_none snd).mp hu
      cases ins with
      | nil =>
        left
        exact ⟨rfl, hnil, hB.written, by simp only [loopStep, hu]⟩
      | cons x rest =>
        right
        obtain ⟨t, m⟩ := x
        simp only [loopStep, hu]
        obtain ⟨l1, h1, h2, h3⟩ :=
          settled_bystander dev r3 (max clk t) t m _ rest hB rfl (le_max_left _ _)
            (fun hne => absurd hnil hne)
        exact ⟨l1, h1, Or.inr h2, h3⟩
    | some u =>
      right
      obtain ⟨humem, _⟩ := earliest_spec snd u hu
      have hne : snd ≠ [] := List.ne_nil_of_mem humem
      have hclk : clk < r3 + 6 * second + 20 * millisecond := hB.clockHigh hne
      have hu6 : u < r3 + 6 * second := hB.times u humem
      cases ins with
      | nil =>
        simp only [loopStep, hu]
        obtain ⟨l1, h1, h2, h3⟩ :=
          settled_send dev r3 (max clk u) u _ hB hu (le_max_left _ _)
            (by rw [hs, hms20] at hclk ⊢; rw [hs] at hu6; omega)
        exact ⟨l1, h1, Or.inr h2, h3⟩
      | cons x rest =>
        obtain ⟨t, m⟩ := x
        have hwake : max clk (min t u) < r3 + 6 * second + 20 * millisecond := by
          rw [hs, hms20] at hclk ⊢
          rw [hs] at hu6
          omega
        simp only [loopStep, hu]
        by_cases hc : t ≤ max clk (min t u) ∧ (u ≤ max clk (min t u) → b = true)
        · rw [if_pos hc]
          obtain ⟨l1, h1, h2, h3⟩ :=
            settled_bystander dev r3 (max clk (min t u)) t m _ rest hB rfl (le_max_left _ _)
              (fun _ => hwake)
          exact ⟨l1, h1, Or.inr h2, h3⟩
        · rw [if_neg hc]
          obtain ⟨l1, h1, h2, h3⟩ :=
            settled_send dev r3 (max clk (min t u)) u _ hB hu (le_max_left _ _) hwake
          exact ⟨l1, h1, Or.inr h2, h3⟩

/-- With as many iterations as the bound allows, the debounce scenario ends with
nothing pending and exactly one write, of 7. -/
theorem runLoop_settles (dev : Vallox) (s0 : State) (r1 r2 r3 : Int) (h12 : r1 ≤ r2)
    (h23 : r2 ≤ r3) (h31 : r3 ≤ r1 + second)
    (hacc : ¬ (s0.currentSpeed = 7 ∧ r3 - s0.currentSpeedUpdated < 10 * second)) :
    ∀ (picks : List Bool) (l : Loop),
      (Debouncing dev s0 r1 r2 r3 l ∨ Settled dev r3 l) →
      fuelLeft r3 l ≤ picks.length →
      (runLoop dev picks l).inputs = [] ∧ (runLoop dev picks l).sends = [] ∧
        writes (runLoop dev picks l).log = [7] := by
  intro picks
  induction picks with
  | nil =>
    intro l hinv hfuel
    rcases loopStep_progress dev s0 r1 r2 r3 true l h12 h23 h31 hacc hinv with
      ⟨h1, h2, h3, _⟩ | ⟨l1, _, _, hlt⟩
    · exact ⟨h1, h2, h3⟩
    · simp only [List.length_nil] at hfuel
      omega
  | cons b bs ih =>
    intro l hinv hfuel
    rcases loopStep_progress dev s0 r1 r2 r3 b l h12 h23 h31 hacc hinv with
      ⟨h1, h2, h3, hnone⟩ | ⟨l1, hstep, hinv1, hlt⟩
    · simp only [runLoop, hnone]
      exact ⟨h1, h2, h3⟩
    · simp only [runLoop, hstep]
      apply ih l1 hinv1
      simp only [List.length_cons] at hfuel
      omega

/-- The initial loop of the debounce scenario is in the debounce phase. -/
theorem debouncing_init (dev : Vallox) (s0 : State) (r1 r2 r3 t0 : Int)
    (inputs : List (Int × Msg))
    (hreq : inputs.filterMap requestOf = [(r1, 5), (r2, 6), (r3, 7)])
    (hadm : ∀ x ∈ inputs, admissible dev x.2 = true)
    (hsorted : inputs.Pairwise (fun a b => a.1 ≤ b.1))
    (hidle : ∀ x ∈ inputs, t0 ≤ x.1) :
    Debouncing dev s0 r1 r2 r3
      { state := s0, inputs := inputs, sends := [], clock := t0, log := [] } :=
  ⟨rfl, rfl, rfl, Or.inl hreq, hadm, hsorted, hidle, fun u hu => by simp at hu,
    fun u hu => by simp at hu, by show 0 + (inputs.filterMap requestOf).length ≤ 3; rw [hreq]; simp,
    fun h => absurd rfl h,
    fun h => by
      have h1 : inputs.filterMap requestOf = [] := h
      rw [hreq] at h1
      simp at h1⟩

/-- Requests that arrive in order are received in order of their instants. -/
theorem requests_sorted (inputs : List (Int × Msg))
    (hsorted : inputs.Pairwise (fun a b => a.1 ≤ b.1)) :
    (inputs.filterMap requestOf).Pairwise (fun a b => a.1 ≤ b.1) := by
  refine List.Pairwise.filterMap requestOf ?_ hsorted
  intro a a1 hle b hb b1 hb1
  have ha := requestOf_some a b.1 b.2 (by simpa using hb)
  have ha1 := requestOf_some a1 b1.1 b1.2 (by simpa using hb1)
  rw [ha, ha1] at hle
  exact hle

/-! ## Debounce coalescing -/

/-- Counterexample to C4: speed 7 was confirmed at instant 0 and the requests 5, 6, 7
arrive at 3.0 s, 3.2 s and 3.4 s.  The request for 7 is dropped as already
satisfied, so the run ends, with nothing pending, after exactly one write, and
that write carries 6, not 7. -/
theorem debounce_counterexample :
    (3 * second ≤ 3 * second + 200 * millisecond ∧
      3 * second + 200 * millisecond ≤ 3 * second + 400 * millisecond ∧
      3 * second + 400 * millisecond ≤ 3 * second + second) ∧
    (runLoop exDev (List.replicate 27 true)
      { state := exState 0 0 7 0,
        inputs := threeRequests (3 * second) (3 * second + 200 * millisecond)
          (3 * second + 400 * millisecond),
        sends := [], clock := 0, log := [] }).inputs = [] ∧
    (runLoop exDev (List.replicate 27 true)
      { state := exState 0 0 7 0,
        inputs := threeRequests (3 * second) (3 * second + 200 * millisecond)
          (3 * second + 400 * millisecond),
        sends := [], clock := 0, log := [] }).sends = [] ∧
    writes (runLoop exDev (List.replicate 27 true)
      { state := exState 0 0 7 0,
        inputs := threeRequests (3 * second) (3 * second + 200 * millisecond)
          (3 * second + 400 * millisecond),
        sends := [], clock := 0, log := [] }).log = [6] := by
  refine ⟨by decide, ?_, ?_, ?_⟩ <;> rfl

/-- C4 (amended): start the loop, idle since `t0`, in any state with no send attempt
in flight.  Let the inputs arrive in order, none before `t0`; among them are
exactly three requests, for 5, 6 and 7, at `r1`, `r2` and `r3 ≤ r1 + 1 s` (the
loop processes each as it arrives), the others are status messages and events
that are not current-speed telemetry, in any number and at any instants.  If the
request for 7 is not dropped as already satisfied (the confirmed speed is not 7,
or its confirmation is at least 10 s old when the request is processed), then,
whichever message the `select` takes on ties, once the loop has run long enough
no handler has blocked or panicked, nothing is pending, and the loop has issued
exactly one device write, carrying 7. -/
theorem debounce_coalescing (dev : Vallox) (s : State) (r1 r2 r3 t0 : Int)
    (inputs : List (Int × Msg)) (picks : List Bool)
    (hreq : inputs.filterMap requestOf = [(r1, 5), (r2, 6), (r3, 7)])
    (hadm : ∀ x ∈ inputs, admissible dev x.2 = true)
    (hsorted : inputs.Pairwise (fun a b => a.1 ≤ b.1))
    (hidle : ∀ x ∈ inputs, t0 ≤ x.1)
    (h31 : r3 ≤ r1 + second)
    (hacc : ¬ (s.currentSpeed = 7 ∧ r3 - s.currentSpeedUpdated < 10 * second))
    (hfuel : inputs.length + 24 ≤ picks.length) :
    (runLoop dev picks
      { state := s, inputs := inputs, sends := [], clock := t0, log := [] }).inputs = [] ∧
    (runLoop dev picks
      { state := s, inputs := inputs, sends := [], clock := t0, log := [] }).sends = [] ∧
    writes (runLoop dev picks
      { state := s, inputs := inputs, sends := [], clock := t0, log := [] }).log = [7] := by
  have hord := requests_sorted inputs hsorted
  rw [hreq] at hord
  simp only [List.pairwise_cons, List.mem_cons, List.mem_singleton, forall_eq_or_imp,
    forall_eq] at hord
  have h12 : r1 ≤ r2 := hord.1.1
  have h23 : r2 ≤ r3 := hord.2.1.1
  refine runLoop_settles dev s r1 r2 r3 h12 h23 h31 hacc picks _
    (Or.inl (debouncing_init dev s r1 r2 r3 t0 inputs hreq hadm hsorted hidle)) ?_
  show 8 * (inputs.filterMap requestOf).length + inputs.length + 0 ≤ picks.length
  rw [hreq]
  simp only [List.length_cons, List.length_nil]
  omega

/-- Witness of C4 (amended): confirmed speed 3, requests at 3.0 s, 3.2 s and 3.4 s
among an event of another register and a status message. -/
theorem debounce_coalescing_witness :
    (runLoop exDev (List.replicate 29 true)
      { state := exState 0 0 3 0, inputs := exBusyInputs, sends := [], clock := 0,
        log := [] }).inputs = [] ∧
    (runLoop exDev (List.replicate 29 true)
      { state := exState 0 0 3 0, inputs := exBusyInputs, sends := [], clock := 0,
        log := [] }).sends = [] ∧
    writes (runLoop exDev (List.replicate 29 true)
      { state := exState 0 0 3 0, inputs := exBusyInputs, sends := [], clock := 0,
        log := [] }).log = [7] :=
  debounce_coalescing exDev (exState 0 0 3 0) (3 * second) (3 * second + 200 * millisecond)
    (3 * second + 400 * millisecond) 0 exBusyInputs (List.replicate 29 true) (by rfl)
    (by decide) (by decide) (by decide) (by decide) (by decide) (by decide)

/-! ## The requested speed over a run -/

/-- Counterexample to C6: from the initial state a fan speed event with decoded
speed 3 arrives at 100 s and a request for 3 at 103 s.  The request is the most
recent one, it is dropped as already satisfied, and the requested speed stays 0. -/
theorem updateSpeed_counterexample :
    ¬ ∀ (dev : Vallox) (s s1 : State) (ms : List (Int × Msg)) (effs : List Effect) (v : Nat),
      runLog dev s ms = some (s1, effs) → lastRequest ms = some v → s1.updateSpeed = v := by
  intro h
  have hrun : runLog exDev (exState 0 0 0 0)
      [(100 * second, Msg.event exSpeedEvent), (103 * second, Msg.request 3)] =
      some ({ cache := Function.update (fun _ => none) 0x29
                (some { time := 100 * second, value := exSpeedEvent }),
              updateSpeed := 0, updateSpeedRequested := 0, currentSpeed := 3,
              currentSpeedUpdated := 100 * second },
            [Effect.publishValue exSpeedEvent]) := by
    rfl
  have h3 := h exDev (exState 0 0 0 0) _
    [(100 * second, Msg.event exSpeedEvent), (103 * second, Msg.request 3)] _ 3 hrun rfl
  exact absurd h3 (by decide)

/-- C6 (amended): in every state reached by the loop, once a request has been
accepted (not dropped as already satisfied, so that its value was sent on
`speedUpdateSend`), the requested speed is the value of the most recently
accepted request. -/
theorem updateSpeed_last_accepted (dev : Vallox) (s s1 : State) (ms : List (Int × Msg))
    (effs : List Effect) (v : Nat) (hrun : runLog dev s ms = some (s1, effs))
    (hlast : lastSendNow effs = some v) : s1.updateSpeed = v := by
  have h := runLog_updateSpeed dev ms s s1 effs hrun
  rw [hlast] at h
  simpa using h

/-- Witness of C6 (amended): a request for 5 at 1 s, then the event and the dropped
request of the counterexample: the requested speed is 5. -/
theorem updateSpeed_last_accepted_witness :
    ∃ s1 effs, runLog exDev (exState 0 0 0 0)
        [(1 * second, Msg.request 5), (100 * second, Msg.event exSpeedEvent),
         (103 * second, Msg.request 3)] = some (s1, effs) ∧
      lastSendNow effs = some 5 ∧ s1.updateSpeed = 5 :=
  ⟨{ cache := Function.update (fun _ => none) 0x29
        (some { time := 100 * second, value := exSpeedEvent }),
     updateSpeed := 5, updateSpeedRequested := 1 * second, currentSpeed := 3,
     currentSpeedUpdated := 100 * second },
   [Effect.sendNow 5, Effect.publishValue exSpeedEvent], by rfl, by rfl,
   updateSpeed_last_accepted exDev (exState 0 0 0 0) _
     [(1 * second, Msg.request 5), (100 * second, Msg.event exSpeedEvent),
      (103 * second, Msg.request 3)]
     [Effect.sendNow 5, Effect.publishValue exSpeedEvent] 5 (by rfl) (by rfl)⟩

/-! ## The command intake -/

/-- C8, failing input: the payloads `200` and `0xc8` are the decimal and the
hexadecimal numeral of 200, which is at most 255, and neither enqueues a request:
`ParseInt` with bit size 8 parses a signed byte and reports a range error from 128
on.  The conversion `byte(spd)` that follows shows that an unsigned byte is meant:
the payloads `-56` and `-0x38` enqueue the request 200. -/
theorem changeSpeedMessage_upper_half :
    Nat.toDigits 10 200 = ['2', '0', '0'] ∧ Nat.toDigits 16 200 = ['c', '8'] ∧
    changeSpeedMessage ['2', '0', '0'] = [] ∧
    changeSpeedMessage ['0', 'x', 'c', '8'] = [] ∧
    ParseInt (['2', '0', '0'].map ch) 0 8 = (127, some NumError.ErrRange) ∧
    changeSpeedMessage ['-', '5', '6'] = [200] ∧
    changeSpeedMessage ['-', '0', 'x', '3', '8'] = [200] ∧
    changeSpeedMessage ['1', '2', '7'] = [127] ∧
    changeSpeedMessage ['1', '2', '8'] = [] := by
  decide

/-- A decimal numeral with a leading zero is read in base 8, as base 0 prescribes:
`010` enqueues the request 8, and `08` enqueues nothing. -/
theorem changeSpeedMessage_leading_zero :
    changeSpeedMessage ['0', '1', '0'] = [8] ∧ changeSpeedMessage ['0', '8'] = [] := by
  decide

/-- On a hexadecimal digit the digit switch of `ParseUint` yields its value. -/
theorem hexDigit_spec (k d : Nat) (h : hexDigit k = some d) :
    k ≠ ch '_' ∧ d < 16 ∧
    (if ch '0' ≤ k ∧ k ≤ ch '9' then some (k - ch '0')
      else if ch 'a' ≤ lower k ∧ lower k ≤ ch 'z' then some (lower k - ch 'a' + 10)
      else none) = some d := by
  have h0 : ch '0' = 48 := rfl
  have h9 : ch '9' = 57 := rfl
  have ha : ch 'a' = 97 := rfl
  have hf : ch 'f' = 102 := rfl
  have hA : ch 'A' = 65 := rfl
  have hF : ch 'F' = 70 := rfl
  have hz : ch 'z' = 122 := rfl
  have hu : ch '_' = 95 := rfl
  simp only [hexDigit, h0, h9, ha, hf, hA, hF] at h
  simp only [h0, h9, ha, hz, hu]
  by_cases c1 : 48 ≤ k ∧ k ≤ 57
  · rw [if_pos c1] at h
    simp only [Option.some.injEq] at h
    rw [if_pos c1]
    exact ⟨by omega, by omega, by rw [h]⟩
  · rw [if_neg c1] at h
    rw [if_neg c1]
    by_cases c2 : 97 ≤ k ∧ k ≤ 102
    · rw [if_pos c2] at h
      simp only [Option.some.injEq] at h
      obtain ⟨c2a, c2b⟩ := c2
      subst h
      interval_cases k <;> decide
    · rw [if_neg c2] at h
      by_cases c3 : 65 ≤ k ∧ k ≤ 70
      · rw [if_pos c3] at h
        simp only [Option.some.injEq] at h
        obtain ⟨c3a, c3b⟩ := c3
        subst h
        interval_cases k <;> decide
      · rw [if_neg c3] at h
        simp at h

/-- The digit loop of `ParseUint` in base 16 computes the value of a string of
hexadecimal digits, as long as it fits 8 bits. -/
theorem parseDigits_hex (ds : List Char) :
    ∀ (acc n : Nat), hexValue ds acc = some n → n ≤ 255 →
      parseDigits true 16 ((2 ^ 64 - 1) / 16 + 1) (2 ^ 8 - 1) (ds.map ch) acc false =
        (n, none, false) := by
  induction ds with
  | nil =>
    intro acc n h _
    simp only [hexValue, Option.some.injEq] at h
    simp [parseDigits, h]
  | cons c cs ih =>
    intro acc n h hn
    simp only [hexValue] at h
    cases hd : hexDigit (ch c) with
    | none => simp [hd] at h
    | some d =>
      rw [hd] at h
      simp only at h
      obtain ⟨hne, hd16, hexpr⟩ := hexDigit_spec (ch c) d hd
      have hmono : ∀ (l : List Char) (a m : Nat), hexValue l a = some m → a ≤ m := by
        intro l
        induction l with
        | nil =>
          intro a m hm
          simp only [hexValue, Option.some.injEq] at hm
          omega
        | cons x xs ihx =>
          intro a m hm
          simp only [hexValue] at hm
          cases hx : hexDigit (ch x) with
          | none => simp [hx] at hm
          | some e =>
            rw [hx] at hm
            have := ihx (a * 16 + e) m hm
            omega
      have hle := hmono cs (acc * 16 + d) n h
      have hrec := ih (acc * 16 + d) n h hn
      simp only [List.map_cons, parseDigits]
      rw [if_neg (fun hc => hne hc.1)]
      simp only [hexpr]
      rw [if_neg (by omega), if_neg (by omega)]
      have hmod : (acc * 16 + d) % 2 ^ 64 = acc * 16 + d := Nat.mod_eq_of_lt (by omega)
      simp only [hmod]
      rw [if_neg (by omega)]
      exact hrec

/-- A marked hexadecimal numeral of a number up to 127 enqueues that number. -/
theorem changeSpeedMessage_hex (ds : List Char) (n : Nat) (x : Char)
    (hx : x = 'x' ∨ x = 'X') (hne : ds ≠ []) (hval : hexValue ds 0 = some n)
    (hn : n ≤ 127) : changeSpeedMessage ('0' :: x :: ds) = [n] := by
  have hp := parseDigits_hex ds 0 n hval (by omega)
  cases ds with
  | nil => exact absurd rfl hne
  | cons c cs =>
    have hp2 : parseDigits true 16 1152921504606846976 255 (c.toNat :: List.map ch cs) 0
        false = (n, none, false) := hp
    have hu : ParseUint (('0' :: x :: c :: cs).map ch) 0 8 = (n, none) := by
      rcases hx with hx | hx <;> subst hx
      · simp only [ParseUint, List.map_cons]
        simp [ch, lower, hp2]
      · simp only [ParseUint, List.map_cons]
        simp [ch, lower, hp2]
    have hi : ParseInt (('0' :: x :: c :: cs).map ch) 0 8 = ((n : Int), none) := by
      have hs : (('0' :: x :: c :: cs).map ch) = ch '0' :: (x :: c :: cs).map ch := rfl
      rw [hs] at hu ⊢
      simp only [ParseInt]
      have h1 : ¬ ch '0' = ch '+' := by decide
      have h2 : ¬ ch '0' = ch '-' := by decide
      simp only [h1, h2, if_false, hu]
      simp
      omega
    simp only [changeSpeedMessage, hi]
    have h4 : ((n : Int) % 256).toNat = n := by omega
    rw [h4]

/-- Below 128 the command intake does what it is meant to: for every `n` from 0 to
127, the decimal numeral of `n` without leading zeros and every hexadecimal numeral
of `n` (a non-empty string of hexadecimal digits of either case denoting `n`,
after the marker `0x` or `0X`) enqueue exactly one speed request, with value `n`. -/
theorem changeSpeedMessage_numeral (n : Nat) (hn : n ≤ 127) :
    changeSpeedMessage (Nat.toDigits 10 n) = [n] ∧
    ∀ (ds : List Char), ds ≠ [] → hexValue ds 0 = some n →
      changeSpeedMessage ('0' :: 'x' :: ds) = [n] ∧
      changeSpeedMessage ('0' :: 'X' :: ds) = [n] := by
  have hall : ∀ k < 128, changeSpeedMessage (Nat.toDigits 10 k) = [k] := by
    decide
  refine ⟨hall n (by omega), ?_⟩
  intro ds hne hval
  exact ⟨changeSpeedMessage_hex ds n 'x' (Or.inl rfl) hne hval hn,
    changeSpeedMessage_hex ds n 'X' (Or.inr rfl) hne hval hn⟩

/-- Example: 127 as `127`, `0x7f` and `0X7f`. -/
theorem changeSpeedMessage_numeral_example :
    changeSpeedMessage ['1', '2', '7'] = [127] ∧
    changeSpeedMessage ['0', 'x', '7', 'f'] = [127] ∧
    changeSpeedMessage ['0', 'X', '7', 'f'] = [127] :=
  ⟨(changeSpeedMessage_numeral 127 (by decide)).1,
   (changeSpeedMessage_numeral 127 (by decide)).2 ['7', 'f'] (by decide) (by decide)⟩

/-! ## Deferred send attempts and the re-poll check -/

/-- C11: while the request is younger than 5 s, `sendSpeed` changes nothing (the
cache and the four speed fields are as before), issues no device write and no
query, and starts exactly one goroutine that sends on `speedUpdateSend` after
1000 ms: the next send attempt is available at `now + 1 s`. -/
theorem sendSpeed_debounced (dev : Vallox) (now : Int) (s : State)
    (hyoung : now - s.updateSpeedRequested < 5 * second) :
    sendSpeed dev now s = (s, [Effect.sendAfter (1000 * millisecond)]) ∧
    writes (sendSpeed dev now s).2 = [] ∧
    (∀ r, Effect.Query r ∉ (sendSpeed dev now s).2) ∧
    scheduled now (sendSpeed dev now s).2 = [now + second] := by
  have h : sendSpeed dev now s = (s, [Effect.sendAfter (1000 * millisecond)]) := by
    unfold sendSpeed
    rw [if_pos hyoung]
  rw [h]
  refine ⟨rfl, rfl, ?_, rfl⟩
  intro r hr
  simp at hr

/-- Witness of C11: a request made at 6 s, send attempt at 8 s. -/
theorem sendSpeed_debounced_witness :
    sendSpeed exDev (8 * second) (exState 4 (6 * second) 3 0) =
      (exState 4 (6 * second) 3 0, [Effect.sendAfter (1000 * millisecond)]) ∧
    writes (sendSpeed exDev (8 * second) (exState 4 (6 * second) 3 0)).2 = [] ∧
    (∀ r, Effect.Query r ∉ (sendSpeed exDev (8 * second) (exState 4 (6 * second) 3 0)).2) ∧
    scheduled (8 * second) (sendSpeed exDev (8 * second) (exState 4 (6 * second) 3 0)).2 =
      [8 * second + second] :=
  sendSpeed_debounced exDev (8 * second) (exState 4 (6 * second) 3 0) (by decide)

/-- C13: `resendOldValues` issues a query of the fan speed register if and only if
the cache holds an entry for that register observed more than 15 minutes before
`now`; it issues nothing else, in particular no publication, and it only reads the
cache: its caller `handleValloxEvent` returns the state it was given. -/
theorem resendOldValues_iff (dev : Vallox) (now : Int) (cache : Nat → Option cacheEntry) :
    ((∃ cached, cache dev.RegisterCurrentFanSpeed = some cached ∧
        now - cached.time > 15 * minute) →
      resendOldValues dev now cache = [Effect.Query dev.RegisterCurrentFanSpeed]) ∧
    ((¬ ∃ cached, cache dev.RegisterCurrentFanSpeed = some cached ∧
        now - cached.time > 15 * minute) →
      resendOldValues dev now cache = []) ∧
    (∀ p, Effect.publishValue p ∉ resendOldValues dev now cache) ∧
    (∀ (e : Event) (s : State), dev.ForMe e = true →
      (∃ val, s.cache e.Register = some val ∧ val.value.RawValue = e.RawValue ∧
        now - val.time < 15 * minute) →
      handleValloxEvent dev now e s = some (s, resendOldValues dev now s.cache)) := by
  have hm : minute = 60000000000 := rfl
  refine ⟨?_, ?_, resendOldValues_no_publish dev now cache, ?_⟩
  · rintro ⟨cached, hc, hold⟩
    have hlt : cached.time < now + (-15) * minute := by
      rw [hm] at hold ⊢
      omega
    simp only [resendOldValues, hc, if_pos hlt]
  · intro hno
    unfold resendOldValues
    cases hc : cache dev.RegisterCurrentFanSpeed with
    | none => rfl
    | some cached =>
      have hnlt : ¬ cached.time < now + (-15) * minute := by
        intro hlt
        apply hno
        refine ⟨cached, hc, ?_⟩
        rw [hm] at hlt ⊢
        omega
      simp only [if_neg hnlt]
  · intro e s hme hdup
    exact handleValloxEvent_of_duplicate dev now e s hme hdup

/-- A duplicate event only runs the re-poll check, at the later reading of the
clock. -/
theorem handleValloxEventAt_of_duplicate (dev : Vallox) (now later : Int) (e : Event)
    (s : State) (hme : dev.ForMe e = true)
    (hdup : ∃ val, s.cache e.Register = some val ∧ val.value.RawValue = e.RawValue ∧
      now - val.time < 15 * minute) :
    handleValloxEventAt dev now later e s = some (s, resendOldValues dev later s.cache) := by
  have hk := (known_iff s now e).mpr hdup
  simp only [handleValloxEventAt, hme, Bool.not_true, Bool.false_eq_true, if_false]
  rw [if_pos hk]

/-- An event that is not a duplicate issues no query. -/
theorem handleValloxEventAt_new_no_query (dev : Vallox) (now later : Int) (e : Event)
    (s s1 : State) (effs : List Effect)
    (hnew : ¬ ∃ val, s.cache e.Register = some val ∧ val.value.RawValue = e.RawValue ∧
      now - val.time < 15 * minute)
    (h : handleValloxEventAt dev now later e s = some (s1, effs)) (r : Nat) :
    Effect.Query r ∉ effs := by
  have hk : ¬ _ := fun hk => hnew ((known_iff s now e).mp hk)
  by_cases hme : dev.ForMe e = true
  · simp only [handleValloxEventAt, hme, Bool.not_true, Bool.false_eq_true, if_false] at h
    rw [if_neg hk] at h
    by_cases hreg : e.Register = dev.RegisterCurrentFanSpeed
    · rw [if_pos hreg] at h
      cases hv : e.Value with
      | int16 v =>
        simp only [hv, Option.some.injEq, Prod.mk.injEq] at h
        rw [← h.2]
        simp
      | other shown => simp [hv] at h
    · rw [if_neg hreg] at h
      simp only [Option.some.injEq, Prod.mk.injEq] at h
      rw [← h.2]
      simp
  · have hf : dev.ForMe e = false := by simpa using hme
    simp only [handleValloxEventAt, hf, Bool.not_false, if_true, Option.some.injEq,
      Prod.mk.injEq] at h
    rw [← h.2]
    simp

/-- Counterexample to C17.  The fan speed entry was cached at instant 0.  A repeated
fan speed event whose duplicate test reads the clock 1 ns before the entry turns 15
minutes old, and whose re-poll check reads it 2 ns later, is classified as a
duplicate and does issue the query.  And a query of the fan speed register is also
issued with no event at all: `sendSpeed` issues it after its write. -/
theorem handleValloxEvent_query_counterexample :
    exSpeedEvent.Register = exDev.RegisterCurrentFanSpeed ∧
    exCachedState.cache exSpeedEvent.Register = some { time := 0, value := exSpeedEvent } ∧
    (15 * minute - 1) - 0 < 15 * minute ∧
    handleValloxEventAt exDev (15 * minute - 1) (15 * minute + 1) exSpeedEvent exCachedState =
      some (exCachedState, [Effect.Query exDev.RegisterCurrentFanSpeed]) ∧
    Effect.Query exDev.RegisterCurrentFanSpeed ∈
      (sendSpeed exDev (20 * second) (exState 7 0 3 0)).2 := by
  refine ⟨rfl, rfl, by decide, by rfl, ?_⟩
  have h : (sendSpeed exDev (20 * second) (exState 7 0 3 0)).2 =
      [Effect.SetSpeed 7, Effect.Sleep (20 * millisecond), Effect.Query 0x29] := by rfl
  rw [h]
  simp [exDev]

/-- C17 (amended): the duplicate test reads the clock at `now`, the re-poll check at
`later`.  When `handleValloxEvent` classifies an event for the fan speed register
itself as a duplicate and the matching entry is still no more than 15 minutes old
at `later`, the re-poll check issues no query; in particular it issues none when
both readings show the same instant.  And whenever `handleValloxEvent` issues a
query of the fan speed register, the event handled is a duplicate, the state is
unchanged, the query is the only command, and the fan speed entry is more than 15
minutes old at `later`: the event is for some other register, or it is for the
fan speed register and its entry has turned 15 minutes old between the two
readings. -/
theorem handleValloxEventAt_query (dev : Vallox) (now later : Int) (e : Event) (s : State) :
    (dev.ForMe e = true → e.Register = dev.RegisterCurrentFanSpeed →
      ∀ val, s.cache e.Register = some val → val.value.RawValue = e.RawValue →
        now - val.time < 15 * minute → later - val.time ≤ 15 * minute →
        handleValloxEventAt dev now later e s = some (s, [])) ∧
    (dev.ForMe e = true → e.Register = dev.RegisterCurrentFanSpeed →
      (∃ val, s.cache e.Register = some val ∧ val.value.RawValue = e.RawValue ∧
        now - val.time < 15 * minute) →
      handleValloxEvent dev now e s = some (s, [])) ∧
    (∀ (s1 : State) (effs : List Effect),
      handleValloxEventAt dev now later e s = some (s1, effs) →
      Effect.Query dev.RegisterCurrentFanSpeed ∈ effs →
      s1 = s ∧ effs = [Effect.Query dev.RegisterCurrentFanSpeed] ∧ dev.ForMe e = true ∧
      (∃ val, s.cache e.Register = some val ∧ val.value.RawValue = e.RawValue ∧
        now - val.time < 15 * minute) ∧
      (∃ cached, s.cache dev.RegisterCurrentFanSpeed = some cached ∧
        later - cached.time > 15 * minute) ∧
      (e.Register ≠ dev.RegisterCurrentFanSpeed ∨
        ∃ val, s.cache e.Register = some val ∧ now - val.time < 15 * minute ∧
          15 * minute < later - val.time)) := by
  have hm : minute = 60000000000 := rfl
  have hfresh : ∀ (t : Int), e.Register = dev.RegisterCurrentFanSpeed →
      ∀ val, s.cache e.Register = some val → t - val.time ≤ 15 * minute →
      resendOldValues dev t s.cache = [] := by
    intro t hreg val hc hle
    rw [hreg] at hc
    have hnlt : ¬ val.time < t + (-15) * minute := by
      rw [hm] at hle ⊢
      omega
    simp only [resendOldValues, hc, if_neg hnlt]
  refine ⟨?_, ?_, ?_⟩
  · intro hme hreg val hc hraw hlt hle
    rw [handleValloxEventAt_of_duplicate dev now later e s hme ⟨val, hc, hraw, hlt⟩,
      hfresh later hreg val hc hle]
  · rintro hme hreg ⟨val, hc, hraw, hlt⟩
    rw [handleValloxEvent_of_duplicate dev now e s hme ⟨val, hc, hraw, hlt⟩,
      hfresh now hreg val hc (le_of_lt hlt)]
  · intro s1 effs h hq
    by_cases hdup : ∃ val, s.cache e.Register = some val ∧
        val.value.RawValue = e.RawValue ∧ now - val.time < 15 * minute
    · by_cases hme : dev.ForMe e = true
      · rw [handleValloxEventAt_of_duplicate dev now later e s hme hdup] at h
        simp only [Option.some.injEq, Prod.mk.injEq] at h
        obtain ⟨hs1, heffs⟩ := h
        rw [← heffs] at hq
        have heq : effs = [Effect.Query dev.RegisterCurrentFanSpeed] := by
          rcases resendOldValues_cases dev later s.cache with h0 | h1
          · rw [h0] at hq
            simp at hq
          · rw [← heffs, h1]
        have hold : ∃ cached, s.cache dev.RegisterCurrentFanSpeed = some cached ∧
            later - cached.time > 15 * minute := by
          unfold resendOldValues at hq
          cases hc : s.cache dev.RegisterCurrentFanSpeed with
          | none => simp [hc] at hq
          | some cached =>
            by_cases hlt : cached.time < later + (-15) * minute
            · refine ⟨cached, rfl, ?_⟩
              rw [hm] at hlt ⊢
              omega
            · rw [hc] at hq
              simp only [if_neg hlt] at hq
              exact absurd hq (List.not_mem_nil _)
        refine ⟨hs1.symm, heq, hme, hdup, hold, ?_⟩
        by_cases hreg : e.Register = dev.RegisterCurrentFanSpeed
        · right
          obtain ⟨val, hc, _, hlt⟩ := hdup
          obtain ⟨cached, hc2, hgt⟩ := hold
          rw [← hreg, hc] at hc2
          simp only [Option.some.injEq] at hc2
          rw [← hc2] at hgt
          exact ⟨val, hc, hlt, hgt⟩
        · exact Or.inl hreg
      · have hf : dev.ForMe e = false := by simpa using hme
        simp only [handleValloxEventAt, hf, Bool.not_false, if_true, Option.some.injEq,
          Prod.mk.injEq] at h
        rw [← h.2] at hq
        simp at hq
    · exact absurd hq (handleValloxEventAt_new_no_query dev now later e s s1 effs hdup h _)

/-- Witness of C17 (amended): the fan speed entry is 16 minutes old at both readings
of the clock; the repeated event of register `0x2a` is a duplicate and triggers the
query. -/
theorem handleValloxEventAt_query_witness :
    handleValloxEventAt exDev (16 * minute) (16 * minute) exOtherEvent exStaleState =
      some (exStaleState, [Effect.Query 0x29]) ∧
    exDev.ForMe exOtherEvent = true ∧
    (∃ val, exStaleState.cache exOtherEvent.Register = some val ∧
      val.value.RawValue = exOtherEvent.RawValue ∧ 16 * minute - val.time < 15 * minute) ∧
    (∃ cached, exStaleState.cache exDev.RegisterCurrentFanSpeed = some cached ∧
      16 * minute - cached.time > 15 * minute) ∧
    (exOtherEvent.Register ≠ exDev.RegisterCurrentFanSpeed ∨
      ∃ val, exStaleState.cache exOtherEvent.Register = some val ∧
        16 * minute - val.time < 15 * minute ∧ 15 * minute < 16 * minute - val.time) :=
  have h : handleValloxEventAt exDev (16 * minute) (16 * minute) exOtherEvent exStaleState =
      some (exStaleState, [Effect.Query 0x29]) := by rfl
  ⟨h, ((handleValloxEventAt_query exDev (16 * minute) (16 * minute) exOtherEvent
    exStaleState).2.2 exStaleState [Effect.Query 0x29] h (by simp [exDev])).2.2⟩

/-! ## Malformed commands -/

/-- Without a decimal digit the digit loop of `ParseUint` in base 10 either reports a
syntax error or has seen nothing but underscores. -/
theorem parseDigits_no_digit (cutoff maxVal : Nat) (cs : List Nat) :
    ∀ (n : Nat) (u : Bool), (∀ c ∈ cs, ¬ (ch '0' ≤ c ∧ c ≤ ch '9')) →
      (parseDigits true 10 cutoff maxVal cs n u).2.1 = some NumError.ErrSyntax ∨
      ((parseDigits true 10 cutoff maxVal cs n u).2.1 = none ∧
        ((parseDigits true 10 cutoff maxVal cs n u).2.2 = true ∨ cs = []) ∧
        ∀ c ∈ cs, c = ch '_') := by
  induction cs with
  | nil =>
    intro n u _
    right
    simp [parseDigits]
  | cons c cs ih =>
    intro n u hno
    have hc := hno c (List.mem_cons_self _ _)
    have hrest : ∀ x ∈ cs, ¬ (ch '0' ≤ x ∧ x ≤ ch '9') :=
      fun x hx => hno x (List.mem_cons_of_mem _ hx)
    by_cases hund : c = ch '_'
    · have hstep : parseDigits true 10 cutoff maxVal (c :: cs) n u =
          parseDigits true 10 cutoff maxVal cs n true := by
        simp [parseDigits, hund]
      rw [hstep]
      rcases ih n true hrest with h | ⟨h1, h2, h3⟩
      · exact Or.inl h
      · right
        refine ⟨h1, ?_, ?_⟩
        · left
          rcases h2 with h2 | h2
          · exact h2
          · rw [h2]
            simp [parseDigits]
        · intro x hx
          rcases List.mem_cons.mp hx with hx | hx
          · rw [hx]; exact hund
          · exact h3 x hx
    · left
      have ha : ch 'a' = 97 := rfl
      simp only [parseDigits]
      rw [if_neg (fun h => hund h.1), if_neg hc]
      by_cases hl : ch 'a' ≤ lower c ∧ lower c ≤ ch 'z'
      · rw [if_pos hl]
        have hge : lower c - ch 'a' + 10 ≥ 10 := by omega
        simp only [hge, if_true]
      · rw [if_neg hl]

/-- A string that starts with an underscore fails `underscoreOK`. -/
theorem underscoreOK_leading_underscore (cs : List Nat) :
    underscoreOK (ch '_' :: cs) = false := by
  cases cs with
  | nil => decide
  | cons c rest =>
    have h1 : ¬ (ch '_' = ch '-' ∨ ch '_' = ch '+') := by decide
    have h2 : ¬ (ch '_' = ch '0' ∧
        (lower c = ch 'b' ∨ lower c = ch 'o' ∨ lower c = ch 'x')) := by
      intro h
      exact absurd h.1 (by decide)
    have h3 : ¬ ((ch '0' ≤ ch '_' ∧ ch '_' ≤ ch '9') ∨
        (false = true ∧ ch 'a' ≤ lower (ch '_') ∧ lower (ch '_') ≤ ch 'f')) := by decide
    simp only [underscoreOK, if_neg h1, if_neg h2, underscoreLoop, if_neg h3, if_true]
    rw [if_pos (by decide : Saw.start ≠ Saw.digit)]

/-- Without a decimal digit `ParseUint` with base 0 reports a syntax error. -/
theorem ParseUint_no_digit (s : List Nat) (hno : ∀ c ∈ s, ¬ (ch '0' ≤ c ∧ c ≤ ch '9')) :
    (ParseUint s 0 8).2 = some NumError.ErrSyntax := by
  cases s with
  | nil => rfl
  | cons c0 rest =>
    have hc0 : ¬ c0 = ch '0' := by
      intro h
      exact hno c0 (List.mem_cons_self _ _) ⟨by rw [h], by rw [h]; decide⟩
    have hb : ¬ (2 ≤ 0 ∧ 0 ≤ 36) := by omega
    simp only [ParseUint, if_neg hb, if_true, if_neg hc0]
    rcases parseDigits_no_digit ((2 ^ 64 - 1) / 10 + 1) (2 ^ 8 - 1) (c0 :: rest) 0 false hno
      with h | ⟨h1, h2, h3⟩
    · revert h
      simp only [show (8 : Nat) > 64 ↔ False by decide, if_false, show ¬ (8 : Nat) = 0 by decide,
        decide_True]
      generalize parseDigits true 10 ((2 ^ 64 - 1) / 10 + 1) (2 ^ 8 - 1) (c0 :: rest) 0 false = r
      obtain ⟨n, err, u⟩ := r
      intro h
      simp only at h
      subst h
      rfl
    · have hund : c0 = ch '_' := h3 c0 (List.mem_cons_self _ _)
      have hu : (parseDigits true 10 ((2 ^ 64 - 1) / 10 + 1) (2 ^ 8 - 1) (c0 :: rest) 0
          false).2.2 = true := by
        rcases h2 with h2 | h2
        · exact h2
        · exact absurd h2 (List.cons_ne_nil _ _)
      have hok : underscoreOK (c0 :: rest) = false := by
        rw [hund]
        exact underscoreOK_leading_underscore rest
      revert h1 hu
      simp only [show (8 : Nat) > 64 ↔ False by decide, if_false, show ¬ (8 : Nat) = 0 by decide,
        decide_True]
      generalize parseDigits true 10 ((2 ^ 64 - 1) / 10 + 1) (2 ^ 8 - 1) (c0 :: rest) 0 false = r
      obtain ⟨n, err, u⟩ := r
      intro h1 hu
      simp only at h1 hu
      subst h1
      subst hu
      simp [hok]

/-- Without a decimal digit `ParseInt` with base 0 reports a syntax error. -/
theorem ParseInt_no_digit (s : List Nat) (hno : ∀ c ∈ s, ¬ (ch '0' ≤ c ∧ c ≤ ch '9')) :
    (ParseInt s 0 8).2 = some NumError.ErrSyntax := by
  cases s with
  | nil => rfl
  | cons c0 rest =>
    have hrest : ∀ c ∈ rest, ¬ (ch '0' ≤ c ∧ c ≤ ch '9') :=
      fun x hx => hno x (List.mem_cons_of_mem _ hx)
    have key : ∀ s1 : List Nat, (∀ c ∈ s1, ¬ (ch '0' ≤ c ∧ c ≤ ch '9')) →
        (match ParseUint s1 0 8 with
          | (un, err) =>
            if err ≠ none ∧ err ≠ some NumError.ErrRange then ((0 : Int), err)
            else
              let bits := if (8 : Nat) = 0 then 64 else 8
              let cutoff : Nat := 2 ^ (bits - 1)
              if decide (c0 = ch '-') = false ∧ un ≥ cutoff then
                ((cutoff : Int) - 1, some NumError.ErrRange)
              else if decide (c0 = ch '-') = true ∧ un > cutoff then
                (-(cutoff : Int), some NumError.ErrRange)
              else (if decide (c0 = ch '-') then -(un : Int) else (un : Int), none)).2 =
          some NumError.ErrSyntax := by
      intro s1 h1
      have hu := ParseUint_no_digit s1 h1
      generalize ParseUint s1 0 8 = r at hu
      obtain ⟨un, err⟩ := r
      simp only at hu
      subst hu
      simp
    simp only [ParseInt]
    by_cases hp : c0 = ch '+'
    · rw [if_pos hp]
      exact key rest hrest
    · rw [if_neg hp]
      by_cases hm : c0 = ch '-'
      · rw [if_pos hm]
        exact key rest hrest
      · rw [if_neg hm]
        exact key (c0 :: rest) hno

/-- C14: a payload that `ParseInt` rejects enqueues no speed request, and so does in
particular every payload without a decimal digit (non-numeric text); the function
is total, and with nothing enqueued the loop receives nothing from it: the state,
with the requested and the confirmed speed and their instants, is unchanged. -/
theorem changeSpeedMessage_malformed (body : List Char) :
    ((ParseInt (body.map ch) 0 8).2 ≠ none → changeSpeedMessage body = []) ∧
    ((∀ c ∈ body, ¬ (ch '0' ≤ ch c ∧ ch c ≤ ch '9')) →
      (ParseInt (body.map ch) 0 8).2 = some NumError.ErrSyntax ∧
      changeSpeedMessage body = [] ∧
      ∀ (dev : Vallox) (now : Int) (s : State),
        runLog dev s ((changeSpeedMessage body).map (fun v => (now, Msg.request v))) =
          some (s, [])) := by
  have herr : (ParseInt (body.map ch) 0 8).2 ≠ none → changeSpeedMessage body = [] := by
    intro h
    unfold changeSpeedMessage
    generalize ParseInt (body.map ch) 0 8 = r at h
    obtain ⟨spd, err⟩ := r
    cases err with
    | none => exact absurd rfl h
    | some e => rfl
  refine ⟨herr, ?_⟩
  intro hno
  have hsyn : (ParseInt (body.map ch) 0 8).2 = some NumError.ErrSyntax := by
    apply ParseInt_no_digit
    intro c hc
    obtain ⟨x, hx, rfl⟩ := List.mem_map.mp hc
    exact hno x hx
  have hnil : changeSpeedMessage body = [] := herr (by rw [hsyn]; simp)
  refine ⟨hsyn, hnil, ?_⟩
  intro dev now s
  rw [hnil]
  rfl

/-- Witness of C14: the payload `fast` enqueues nothing. -/
theorem changeSpeedMessage_malformed_witness :
    (ParseInt (['f', 'a', 's', 't'].map ch) 0 8).2 = some NumError.ErrSyntax ∧
    changeSpeedMessage ['f', 'a', 's', 't'] = [] ∧
    ∀ (dev : Vallox) (now : Int) (s : State),
      runLog dev s
          ((changeSpeedMessage ['f', 'a', 's', 't']).map (fun v => (now, Msg.request v))) =
        some (s, []) :=
  (changeSpeedMessage_malformed ['f', 'a', 's', 't']).2 (by decide)

/-! ## Publishing a value -/

/-- With distinct keys, looking up the key of an entry finds that entry. -/
theorem lookupKey_of_mem {α : Type} (K : String → Nat) (table : List (String × α))
    (hk : (table.map (fun p => K p.1)).Nodup) (k : String) (v : α) (hmem : (k, v) ∈ table) :
    lookupKey K table (K k) = some v := by
  induction table with
  | nil => simp at hmem
  | cons p ps ih =>
    simp only [List.map_cons, List.nodup_cons] at hk
    by_cases hp : K p.1 = K k
    · have hpk : p = (k, v) := by
        rcases List.mem_cons.mp hmem with h | h
        · exact h.symm
        · exfalso
          apply hk.1
          rw [hp]
          exact List.mem_map.mpr ⟨(k, v), h, rfl⟩
      simp [lookupKey, List.find?, hp, hpk]
    · have hin : (k, v) ∈ ps := by
        rcases List.mem_cons.mp hmem with h | h
        · rw [← h] at hp
          exact absurd rfl hp
        · exact h
      have := ih hk.2 hin
      simp only [lookupKey, List.find?, hp, decide_False] at this ⊢
      exact this

/-- A successful lookup returns the value of an entry with the given key. -/
theorem lookupKey_some {α : Type} (K : String → Nat) (table : List (String × α)) (key : Nat)
    (v : α) (h : lookupKey K table key = some v) : ∃ k, (k, v) ∈ table ∧ K k = key := by
  unfold lookupKey at h
  cases hf : table.find? (fun p => decide (K p.1 = key)) with
  | none => simp [hf] at h
  | some p =>
    rw [hf] at h
    simp only [Option.some.injEq] at h
    have h1 := List.mem_of_find?_eq_some hf
    have h2 := List.find?_some hf
    refine ⟨p.1, ?_, by simpa using h2⟩
    rw [← h]
    exact h1

/-- A lookup fails when no entry has the key. -/
theorem lookupKey_none {α : Type} (K : String → Nat) (table : List (String × α)) (key : Nat)
    (h : ∀ p ∈ table, K p.1 ≠ key) : lookupKey K table key = none := by
  unfold lookupKey
  have hf : table.find? (fun p => decide (K p.1 = key)) = none := by
    rw [List.find?_eq_none]
    intro x hx
    simpa using h x hx
  rw [hf]

/-- Among the flag messages of a register, exactly one is on the topic of a given
flag, when the topics of the register are distinct. -/
theorem filter_flag_topic (f : String × String → String) (l : List (String × String))
    (hnd : (l.map Prod.snd).Nodup) (a t : String) (h : (a, t) ∈ l) :
    (l.map (fun p => ({ topic := p.2, payload := f p } : Publication))).filter
        (fun m => decide (m.topic = t)) =
      [{ topic := t, payload := f (a, t) }] := by
  induction l with
  | nil => simp at h
  | cons p ps ih =>
    simp only [List.map_cons, List.nodup_cons] at hnd
    by_cases hp : p.2 = t
    · have hnot : ∀ q ∈ ps, q.2 ≠ t := by
        intro q hq hqt
        apply hnd.1
        rw [hp, ← hqt]
        exact List.mem_map.mpr ⟨q, hq, rfl⟩
      have hpa : p = (a, t) := by
        rcases List.mem_cons.mp h with h1 | h1
        · exact h1.symm
        · exact absurd rfl (hnot (a, t) h1)
      have hrest : (ps.map (fun p => ({ topic := p.2, payload := f p } : Publication))).filter
          (fun m => decide (m.topic = t)) = [] := by
        rw [List.filter_eq_nil_iff]
        intro m hm
        obtain ⟨q, hq, rfl⟩ := List.mem_map.mp hm
        simpa using hnot q hq
      simp only [List.map_cons, List.filter_cons, hp, decide_True, if_true, hrest]
      rw [hpa]
    · have hin : (a, t) ∈ ps := by
        rcases List.mem_cons.mp h with h1 | h1
        · rw [← h1] at hp
          exact absurd rfl hp
        · exact h1
      simp only [List.map_cons, List.filter_cons, hp, decide_False]
      exact ih hnd.2 hin

/-- The raw passthrough topic starts with `vallox/raw/`. -/
theorem isRawTopic_rawTopic (register : Nat) : isRawTopic (rawTopic register) = true := by
  simp only [isRawTopic, rawTopic, String.toList, String.data_append,
    List.isPrefixOf_iff_prefix]
  exact List.prefix_append _ _

/-- The topics of each register in `topicFlagMap` are distinct. -/
theorem topicFlagMap_topics_nodup : ∀ p ∈ topicFlagMap, (p.2.map Prod.snd).Nodup := by
  decide

/-- No flag topic is a topic of `topicMap`. -/
theorem flagTopics_not_direct : ∀ t ∈ flagTopics, t ∉ topicMap.map Prod.snd := by
  decide

/-- No flag topic is a raw passthrough topic. -/
theorem flagTopics_not_raw : ∀ t ∈ flagTopics, isRawTopic t = false := by
  decide

/-- A topic listed for a register of `topicFlagMap` is a flag topic. -/
theorem mem_flagTopics (reg : String) (flags : List (String × String)) (flag topic : String)
    (hreg : (reg, flags) ∈ topicFlagMap) (hflag : (flag, topic) ∈ flags) :
    topic ∈ flagTopics := by
  unfold flagTopics
  rw [List.mem_flatMap]
  exact ⟨(reg, flags), hreg, List.mem_map.mpr ⟨(flag, topic), hflag, rfl⟩⟩

/-- Where a message published by `publishValue` comes from: the topic of the
register in `topicMap`, a flag of the register in `topicFlagMap`, or the raw
passthrough. -/
theorem publishValue_mem (K : String → Nat) (EnableRaw : Bool) (event : Event)
    (m : Publication) (hm : m ∈ publishValue K EnableRaw event) :
    (∃ reg, (reg, m.topic) ∈ topicMap ∧ K reg = event.Register ∧
      m.payload = Sprint event.Value) ∨
    (∃ reg flags flag, (reg, flags) ∈ topicFlagMap ∧ K reg = event.Register ∧
      (flag, m.topic) ∈ flags ∧
      m.payload = SprintBool (decide (event.RawValue &&& K flag = K flag))) ∨
    (EnableRaw = true ∧ m.topic = rawTopic event.Register ∧
      m.payload = toString event.RawValue) := by
  unfold publishValue at hm
  rcases List.mem_append.mp hm with hm | hm
  · rcases List.mem_append.mp hm with hm | hm
    · left
      cases hl : lookupKey K topicMap event.Register with
      | none => simp [hl] at hm
      | some topic =>
        rw [hl] at hm
        simp only [List.mem_singleton] at hm
        obtain ⟨reg, hreg, hk⟩ := lookupKey_some K topicMap event.Register topic hl
        exact ⟨reg, by rw [hm]; exact hreg, hk, by rw [hm]⟩
    · right; left
      cases hl : lookupKey K topicFlagMap event.Register with
      | none => simp [hl] at hm
      | some flags =>
        rw [hl] at hm
        simp only [List.mem_map] at hm
        obtain ⟨p, hp, hpm⟩ := hm
        obtain ⟨reg, hreg, hk⟩ := lookupKey_some K topicFlagMap event.Register flags hl
        exact ⟨reg, flags, p.1, hreg, hk, by rw [← hpm]; exact hp, by rw [← hpm]⟩
  · right; right
    cases EnableRaw with
    | false => simp at hm
    | true =>
      simp only [if_true, List.mem_singleton] at hm
      exact ⟨rfl, by rw [hm], by rw [hm]⟩

/-- C12: let the registers of `topicFlagMap` stand for distinct bytes (Go rejects a
map literal with a repeated constant key).  For every event and every
(mask, topic) pair of its register in `topicFlagMap`, exactly one of the messages
of `publishValue` is on that topic, with payload `true` if
`RawValue & mask == mask` and `false` otherwise.  Every message on a flag topic
comes from a pair of the table for the register of the event; in particular a
register absent from `topicFlagMap` gets no flag message. -/
theorem publishValue_flags (K : String → Nat) (EnableRaw : Bool) (event : Event)
    (hkeys : (topicFlagMap.map (fun p => K p.1)).Nodup) :
    (∀ (reg : String) (flags : List (String × String)) (flag topic : String),
      (reg, flags) ∈ topicFlagMap → K reg = event.Register → (flag, topic) ∈ flags →
      (publishValue K EnableRaw event).filter (fun m => decide (m.topic = topic)) =
        [{ topic := topic,
           payload := if event.RawValue &&& K flag = K flag then "true" else "false" }]) ∧
    (∀ m ∈ publishValue K EnableRaw event, m.topic ∈ flagTopics →
      ∃ reg flags flag, (reg, flags) ∈ topicFlagMap ∧ K reg = event.Register ∧
        (flag, m.topic) ∈ flags ∧
        m.payload = if event.RawValue &&& K flag = K flag then "true" else "false") ∧
    ((∀ p ∈ topicFlagMap, K p.1 ≠ event.Register) →
      ∀ m ∈ publishValue K EnableRaw event, m.topic ∉ flagTopics) := by
  have hbool : ∀ flag : String,
      SprintBool (decide (event.RawValue &&& K flag = K flag)) =
        if event.RawValue &&& K flag = K flag then "true" else "false" := by
    intro flag
    by_cases h : event.RawValue &&& K flag = K flag <;> simp [SprintBool, h]
  have hsecond : ∀ m ∈ publishValue K EnableRaw event, m.topic ∈ flagTopics →
      ∃ reg flags flag, (reg, flags) ∈ topicFlagMap ∧ K reg = event.Register ∧
        (flag, m.topic) ∈ flags ∧
        m.payload = if event.RawValue &&& K flag = K flag then "true" else "false" := by
    intro m hm hflag
    rcases publishValue_mem K EnableRaw event m hm with
      ⟨reg, hreg, _, _⟩ | ⟨reg, flags, flag, hreg, hk, hf, hp⟩ | ⟨_, ht, _⟩
    · exfalso
      exact flagTopics_not_direct m.topic hflag (List.mem_map.mpr ⟨(reg, m.topic), hreg, rfl⟩)
    · exact ⟨reg, flags, flag, hreg, hk, hf, by rw [hp, hbool]⟩
    · exfalso
      have h1 := flagTopics_not_raw m.topic hflag
      rw [ht, isRawTopic_rawTopic] at h1
      exact absurd h1 (by decide)
  refine ⟨?_, hsecond, ?_⟩
  · intro reg flags flag topic hreg hk hflag
    have htopic : topic ∈ flagTopics := mem_flagTopics reg flags flag topic hreg hflag
    have hlook : lookupKey K topicFlagMap event.Register = some flags := by
      rw [← hk]
      exact lookupKey_of_mem K topicFlagMap hkeys reg flags hreg
    have hA : (match lookupKey K topicMap event.Register with
        | some t => [({ topic := t, payload := Sprint event.Value } : Publication)]
        | none => []).filter (fun (m : Publication) => decide (m.topic = topic)) = [] := by
      cases hl : lookupKey K topicMap event.Register with
      | none => rfl
      | some t =>
        obtain ⟨r, hr, _⟩ := lookupKey_some K topicMap event.Register t hl
        have hne : ¬ t = topic := by
          intro h
          apply flagTopics_not_direct topic htopic
          rw [← h]
          exact List.mem_map.mpr ⟨(r, t), hr, rfl⟩
        simp [hne]
    have hC : (if EnableRaw = true then
          [({ topic := rawTopic event.Register,
              payload := toString event.RawValue } : Publication)]
        else []).filter (fun (m : Publication) => decide (m.topic = topic)) = [] := by
      have hne : ¬ rawTopic event.Register = topic := by
        intro h
        have h1 := flagTopics_not_raw topic htopic
        rw [← h, isRawTopic_rawTopic] at h1
        exact absurd h1 (by decide)
      cases EnableRaw <;> simp [hne]
    have hB := filter_flag_topic
      (fun p => SprintBool (decide (event.RawValue &&& K p.1 = K p.1))) flags
      (topicFlagMap_topics_nodup (reg, flags) hreg) flag topic hflag
    unfold publishValue
    rw [hlook, List.filter_append, List.filter_append, hA, hC]
    simp only [List.nil_append, List.append_nil]
    rw [hB]
    show [({ topic := topic,
             payload := SprintBool (decide (event.RawValue &&& K flag = K flag)) } :
            Publication)] = _
    rw [hbool]
  · intro hnone m hm hflag
    obtain ⟨reg, flags, _, hreg, hk, _⟩ := hsecond m hm hflag
    exact hnone (reg, flags) hreg hk

/-- Witness of C12: a status event with the bits 0 and 2 set publishes `true` for
the flags at bits 0 and 2 and `false` for the six other flags of the register. -/
theorem publishValue_flags_witness :
    (publishValue exK false exStatusEvent).filter
        (fun m => decide (m.topic = topicStatusRH)) =
      [{ topic := topicStatusRH, payload := "true" }] ∧
    publishValue exK false exStatusEvent =
      [{ topic := topicStatusRaw, payload := "5" },
       { topic := topicStatusPower, payload := "true" },
       { topic := topicStatusCO2, payload := "false" },
       { topic := topicStatusRH, payload := "true" },
       { topic := topicStatusPostHeatingKey, payload := "false" },
       { topic := topicStatusFilterGuard, payload := "false" },
       { topic := topicStatusPostHeatingLed, payload := "false" },
       { topic := topicStatusFault, payload := "false" },
       { topic := topicStatusService, payload := "false" }] :=
  ⟨(publishValue_flags exK false exStatusEvent (by decide)).1 "RegisterStatus"
      [("StatusFlagPower", topicStatusPower), ("StatusFlagCO2", topicStatusCO2),
       ("StatusFlagRH", topicStatusRH), ("StatusFlagHeatingMode", topicStatusPostHeatingKey),
       ("StatusFlagFilter", topicStatusFilterGuard),
       ("StatusFlagHeating", topicStatusPostHeatingLed),
       ("StatusFlagFault", topicStatusFault), ("StatusFlagService", topicStatusService)]
      "StatusFlagRH" topicStatusRH (by decide) (by decide) (by decide),
   by decide⟩

/-! ## Discovery -/

/-- When every descriptor has a string `unique_id`, the inner loop of the announcer
does not panic and publishes the descriptors that `Marshal` accepts, in order. -/
theorem announceEntries_eq (Marshal : Descriptor → Option String) (key : String)
    (entries : List Descriptor) (hid : ∀ d ∈ entries, hasUniqueId d = true) :
    announceEntries Marshal key entries =
      some (entries.flatMap (entryPublications Marshal key)) := by
  induction entries with
  | nil => rfl
  | cons msg rest ih =>
    have hrest := ih (fun d hd => hid d (List.mem_cons_of_mem _ hd))
    have hmsg := hid msg (List.mem_cons_self _ _)
    unfold hasUniqueId at hmsg
    simp only [announceEntries, List.flatMap_cons, entryPublications, hrest]
    cases hM : Marshal msg with
    | none => simp
    | some jsonmsg =>
      cases hl : lookupField msg "unique_id" with
      | none => simp [hl] at hmsg
      | some v =>
        cases v with
        | str uid => simp
        | num n => simp [hl] at hmsg
        | obj fields => simp [hl] at hmsg

/-- When every descriptor has a string `unique_id`, the announcer does not panic
and publishes, component by component, the descriptors that `Marshal` accepts. -/
theorem announceMeToMqttDiscovery_eq (Marshal : Descriptor → Option String)
    (order : List (String × List Descriptor)) (cache : Nat → Option cacheEntry)
    (hid : ∀ p ∈ order, ∀ d ∈ p.2, hasUniqueId d = true) :
    announceMeToMqttDiscovery Marshal order cache =
      some (order.flatMap (fun p => p.2.flatMap (entryPublications Marshal p.1))) := by
  induction order with
  | nil => rfl
  | cons p more ih =>
    obtain ⟨key, entries⟩ := p
    have h1 := announceEntries_eq Marshal key entries (hid (key, entries) (List.mem_cons_self _ _))
    have h2 := ih (fun q hq => hid q (List.mem_cons_of_mem _ hq))
    simp only [announceMeToMqttDiscovery, h1, h2, List.flatMap_cons]

/-- Every descriptor of the catalog has a string `unique_id`. -/
theorem discovery_hasUniqueId : ∀ p ∈ discovery, ∀ d ∈ p.2, hasUniqueId d = true := by
  decide

/-- C15: `announceMeToMqttDiscovery` is stateless.  Whatever the cache argument and
whatever the order in which Go ranges over the map `discovery`, a call does not
panic and publishes a permutation of the same list, computed from the catalog
(and `json.Marshal`) alone: two calls publish the same (topic, payload) pairs.
The function returns publications only, and the loop, on the status `online`,
starts it and keeps its state. -/
theorem announceMeToMqttDiscovery_stateless (Marshal : Descriptor → Option String)
    (order1 order2 : List (String × List Descriptor))
    (cache1 cache2 : Nat → Option cacheEntry)
    (h1 : order1.Perm discovery) (h2 : order2.Perm discovery) :
    (∃ pubs1 pubs2,
      announceMeToMqttDiscovery Marshal order1 cache1 = some pubs1 ∧
      announceMeToMqttDiscovery Marshal order2 cache2 = some pubs2 ∧
      pubs1.Perm (discovery.flatMap (fun p => p.2.flatMap (entryPublications Marshal p.1))) ∧
      pubs1.Perm pubs2 ∧ ∀ m, m ∈ pubs1 ↔ m ∈ pubs2) ∧
    (∀ (dev : Vallox) (now : Int) (s : State),
      mainStep dev now (Msg.status "online") s = some (s, [Effect.announce])) := by
  have hid : ∀ order : List (String × List Descriptor), order.Perm discovery →
      ∀ p ∈ order, ∀ d ∈ p.2, hasUniqueId d = true :=
    fun order h p hp => discovery_hasUniqueId p (h.mem_iff.mp hp)
  have e1 := announceMeToMqttDiscovery_eq Marshal order1 cache1 (hid order1 h1)
  have e2 := announceMeToMqttDiscovery_eq Marshal order2 cache2 (hid order2 h2)
  have p1 := List.Perm.flatMap_right
    (fun p : String × List Descriptor => p.2.flatMap (entryPublications Marshal p.1)) h1
  have p2 := List.Perm.flatMap_right
    (fun p : String × List Descriptor => p.2.flatMap (entryPublications Marshal p.1)) h2
  refine ⟨⟨_, _, e1, e2, p1, p1.trans p2.symm, fun m => (p1.trans p2.symm).mem_iff⟩, ?_⟩
  intro dev now s
  simp [mainStep, mainStepAt, sendCapacity]

/-- Witness of C15: the components in the order of the literal and in the reverse
order, with two different caches. -/
theorem announceMeToMqttDiscovery_stateless_witness :
    ∃ pubs1 pubs2,
      announceMeToMqttDiscovery (fun _ => some "") discovery (fun _ => none) = some pubs1 ∧
      announceMeToMqttDiscovery (fun _ => some "") discovery.reverse exCachedState.cache =
        some pubs2 ∧
      pubs1.Perm (discovery.flatMap
        (fun p => p.2.flatMap (entryPublications (fun _ => some "") p.1))) ∧
      pubs1.Perm pubs2 ∧ ∀ m, m ∈ pubs1 ↔ m ∈ pubs2 :=
  (announceMeToMqttDiscovery_stateless (fun _ => some "") discovery discovery.reverse
    (fun _ => none) exCachedState.cache (List.Perm.refl _) (List.reverse_perm _)).1

/-- When `Marshal` accepts every descriptor, the topics of the publications of the
announcer are the discovery topics of the catalog. -/
theorem announce_topics (Marshal : Descriptor → Option String)
    (hM : ∀ d, Marshal d ≠ none) (order : List (String × List Descriptor)) :
    (order.flatMap (fun p => p.2.flatMap (entryPublications Marshal p.1))).map
        (fun m => m.topic) = discoveryTopics order := by
  have hentry : ∀ (key : String) (d : Descriptor),
      (entryPublications Marshal key d).map (fun m => m.topic) =
        (match stringField "unique_id" d with
          | some uid => [configTopic key uid]
          | none => []) := by
    intro key d
    unfold entryPublications stringField
    cases hd : Marshal d with
    | none => exact absurd hd (hM d)
    | some jsonmsg =>
      cases hl : lookupField d "unique_id" with
      | none => rfl
      | some v => cases v <;> rfl
  have hlist : ∀ (key : String) (ds : List Descriptor),
      (ds.flatMap (entryPublications Marshal key)).map (fun m => m.topic) =
        ds.flatMap (fun d =>
          match stringField "unique_id" d with
          | some uid => [configTopic key uid]
          | none => []) := by
    intro key ds
    induction ds with
    | nil => rfl
    | cons d rest ih =>
      simp only [List.flatMap_cons, List.map_append, hentry, ih]
  unfold discoveryTopics
  induction order with
  | nil => rfl
  | cons p more ih =>
    simp only [List.flatMap_cons, List.map_append, hlist, ih]

/-- C16 fails on the catalog: the component `binary_sensor` lists two different
descriptors, at positions 7 and 30, with the `unique_id` `vallox_status_power` and
the `state_topic` `vallox/status/power`.  So the identifiers and the state topics
of the component are not pairwise distinct (without the second of the two they
are), and whenever `json.Marshal` accepts every descriptor the announcer
publishes twice on one discovery topic. -/
theorem discovery_shared_unique_id :
    (componentEntries "binary_sensor")[7]? ≠ (componentEntries "binary_sensor")[30]? ∧
    ((componentEntries "binary_sensor")[7]?).bind (stringField "unique_id") =
      some "vallox_status_power" ∧
    ((componentEntries "binary_sensor")[30]?).bind (stringField "unique_id") =
      some "vallox_status_power" ∧
    ((componentEntries "binary_sensor")[7]?).bind (stringField "state_topic") =
      some "vallox/status/power" ∧
    ((componentEntries "binary_sensor")[30]?).bind (stringField "state_topic") =
      some "vallox/status/power" ∧
    ¬ ((componentEntries "binary_sensor").map (stringField "unique_id")).Nodup ∧
    ¬ ((componentEntries "binary_sensor").map (stringField "state_topic")).Nodup ∧
    (((componentEntries "binary_sensor").eraseIdx 30).map (stringField "unique_id")).Nodup ∧
    (((componentEntries "binary_sensor").eraseIdx 30).map (stringField "state_topic")).Nodup ∧
    (∀ (Marshal : Descriptor → Option String) (order : List (String × List Descriptor))
      (cache : Nat → Option cacheEntry), (∀ d, Marshal d ≠ none) → order.Perm discovery →
      ∃ pubs, announceMeToMqttDiscovery Marshal order cache = some pubs ∧
        (pubs.map (fun m => m.topic)).count
          "homeassistant/binary_sensor/vallox_status_power/config" = 2 ∧
        ¬ (pubs.map (fun m => m.topic)).Nodup) := by
  refine ⟨by decide, by decide, by decide, by decide, by decide, by decide, by decide,
    by decide, by decide, ?_⟩
  intro Marshal order cache hM hperm
  have hid : ∀ p ∈ order, ∀ d ∈ p.2, hasUniqueId d = true :=
    fun p hp => discovery_hasUniqueId p (hperm.mem_iff.mp hp)
  refine ⟨_, announceMeToMqttDiscovery_eq Marshal order cache hid, ?_⟩
  rw [announce_topics Marshal hM order]
  have hp : (discoveryTopics order).Perm (discoveryTopics discovery) := by
    unfold discoveryTopics
    exact List.Perm.flatMap_right _ hperm
  have hcount : (discoveryTopics discovery).count
      "homeassistant/binary_sensor/vallox_status_power/config" = 2 := by decide
  have hc : (discoveryTopics order).count
      "homeassistant/binary_sensor/vallox_status_power/config" = 2 := by
    rw [hp.count_eq]
    exact hcount
  refine ⟨hc, ?_⟩
  intro hnd
  have := List.nodup_iff_count_le_one.mp hnd
    "homeassistant/binary_sensor/vallox_status_power/config"
  omega

/-- C18 fails on the catalog: the descriptor `vallox_post_heating_target_temp`
(position 10 of the component `sensor`) advertises the state topic
`vallox/postHeating/targetTemp`, which is neither a value of `topicMap` nor of an
inner map of `topicFlagMap`, and on which `publishValue` never publishes.  It is
the only advertised state topic that is not in the tables. -/
theorem discovery_unpublished_state_topic :
    ((componentEntries "sensor")[10]?).bind (stringField "unique_id") =
      some "vallox_post_heating_target_temp" ∧
    ((componentEntries "sensor")[10]?).bind (stringField "state_topic") =
      some topicPostHeatingTargetTemp ∧
    topicPostHeatingTargetTemp = "vallox/postHeating/targetTemp" ∧
    topicPostHeatingTargetTemp ∉ topicMap.map Prod.snd ∧
    topicPostHeatingTargetTemp ∉ flagTopics ∧
    stateTopics.filter (fun t => !publishable t) = [topicPostHeatingTargetTemp] ∧
    (∀ (K : String → Nat) (EnableRaw : Bool) (event : Event),
      ∀ m ∈ publishValue K EnableRaw event, m.topic ≠ topicPostHeatingTargetTemp) := by
  have h1 : topicPostHeatingTargetTemp ∉ topicMap.map Prod.snd := by decide
  have h2 : topicPostHeatingTargetTemp ∉ flagTopics := by decide
  refine ⟨by decide, by decide, rfl, h1, h2, by decide, ?_⟩
  intro K EnableRaw event m hm heq
  rcases publishValue_mem K EnableRaw event m hm with
    ⟨reg, hreg, _, _⟩ | ⟨reg, flags, flag, hreg, _, hf, _⟩ | ⟨_, ht, _⟩
  · apply h1
    rw [← heq]
    exact List.mem_map.mpr ⟨(reg, m.topic), hreg, rfl⟩
  · apply h2
    rw [← heq]
    exact mem_flagTopics reg flags flag m.topic hreg hf
  · have hr : isRawTopic topicPostHeatingTargetTemp = false := by decide
    rw [← heq, ht, isRawTopic_rawTopic] at hr
    exact absurd hr (by decide)

/-- Witness of C13: the fan speed entry is 16 minutes old and gets queried. -/
theorem resendOldValues_iff_witness :
    resendOldValues exDev (16 * minute) exStaleState.cache = [Effect.Query 0x29] :=
  (resendOldValues_iff exDev (16 * minute) exStaleState.cache).1
    ⟨{ time := 0, value := exSpeedEvent }, by decide, by decide⟩

end ValloxMqtt
